import Mathlib

/-!
# InputLeap: chunked transfer pipeline and client handshake

A shallow embedding of `StreamChunker.cpp`, `FileChunk.cpp`, `ClientProxy1_5.cpp`
and the handshake part of `Client.cpp`.

* Byte strings (`std::string`, `char*` buffers) are `List Byte`.
* `size_t` values are `Nat`: every size here is bounded by the length of a string held
  in memory plus `g_chunkSize`, far below `2^64`, so no operation wraps.
* A posted event is appended to the queue of the `IEventQueue`.
* `StreamChunker::sendFile` runs on a thread of its own while `interruptFile` is called
  from the dispatcher thread, so it is embedded as a step machine: one step between two
  accesses of the shared flags or two posted events, interleaved with `interruptFile`.
  A step and a call of `interruptFile` are atomic: `interruptFile` only ever sets
  `s_interruptFile`, and `sendFile` only clears it right after reading it set, so a
  finer interleaving shows nothing that a schedule of atomic actions does not.
* What a stream delivers is what was written to it: `ProtocolUtil::writef` appends a
  message, `ProtocolUtil::readf` yields the fields of a message or fails.
* Logging has no effect on any result and is left out.
-/

namespace inputleap

/-! ## Basic types -/

/-- One `char` / `std::uint8_t`. -/
abbrev Byte := Fin 256

/-- An event target: an opaque object identity (`void*`). -/
abbrev Target := Nat

/-- Modelled from the spec: the chunk mark `kDataStart` of `protocol_types.h` (not among
the sources); the spec gives `0x01 = Start`. -/
def kDataStart : Byte := 1

/-- Modelled from the spec: the chunk mark `kDataChunk` of `protocol_types.h` (not among
the sources); the spec gives `0x02 = Data`. -/
def kDataChunk : Byte := 2

/-- Modelled from the spec: the chunk mark `kDataEnd` of `protocol_types.h` (not among
the sources); the spec gives `0x03 = End`. -/
def kDataEnd : Byte := 3

/-- Modelled from the spec: the result codes of `FileChunk::assemble`, an enumeration of
`protocol_types.h` (not among the sources) with the four members the code returns. -/
inductive EDataReceived
  | kStart
  | kNotFinish
  | kFinish
  | kError
deriving DecidableEq, Repr

/-- The constant `g_chunkSize` of `StreamChunker.cpp`: 32 KiB. -/
def g_chunkSize : Nat := 32 * 1024

/-- Modelled from the spec: `FILE_CHUNK_META_SIZE` of `FileChunk.h` (not among the
sources): the bytes of a file chunk that are not payload, namely the mark at index 0 and
the terminating NUL that `start`, `data` and `end` write after the payload. -/
def FILE_CHUNK_META_SIZE : Nat := 2

/-- Decimal digits of `n`, most significant first, as ASCII bytes; `fuel` bounds the
number of digits. -/
def sizeDigits : Nat → Nat → List Byte
  | 0, _ => []
  | fuel + 1, n =>
    if n < 10 then [Fin.ofNat (48 + n)]
    else sizeDigits fuel (n / 10) ++ [Fin.ofNat (48 + n % 10)]

/-- Modelled from the spec: `inputleap::string::sizeTypeToString` of `base/String` (not
among the sources); the spec has the Start payload be `ascii(total_size)`, the decimal
text of the size. -/
def sizeTypeToString (n : Nat) : List Byte := sizeDigits (n + 1) n

/-- A decimal parser: the value of a string of ASCII digits. One function that can stand
for `stringToSizeType`, which `FileChunk.assemble` takes as an argument. -/
def decimalToSize (s : List Byte) : Nat :=
  s.foldl (fun acc b => 10 * acc + (b.val - 48)) 0

/-! ## FileChunk -/

/-- The class `FileChunk` (a `Chunk`): the raw bytes `chunk_` and `m_dataSize`. -/
structure FileChunk where
  chunk_ : List Byte
  m_dataSize : Nat
deriving DecidableEq, Repr

/-- The constructor `FileChunk::FileChunk(size_t size)`. -/
def FileChunk.new (size : Nat) : FileChunk :=
  { chunk_ := List.replicate size 0, m_dataSize := size - FILE_CHUNK_META_SIZE }

/-- The call `memcpy(&dst[pos], src, n)`: the first `n` bytes of `src` overwrite `dst`
from index `pos` on. -/
def memcpy (dst : List Byte) (pos : Nat) (src : List Byte) (n : Nat) : List Byte :=
  dst.take pos ++ src.take n ++ dst.drop (pos + n)

/-- The function `FileChunk::start(const std::string& size)`. -/
def FileChunk.start (size : List Byte) : FileChunk :=
  let sizeLength := size.length
  let start := FileChunk.new (sizeLength + FILE_CHUNK_META_SIZE)
  let chunk := start.chunk_.set 0 kDataStart
  let chunk := memcpy chunk 1 size sizeLength
  let chunk := chunk.set (sizeLength + 1) 0
  { start with chunk_ := chunk }

/-- The function `FileChunk::data(std::uint8_t* data, size_t dataSize)`. -/
def FileChunk.data (data : List Byte) (dataSize : Nat) : FileChunk :=
  let chunk := FileChunk.new (dataSize + FILE_CHUNK_META_SIZE)
  let chunkData := chunk.chunk_.set 0 kDataChunk
  let chunkData := memcpy chunkData 1 data dataSize
  let chunkData := chunkData.set (dataSize + 1) 0
  { chunk with chunk_ := chunkData }

/-- The function `FileChunk::end()`. -/
def FileChunk.end_ : FileChunk :=
  let e := FileChunk.new FILE_CHUNK_META_SIZE
  let chunk := e.chunk_.set 0 kDataEnd
  let chunk := chunk.set 1 0
  { e with chunk_ := chunk }

/-- A message written to a stream by `ProtocolUtil::writef`, by its format:
`kMsgDFileTransfer` is `DFTR` with a mark and a string, `kMsgHelloBack` the hello reply
with two versions and a name. -/
inductive Message
  | kMsgDFileTransfer (mark : Byte) (data : List Byte)
  | kMsgHelloBack (major minor : Int) (name : String)
deriving DecidableEq, Repr

/-- The function `FileChunk::send`: builds `std::string chunk(data, dataSize)` and writes
one `kMsgDFileTransfer` message to the stream (the list of messages written so far). -/
def FileChunk.send (stream : List Message) (mark : Byte) (data : List Byte)
    (dataSize : Nat) : List Message :=
  let chunk := data.take dataSize
  stream ++ [Message.kMsgDFileTransfer mark chunk]

/-- The function `FileChunk::assemble`. `readf` is the outcome of
`ProtocolUtil::readf(stream, kMsgDFileTransfer + 4, &mark, &content)`: `none` when it
fails, else the mark and the content read. `stringToSizeType` is the parser of
`base/String` (not among the sources). Returns the result code and the new values of the
two reference arguments `dataReceived` and `expectedSize`. -/
def FileChunk.assemble (stringToSizeType : List Byte → Nat)
    (readf : Option (Byte × List Byte)) (dataReceived : List Byte) (expectedSize : Nat) :
    EDataReceived × List Byte × Nat :=
  match readf with
  | none => (EDataReceived.kError, dataReceived, expectedSize)
  | some (mark, content) =>
    if mark = kDataStart then
      (EDataReceived.kStart, [], stringToSizeType content)
    else if mark = kDataChunk then
      (EDataReceived.kNotFinish, dataReceived ++ content, expectedSize)
    else if mark = kDataEnd then
      if expectedSize ≠ dataReceived.length then
        (EDataReceived.kError, dataReceived, expectedSize)
      else
        (EDataReceived.kFinish, dataReceived, expectedSize)
    else
      (EDataReceived.kError, dataReceived, expectedSize)

/-! ## Events and the event queue -/

/-- The event types of `base/EventTypes.h` that the embedded code uses. -/
inductive EventType
  | FILE_CHUNK_SENDING
  | FILE_KEEPALIVE
  | FILE_RECEIVE_COMPLETED
  | CLIPBOARD_SENDING
  | CLIPBOARD_GRABBED
  | CLIENT_CONNECTED
  | CLIENT_DISCONNECTED
  | CLIENT_CONNECTION_FAILED
  | SCREEN_SUSPEND
  | SCREEN_RESUME
  | SCREEN_SHAPE_CHANGED
  | DATA_SOCKET_CONNECTED
  | DATA_SOCKET_SECURE_CONNECTED
  | DATA_SOCKET_CONNECTION_FAILED
  | SOCKET_DISCONNECTED
  | SOCKET_STOP_RETRY
  | STREAM_INPUT_READY
  | STREAM_OUTPUT_ERROR
  | STREAM_INPUT_SHUTDOWN
  | STREAM_OUTPUT_SHUTDOWN
  | TIMER
  | CLIENT_LISTENER_CONNECTED
  | CLIENT_PROXY_DISCONNECTED
  | CLIENT_PROXY_UNKNOWN_SUCCESS
  | CLIENT_PROXY_UNKNOWN_FAILURE
deriving DecidableEq, Repr

/-- Modelled from the spec: a clipboard chunk of `ClipboardChunk.cpp` (not among the
sources); the spec has each chunk carry `id, sequence, mark, payload`. -/
structure ClipboardChunk where
  id : Nat
  sequence : Nat
  mark : Byte
  payload : List Byte
deriving DecidableEq, Repr

/-- Modelled from the spec: `ClipboardChunk::start(id, sequence, size)`. -/
def ClipboardChunk.start (id sequence : Nat) (size : List Byte) : ClipboardChunk :=
  { id := id, sequence := sequence, mark := kDataStart, payload := size }

/-- Modelled from the spec: `ClipboardChunk::data(id, sequence, data)`. -/
def ClipboardChunk.data (id sequence : Nat) (data : List Byte) : ClipboardChunk :=
  { id := id, sequence := sequence, mark := kDataChunk, payload := data }

/-- Modelled from the spec: `ClipboardChunk::end(id, sequence)`. -/
def ClipboardChunk.end_ (id sequence : Nat) : ClipboardChunk :=
  { id := id, sequence := sequence, mark := kDataEnd, payload := [] }

/-- The text of a `FailInfo`: a literal of the source, or the `what()` of an
`XIncompatibleClient(major, minor)` (its wording is in `Exceptions`, not among the
sources). -/
inductive FailWhat
  | text (s : String)
  | XIncompatibleClient (major minor : Int)
deriving DecidableEq, Repr

/-- The data an event carries. -/
inductive EventData
  | none
  | fileChunk (chunk : FileChunk)
  | clipboardChunk (chunk : ClipboardChunk)
  | failInfo (m_what : FailWhat) (m_retry : Bool)
deriving DecidableEq, Repr

/-- An event: type, target and data. -/
structure Event where
  type : EventType
  target : Target
  data : EventData
deriving DecidableEq, Repr

/-- The methods of `Client` that are registered as event handlers, and the two of
`ClientListener` (`listener_handle_unknown_client`, `listener_handle_client_disconnected`). -/
inductive ClientHandler
  | listener_handle_unknown_client
  | listener_handle_client_disconnected
  | handle_suspend
  | handle_resume
  | handle_file_chunk_sending
  | handle_file_receive_completed
  | handle_connected
  | handle_connection_failed
  | handle_disconnected
  | handle_hello
  | handle_output_error
  | handle_stop_retry
  | handle_shape_changed
  | handle_clipboard_grabbed
  | handle_connect_timeout
deriving DecidableEq, Repr

/-- A timer of the event queue: its identity (also its event target), its duration in
seconds and whether it fires once. -/
structure EventQueueTimer where
  id : Target
  duration : Nat
  oneShot : Bool
deriving DecidableEq, Repr

/-- Modelled from the spec: the dispatcher `IEventQueue` of `base/` (not among the
sources). `add_event` appends to the queue; `add_handler` registers a handler under
`(type, target)`, replacing one already there; `removeHandler` is idempotent;
`newOneShotTimer` hands out a new timer; `deleteTimer` cancels one. -/
structure EventQueue where
  events : List Event
  handlers : List (EventType × Target × ClientHandler)
  timers : List EventQueueTimer
  nextTimer : Target

/-- Modelled from the spec: `IEventQueue::add_event`. -/
def EventQueue.add_event (q : EventQueue) (type : EventType) (target : Target)
    (data : EventData) : EventQueue :=
  { q with events := q.events ++ [{ type := type, target := target, data := data }] }

/-- Modelled from the spec: `IEventQueue::removeHandler`. -/
def EventQueue.removeHandler (q : EventQueue) (type : EventType) (target : Target) :
    EventQueue :=
  { q with handlers := q.handlers.filter (fun h => !(h.1 = type && h.2.1 = target)) }

/-- Modelled from the spec: `IEventQueue::add_handler`. -/
def EventQueue.add_handler (q : EventQueue) (type : EventType) (target : Target)
    (handler : ClientHandler) : EventQueue :=
  { q with handlers := (q.removeHandler type target).handlers ++ [(type, target, handler)] }

/-- Modelled from the spec: `IEventQueue::newOneShotTimer(duration, nullptr)`; returns the
queue and the new timer. -/
def EventQueue.newOneShotTimer (q : EventQueue) (duration : Nat) : EventQueue × Target :=
  ({ q with timers := q.timers ++ [{ id := q.nextTimer, duration := duration, oneShot := true }],
            nextTimer := q.nextTimer + 1 }, q.nextTimer)

/-- Modelled from the spec: `IEventQueue::deleteTimer`. -/
def EventQueue.deleteTimer (q : EventQueue) (timer : Target) : EventQueue :=
  { q with timers := q.timers.filter (fun t => !(t.id = timer)) }

/-- The file chunks of the `FILE_CHUNK_SENDING` events in a list of events, in order. -/
def fileChunksOf : List Event → List FileChunk
  | [] => []
  | e :: es =>
    match e.type, e.data with
    | EventType.FILE_CHUNK_SENDING, EventData.fileChunk c => c :: fileChunksOf es
    | _, _ => fileChunksOf es

/-- The clipboard chunks of the `CLIPBOARD_SENDING` events in a list of events, in order. -/
def clipboardChunksOf : List Event → List ClipboardChunk
  | [] => []
  | e :: es =>
    match e.type, e.data with
    | EventType.CLIPBOARD_SENDING, EventData.clipboardChunk c => c :: clipboardChunksOf es
    | _, _ => clipboardChunksOf es

/-! ## StreamChunker -/

/-- The static members of `StreamChunker`, shared by all threads. -/
structure StreamChunker where
  s_isChunkingFile : Bool
  s_interruptFile : Bool
deriving DecidableEq, Repr

/-- The function `StreamChunker::interruptFile`. -/
def StreamChunker.interruptFile (s : StreamChunker) : StreamChunker :=
  if s.s_isChunkingFile then { s with s_interruptFile := true } else s

/-- Where a thread running `StreamChunker::sendFile` stands: before line 45
(`s_isChunkingFile = true`), before opening the file and posting Start (lines 47 to 68),
before the flag check of the loop (line 71), before the keepalive (line 77), before the
Data chunk (lines 80 to 99), before End (lines 103 to 109), before line 111
(`s_isChunkingFile = false`), returned, or left by the exception of line 50. -/
inductive SendFilePc
  | entry
  | sendStart
  | loopCheck
  | keepAlive
  | sendData
  | sendEnd
  | finish
  | done
  | thrown
deriving DecidableEq, Repr

/-- A run of `StreamChunker::sendFile(filename, events, eventTarget)` in progress: the
program point, the content of the file (`none` when it cannot be opened), the locals
`size`, `sentLength`, `chunkSize`, the statics and the event queue. -/
structure SendFile where
  pc : SendFilePc
  file : Option (List Byte)
  eventTarget : Target
  size : Nat
  sentLength : Nat
  chunkSize : Nat
  statics : StreamChunker
  events : EventQueue

/-- The call `file.read(chunkData, chunkSize)` after `file.seekg(pos)`. -/
def fileRead (content : List Byte) (pos n : Nat) : List Byte :=
  (content.drop pos).take n

/-- A call of `sendFile` about to start, with the statics and the queue as they are. -/
def SendFile.init (file : Option (List Byte)) (events : EventQueue) (eventTarget : Target)
    (statics : StreamChunker) : SendFile :=
  { pc := SendFilePc.entry, file := file, eventTarget := eventTarget, size := 0,
    sentLength := 0, chunkSize := 0, statics := statics, events := events }

/-- One step of `StreamChunker::sendFile`, from one program point to the next. -/
def SendFile.step (s : SendFile) : SendFile :=
  match s.pc with
  | SendFilePc.entry =>
    { s with statics := { s.statics with s_isChunkingFile := true },
             pc := SendFilePc.sendStart }
  | SendFilePc.sendStart =>
    match s.file with
    | none => { s with pc := SendFilePc.thrown }
    | some content =>
      let size := content.length
      let fileSize := sizeTypeToString size
      let sizeMessage := FileChunk.start fileSize
      { s with size := size,
               events := s.events.add_event EventType.FILE_CHUNK_SENDING s.eventTarget
                 (EventData.fileChunk sizeMessage),
               sentLength := 0,
               chunkSize := g_chunkSize,
               pc := SendFilePc.loopCheck }
  | SendFilePc.loopCheck =>
    if s.statics.s_interruptFile then
      { s with statics := { s.statics with s_interruptFile := false },
               pc := SendFilePc.sendEnd }
    else
      { s with pc := SendFilePc.keepAlive }
  | SendFilePc.keepAlive =>
    { s with events := s.events.add_event EventType.FILE_KEEPALIVE s.eventTarget
               EventData.none,
             pc := SendFilePc.sendData }
  | SendFilePc.sendData =>
    let chunkSize :=
      if s.sentLength + s.chunkSize > s.size then s.size - s.sentLength else s.chunkSize
    let chunkData := fileRead (s.file.getD []) s.sentLength chunkSize
    let fileChunk := FileChunk.data chunkData chunkSize
    let sentLength := s.sentLength + chunkSize
    { s with chunkSize := chunkSize,
             events := s.events.add_event EventType.FILE_CHUNK_SENDING s.eventTarget
               (EventData.fileChunk fileChunk),
             sentLength := sentLength,
             pc := if sentLength = s.size then SendFilePc.sendEnd else SendFilePc.loopCheck }
  | SendFilePc.sendEnd =>
    { s with events := s.events.add_event EventType.FILE_CHUNK_SENDING s.eventTarget
               (EventData.fileChunk FileChunk.end_),
             pc := SendFilePc.finish }
  | SendFilePc.finish =>
    { s with statics := { s.statics with s_isChunkingFile := false },
             pc := SendFilePc.done }
  | SendFilePc.done => s
  | SendFilePc.thrown => s

/-- What happens next while one call of `sendFile` runs and no other call of `sendFile`
is in progress: its thread takes a step, or another thread calls
`StreamChunker::interruptFile()`. Two calls of `sendFile` at once are `SendFilePair`. -/
inductive Action
  | step
  | interrupt
deriving DecidableEq, Repr

/-- The effect of one action. -/
def SendFile.act (s : SendFile) : Action → SendFile
  | Action.step => s.step
  | Action.interrupt => { s with statics := s.statics.interruptFile }

/-- The effect of a schedule, a list of actions in the order they happen. -/
def SendFile.run (s : SendFile) (schedule : List Action) : SendFile :=
  schedule.foldl SendFile.act s

/-- The state after `n` steps of `sendFile` with no call of `interruptFile` in between. -/
def SendFile.exec : Nat → SendFile → SendFile
  | 0, s => s
  | n + 1, s => SendFile.exec n s.step

/-- A number of steps that brings an undisturbed `sendFile` of a file of `size` bytes to
its return: three per loop iteration and four outside the loop. -/
def sendFileSteps (size : Nat) : Nat := 3 * (size / g_chunkSize + 1) + 4

/-- The function `StreamChunker::sendFile(filename, events, eventTarget)`, run from call
to return with no `interruptFile` call in between; `content` is the content of the file. -/
def StreamChunker.sendFile (content : List Byte) (events : EventQueue)
    (eventTarget : Target) (statics : StreamChunker) : SendFile :=
  SendFile.exec (sendFileSteps content.length)
    (SendFile.init (some content) events eventTarget statics)

/-- The call `data.substr(pos, n)`: `none` stands for the `std::out_of_range` it throws
when `pos` exceeds the size. -/
def substr (data : List Byte) (pos n : Nat) : Option (List Byte) :=
  if pos > data.length then none else some ((data.drop pos).take n)

/-- The loop of `StreamChunker::sendClipboard` (lines 135 to 154), `fuel` bounding the
number of iterations. `none` stands for an exception, a read past the buffer of the
substring, or no fuel left. -/
def StreamChunker.sendClipboardLoop (data : List Byte) (size id sequence : Nat)
    (eventTarget : Target) : Nat → Nat → Nat → EventQueue → Option (Nat × EventQueue)
  | 0, _, _, _ => none
  | fuel + 1, sentLength, chunkSize, events =>
    let events := events.add_event EventType.FILE_KEEPALIVE eventTarget EventData.none
    let chunkSize := if sentLength + chunkSize > size then size - sentLength else chunkSize
    match substr data sentLength chunkSize with
    | none => none
    | some sub =>
      if sub.length < chunkSize then none
      else
        let chunk := sub.take chunkSize
        let dataChunk := ClipboardChunk.data id sequence chunk
        let events := events.add_event EventType.CLIPBOARD_SENDING eventTarget
          (EventData.clipboardChunk dataChunk)
        let sentLength := sentLength + chunkSize
        if sentLength = size then some (sentLength, events)
        else StreamChunker.sendClipboardLoop data size id sequence eventTarget fuel
          sentLength chunkSize events

/-- The function `StreamChunker::sendClipboard(data, size, id, sequence, events,
eventTarget)`; returns the queue after the call. -/
def StreamChunker.sendClipboard (data : List Byte) (size id sequence : Nat)
    (events : EventQueue) (eventTarget : Target) : Option EventQueue :=
  let dataSize := sizeTypeToString size
  let sizeMessage := ClipboardChunk.start id sequence dataSize
  let events := events.add_event EventType.CLIPBOARD_SENDING eventTarget
    (EventData.clipboardChunk sizeMessage)
  match StreamChunker.sendClipboardLoop data size id sequence eventTarget
      (size / g_chunkSize + 1) 0 g_chunkSize events with
  | none => none
  | some (_, events) =>
    let e := ClipboardChunk.end_ id sequence
    some (events.add_event EventType.CLIPBOARD_SENDING eventTarget
      (EventData.clipboardChunk e))

/-! ## The relay of a posted file chunk to the receiver -/

/-- The function `Client::send_file_chunk` followed by `fileChunkSending` (as in
`ClientProxy1_5::fileChunkSending`): the chunk goes to `FileChunk::send` with mark
`chunk_[0]`, data `&chunk_[1]` and size `m_dataSize`. -/
def Client.send_file_chunk (stream : List Message) (chunk : FileChunk) : List Message :=
  FileChunk.send stream (chunk.chunk_.getD 0 0) (chunk.chunk_.drop 1) chunk.m_dataSize

/-- The messages written when the posted file chunks are relayed one by one, in order. -/
def relayFileChunks (chunks : List FileChunk) : List Message :=
  chunks.foldl Client.send_file_chunk []

/-- What `ProtocolUtil::readf(stream, kMsgDFileTransfer + 4, &mark, &content)` yields on
a message: the mark and content of a file transfer message, failure on another one. -/
def readfFileTransfer : Message → Option (Byte × List Byte)
  | Message.kMsgDFileTransfer mark data => some (mark, data)
  | Message.kMsgHelloBack _ _ _ => none

/-- The receiver: `FileChunk::assemble` called once per message, in order. The state is
the result of the last call (`none` before the first), `dataReceived` and `expectedSize`. -/
def assembleAll (stringToSizeType : List Byte → Nat) :
    List Message → Option EDataReceived × List Byte × Nat →
    Option EDataReceived × List Byte × Nat
  | [], st => st
  | m :: ms, (_, dataReceived, expectedSize) =>
    let r := FileChunk.assemble stringToSizeType (readfFileTransfer m) dataReceived
      expectedSize
    assembleAll stringToSizeType ms (some r.1, r.2.1, r.2.2)

/-! ## ClientProxy1_5 -/

/-- The part of `Server` (`server/Server.h`, not among the sources) that
`ClientProxy1_5::fileChunkReceived` uses: the object as an event target, and what
`getReceivedFileData()`, `getExpectedFileSize()` and `getFakeDragFileList()` refer to. -/
structure Server where
  target : Target
  m_receivedFileData : List Byte
  m_expectedFileSize : Nat
  m_fakeDragFileList : List String

/-- The function `ClientProxy1_5::fileChunkReceived`; returns the server and the queue
after the call. -/
def ClientProxy1_5.fileChunkReceived (stringToSizeType : List Byte → Nat)
    (readf : Option (Byte × List Byte)) (server : Server) (m_events : EventQueue) :
    Server × EventQueue :=
  let r := FileChunk.assemble stringToSizeType readf server.m_receivedFileData
    server.m_expectedFileSize
  let result := r.1
  let server := { server with m_receivedFileData := r.2.1, m_expectedFileSize := r.2.2 }
  if result = EDataReceived.kFinish then
    (server, m_events.add_event EventType.FILE_RECEIVE_COMPLETED server.target EventData.none)
  else if result = EDataReceived.kStart then
    (server, m_events)
  else
    (server, m_events)

/-! ## Client -/

/-- The fields of `ClientArgs` that `Client.cpp` reads. -/
structure ClientArgs where
  m_enableCrypto : Bool
  m_enableDragDrop : Bool
  m_restartable : Bool
deriving DecidableEq, Repr

/-- The local screen `inputleap::Screen` as the client sees it: its event target, whether
it is enabled, and the clipboard ids that `grabClipboard` was called with, in order. -/
structure Screen where
  eventTarget : Target
  enabled : Bool
  grabbed : List Nat := []
deriving DecidableEq, Repr

/-- The stream of the client (`m_stream`): its event target and what `isReady()` says. -/
structure Stream where
  eventTarget : Target
  isReady : Bool
deriving DecidableEq, Repr

/-- The object `new ServerProxy(this, m_stream, m_events)` (`client/ServerProxy`, not
among the sources): the stream it was given. -/
structure ServerProxy where
  m_stream : Stream
deriving DecidableEq, Repr

/-- A call that the client makes on its server proxy (`client/ServerProxy`, not among
the sources): `onGrabClipboard(id)`, `onClipboardChanged(id, &clipboard)` with the
marshalled clipboard, or `onInfoChanged()`. -/
inductive ProxyCall
  | onGrabClipboard (id : Nat)
  | onClipboardChanged (id : Nat) (data : List Byte)
  | onInfoChanged
deriving DecidableEq, Repr

/-- The class `Client`: the object itself as an event target (`this`), the members that
the embedded methods read or write, `written`, the messages written to the server
through `m_stream` so far, and `proxyCalls`, the calls made on the server proxy so far. -/
structure Client where
  this : Target
  m_name : String
  m_screen : Screen
  m_stream : Option Stream
  m_timer : Option Target
  m_server : Option ServerProxy
  m_ready : Bool
  m_active : Bool
  m_suspended : Bool
  m_connectOnResume : Bool
  m_events : EventQueue
  m_args : ClientArgs
  m_enableClipboard : Bool
  m_ownClipboard : Nat → Bool
  m_sentClipboard : Nat → Bool
  m_timeClipboard : Nat → Nat
  written : List Message
  m_dataClipboard : Nat → List Byte := fun _ => []
  proxyCalls : List ProxyCall := []

/-- The function `Client::getEventTarget`. -/
def Client.getEventTarget (c : Client) : Target := c.m_screen.eventTarget

/-- The constructor `Client::Client`: `this` is the identity of the new object; the
address and the socket factory are left out. -/
def Client.new (this : Target) (events : EventQueue) (name : String) (screen : Screen)
    (args : ClientArgs) : Client :=
  let q := events.add_handler EventType.SCREEN_SUSPEND screen.eventTarget
    ClientHandler.handle_suspend
  let q := q.add_handler EventType.SCREEN_RESUME screen.eventTarget
    ClientHandler.handle_resume
  let q :=
    if args.m_enableDragDrop then
      (q.add_handler EventType.FILE_CHUNK_SENDING this
        ClientHandler.handle_file_chunk_sending).add_handler
          EventType.FILE_RECEIVE_COMPLETED this ClientHandler.handle_file_receive_completed
    else q
  { this := this, m_name := name, m_screen := screen, m_stream := none, m_timer := none,
    m_server := none, m_ready := false, m_active := false, m_suspended := false,
    m_connectOnResume := false, m_events := q, m_args := args, m_enableClipboard := true,
    m_ownClipboard := fun _ => false, m_sentClipboard := fun _ => false,
    m_timeClipboard := fun _ => 0, written := [] }

/-- The function `Client::isConnected`. -/
def Client.isConnected (c : Client) : Bool := c.m_server.isSome

/-- The function `Client::isConnecting`. -/
def Client.isConnecting (c : Client) : Bool := c.m_timer.isSome

/-- The function `Client::sendConnectionFailedEvent`. -/
def Client.sendConnectionFailedEvent (c : Client) (msg : FailWhat) : Client :=
  let q := c.m_events.add_event EventType.CLIENT_CONNECTION_FAILED c.getEventTarget
    (EventData.failInfo msg true)
  { c with m_events := q }

/-- The function `Client::cleanupTimer`. -/
def Client.cleanupTimer (c : Client) : Client :=
  match c.m_timer with
  | none => c
  | some timer =>
    { c with m_events := (c.m_events.removeHandler EventType.TIMER timer).deleteTimer timer,
             m_timer := none }

/-- The function `Client::cleanupStream`. -/
def Client.cleanupStream (c : Client) : Client :=
  { c with m_stream := none }

/-- The function `Client::cleanupConnection`. -/
def Client.cleanupConnection (c : Client) : Client :=
  match c.m_stream with
  | none => c
  | some stream =>
    let t := stream.eventTarget
    let q := c.m_events.removeHandler EventType.STREAM_INPUT_READY t
    let q := q.removeHandler EventType.STREAM_OUTPUT_ERROR t
    let q := q.removeHandler EventType.STREAM_INPUT_SHUTDOWN t
    let q := q.removeHandler EventType.STREAM_OUTPUT_SHUTDOWN t
    let q := q.removeHandler EventType.SOCKET_DISCONNECTED t
    let q := q.removeHandler EventType.SOCKET_STOP_RETRY t
    Client.cleanupStream { c with m_events := q }

/-- The function `Client::setupScreen`, called with a stream (`m_stream` is not null). -/
def Client.setupScreen (c : Client) (stream : Stream) : Client :=
  let q := c.m_events.add_handler EventType.SCREEN_SHAPE_CHANGED c.getEventTarget
    ClientHandler.handle_shape_changed
  let q := q.add_handler EventType.CLIPBOARD_GRABBED c.getEventTarget
    ClientHandler.handle_clipboard_grabbed
  { c with m_ready := false, m_server := some { m_stream := stream }, m_events := q }

/-- The function `Client::handle_hello`. `kProtocolMajorVersion` and
`kProtocolMinorVersion` are the constants of `protocol_types.h` (not among the sources);
`hello` is the outcome of `ProtocolUtil::readf(m_stream, kMsgHello, &major, &minor)`,
`none` when it fails. The result is `none` when `m_stream` is null, which the handler
dereferences. -/
def Client.handle_hello (kProtocolMajorVersion kProtocolMinorVersion : Int)
    (hello : Option (Int × Int)) (c : Client) : Option Client :=
  match c.m_stream with
  | none => none
  | some stream =>
    match hello with
    | none =>
      let c := c.sendConnectionFailedEvent
        (FailWhat.text "Protocol error from server, check encryption settings")
      let c := c.cleanupTimer
      some c.cleanupConnection
    | some (major, minor) =>
      if major < kProtocolMajorVersion ∨
          (major = kProtocolMajorVersion ∧ minor < kProtocolMinorVersion) then
        let c := c.sendConnectionFailedEvent (FailWhat.XIncompatibleClient major minor)
        let c := c.cleanupTimer
        some c.cleanupConnection
      else
        let c := { c with written := c.written ++
          [Message.kMsgHelloBack kProtocolMajorVersion kProtocolMinorVersion c.m_name] }
        let c := c.setupScreen stream
        let c := c.cleanupTimer
        if stream.isReady then
          let q := c.m_events.add_event EventType.STREAM_INPUT_READY stream.eventTarget
            EventData.none
          some { c with m_events := q }
        else
          some c

/-- The function `Client::send_event`. -/
def Client.send_event (c : Client) (type : EventType) : Client :=
  let q := c.m_events.add_event type c.getEventTarget EventData.none
  { c with m_events := q }

/-- The function `Client::setupConnecting`, called with the stream `m_stream` points to. -/
def Client.setupConnecting (c : Client) (stream : Stream) : Client :=
  let q :=
    if c.m_args.m_enableCrypto then
      c.m_events.add_handler EventType.DATA_SOCKET_SECURE_CONNECTED stream.eventTarget
        ClientHandler.handle_connected
    else
      c.m_events.add_handler EventType.DATA_SOCKET_CONNECTED stream.eventTarget
        ClientHandler.handle_connected
  let q := q.add_handler EventType.DATA_SOCKET_CONNECTION_FAILED stream.eventTarget
    ClientHandler.handle_connection_failed
  { c with m_events := q }

/-- The function `Client::setupConnection`, called with the stream `m_stream` points to. -/
def Client.setupConnection (c : Client) (stream : Stream) : Client :=
  let t := stream.eventTarget
  let q := c.m_events.add_handler EventType.SOCKET_DISCONNECTED t
    ClientHandler.handle_disconnected
  let q := q.add_handler EventType.STREAM_INPUT_READY t ClientHandler.handle_hello
  let q := q.add_handler EventType.STREAM_OUTPUT_ERROR t ClientHandler.handle_output_error
  let q := q.add_handler EventType.STREAM_INPUT_SHUTDOWN t ClientHandler.handle_disconnected
  let q := q.add_handler EventType.STREAM_OUTPUT_SHUTDOWN t ClientHandler.handle_disconnected
  let q := q.add_handler EventType.SOCKET_STOP_RETRY t ClientHandler.handle_stop_retry
  { c with m_events := q }

/-- The function `Client::setupTimer`: a one-shot timer of `15.0` seconds. -/
def Client.setupTimer (c : Client) : Client :=
  let r := c.m_events.newOneShotTimer 15
  let q := r.1.add_handler EventType.TIMER r.2 ClientHandler.handle_connect_timeout
  { c with m_timer := some r.2, m_events := q }

/-- The function `Client::cleanupConnecting`. -/
def Client.cleanupConnecting (c : Client) : Client :=
  match c.m_stream with
  | none => c
  | some stream =>
    let q := c.m_events.removeHandler EventType.DATA_SOCKET_CONNECTED stream.eventTarget
    let q := q.removeHandler EventType.DATA_SOCKET_CONNECTION_FAILED stream.eventTarget
    { c with m_events := q }

/-- The function `Client::cleanupScreen`. -/
def Client.cleanupScreen (c : Client) : Client :=
  match c.m_server with
  | none => c
  | some _ =>
    let c := if c.m_ready then
        { c with m_screen := { c.m_screen with enabled := false }, m_ready := false }
      else c
    let q := c.m_events.removeHandler EventType.SCREEN_SHAPE_CHANGED c.getEventTarget
    let q := q.removeHandler EventType.CLIPBOARD_GRABBED c.getEventTarget
    { c with m_events := q, m_server := none }

/-- What the world does during one call of `Client::connect`: the `what()` of an `XBase`
thrown before `m_stream` is set (by `resolve()` or by the socket factory), the stream
that is created, and the `what()` of an `XBase` thrown by `socket->connect`. -/
structure ConnectAttempt where
  failBeforeStream : Option String
  stream : Stream
  failConnect : Option String
deriving DecidableEq, Repr

/-- The handler `catch (XBase& e)` of `Client::connect` (lines 155 to 162). -/
def Client.connectFailed (c : Client) (what : String) : Client :=
  let c := c.cleanupTimer
  let c := c.cleanupConnecting
  let c := c.cleanupStream
  c.sendConnectionFailedEvent (FailWhat.text what)

/-- The function `Client::connect`. -/
def Client.connect (attempt : ConnectAttempt) (c : Client) : Client :=
  if c.m_stream.isSome then c
  else if c.m_suspended then { c with m_connectOnResume := true }
  else
    match attempt.failBeforeStream with
    | some what => c.connectFailed what
    | none =>
      let c := { c with m_stream := some attempt.stream }
      let c := c.setupConnecting attempt.stream
      let c := c.setupTimer
      match attempt.failConnect with
      | some what => c.connectFailed what
      | none => c

/-- The function `Client::disconnect(msg)`; `none` is the null pointer. -/
def Client.disconnect (msg : Option FailWhat) (c : Client) : Client :=
  let c := { c with m_connectOnResume := false }
  let c := c.cleanupTimer
  let c := c.cleanupScreen
  let c := c.cleanupConnecting
  let c := c.cleanupConnection
  match msg with
  | some m => c.sendConnectionFailedEvent m
  | none => c.send_event EventType.CLIENT_DISCONNECTED

/-- The function `Client::handshakeComplete`. -/
def Client.handshakeComplete (c : Client) : Client :=
  let c := { c with m_ready := true, m_screen := { c.m_screen with enabled := true } }
  c.send_event EventType.CLIENT_CONNECTED

/-- The function `Client::handle_connected`. `kClipboardEnd` is the number of clipboards
(`protocol_types.h`, not among the sources). The result is `none` when `m_stream` is
null, which `setupConnection` dereferences. -/
def Client.handle_connected (kClipboardEnd : Nat) (c : Client) : Option Client :=
  match c.m_stream with
  | none => none
  | some stream =>
    let c := c.cleanupConnecting
    let c := c.setupConnection stream
    some { c with
      m_ownClipboard := fun id => if id < kClipboardEnd then false else c.m_ownClipboard id,
      m_sentClipboard := fun id => if id < kClipboardEnd then false else c.m_sentClipboard id,
      m_timeClipboard := fun id => if id < kClipboardEnd then 0 else c.m_timeClipboard id }

/-- The function `Client::handle_connect_timeout`. -/
def Client.handle_connect_timeout (c : Client) : Client :=
  let c := c.cleanupTimer
  let c := c.cleanupConnecting
  let c := c.cleanupConnection
  let c := c.cleanupStream
  c.sendConnectionFailedEvent (FailWhat.text "Timed out")

/-- The function `Client::handle_suspend`. -/
def Client.handle_suspend (c : Client) : Client :=
  let c := { c with m_suspended := true }
  let wasConnected := c.isConnected
  let c := c.disconnect none
  { c with m_connectOnResume := wasConnected }

/-- The function `Client::handle_resume`; `attempt` is what the world does if `connect`
is called. -/
def Client.handle_resume (attempt : ConnectAttempt) (c : Client) : Client :=
  let c := { c with m_suspended := false }
  if c.m_connectOnResume then
    let c := { c with m_connectOnResume := false }
    c.connect attempt
  else c

/-- The function `Client::grabClipboard`. The arrays are indexed by the clipboard id,
which the callers keep below `kClipboardEnd`. -/
def Client.grabClipboard (id : Nat) (c : Client) : Client :=
  { c with m_screen := { c.m_screen with grabbed := c.m_screen.grabbed ++ [id] },
           m_ownClipboard := Function.update c.m_ownClipboard id false,
           m_sentClipboard := Function.update c.m_sentClipboard id false }

/-- The loop of `Client::setOptions` (lines 341 to 353) over the options that are left:
`some (some v)` when the option `kOptionClipboardSharing` is found with the value `v`
after it, `some none` when it is not found, `none` when it is the last element and the
loop reads past the end. -/
def Client.findClipboardSharing (kOptionClipboardSharing : Nat) :
    List Nat → Option (Option Nat)
  | [] => some none
  | id :: rest =>
    if id = kOptionClipboardSharing then
      match rest with
      | [] => none
      | v :: _ => some (some v)
    else Client.findClipboardSharing kOptionClipboardSharing rest

/-- The function `Client::setOptions`; `kOptionClipboardSharing` is the option id of
`option_types.h` (not among the sources). The call `m_screen->setOptions(options)` acts
on nothing that is modelled. -/
def Client.setOptions (kOptionClipboardSharing : Nat) (options : List Nat) (c : Client) :
    Option Client :=
  match Client.findClipboardSharing kOptionClipboardSharing options with
  | none => none
  | some none => some c
  | some (some v) => some { c with m_enableClipboard := decide (v ≠ 0) }

/-- The function `Client::sendClipboard`, called with a server proxy (`m_server` is not
null). `clipboard` is what `m_screen->getClipboard(id, &clipboard)` leaves in the local
`Clipboard`: its time and its marshalled data. -/
def Client.sendClipboard (id : Nat) (clipboard : Nat × List Byte) (c : Client) : Client :=
  if c.m_timeClipboard id = 0 ∨ clipboard.1 ≠ c.m_timeClipboard id then
    let c := { c with m_timeClipboard := Function.update c.m_timeClipboard id clipboard.1 }
    let data := clipboard.2
    if c.m_sentClipboard id = false ∨ data ≠ c.m_dataClipboard id then
      { c with m_sentClipboard := Function.update c.m_sentClipboard id true,
               m_dataClipboard := Function.update c.m_dataClipboard id data,
               proxyCalls := c.proxyCalls ++ [ProxyCall.onClipboardChanged id data] }
    else c
  else c

/-- The function `Client::handle_clipboard_grabbed` on a `CLIPBOARD_GRABBED` event with
`info.m_id = id`; `clipboard` is what the screen holds for `id`, should `sendClipboard`
ask. The result is `none` when `m_server` is null, which the handler dereferences. -/
def Client.handle_clipboard_grabbed (id : Nat) (clipboard : Nat × List Byte) (c : Client) :
    Option Client :=
  if c.m_enableClipboard = false then some c
  else
    match c.m_server with
    | none => none
    | some _ =>
      let c := { c with proxyCalls := c.proxyCalls ++ [ProxyCall.onGrabClipboard id] }
      let c := { c with m_ownClipboard := Function.update c.m_ownClipboard id true,
                        m_sentClipboard := Function.update c.m_sentClipboard id false,
                        m_timeClipboard := Function.update c.m_timeClipboard id 0 }
      if c.m_active = false then some (c.sendClipboard id clipboard) else some c

/-! ## ClientListener -/

/-- A `ClientProxyUnknown` as `ClientListener` sees it: the object as an event target,
what `orphanClientProxy()` returns (the client proxy when the handshake succeeded, null
otherwise) and what `getStream()` returns. -/
structure ClientProxyUnknown where
  this : Target
  orphanClientProxy : Option Target
  getStream : Option Target
deriving DecidableEq, Repr

/-- The class `ClientListener`: the object as an event target, the set `m_newClients`,
the queue `m_waitingClients` (front first), the event queue, and the streams closed so
far. Client proxies are identified by their address. -/
structure ClientListener where
  this : Target
  m_newClients : List Target
  m_waitingClients : List Target
  m_events : EventQueue
  closed : List Target

/-- The function `ClientListener::getNextClient`: the client returned (`none` for null)
and the listener after the call. -/
def ClientListener.getNextClient (l : ClientListener) : Option Target × ClientListener :=
  match l.m_waitingClients with
  | [] => (none, l)
  | client :: rest =>
    let q := l.m_events.removeHandler EventType.CLIENT_PROXY_DISCONNECTED client
    (some client, { l with m_waitingClients := rest, m_events := q })

/-- The function `ClientListener::handle_unknown_client`. The two `removeHandler` calls
of lines 184 and 185 are made with `client`, as in the source; the null pointer is
target 0. -/
def ClientListener.handle_unknown_client (l : ClientListener) (unknownClient : ClientProxyUnknown) :
    ClientListener :=
  let client := unknownClient.orphanClientProxy
  let l :=
    match client with
    | some cl =>
      let q := l.m_events.add_event EventType.CLIENT_LISTENER_CONNECTED l.this EventData.none
      let q := q.add_handler EventType.CLIENT_PROXY_DISCONNECTED cl
        ClientHandler.listener_handle_client_disconnected
      { l with m_waitingClients := l.m_waitingClients ++ [cl], m_events := q }
    | none =>
      match unknownClient.getStream with
      | some stream => { l with closed := l.closed ++ [stream] }
      | none => l
  let q := l.m_events.removeHandler EventType.CLIENT_PROXY_UNKNOWN_SUCCESS (client.getD 0)
  let q := q.removeHandler EventType.CLIENT_PROXY_UNKNOWN_FAILURE (client.getD 0)
  { l with m_events := q, m_newClients := l.m_newClients.erase unknownClient.this }

/-- A number of calls of `getNextClient` in a row: the clients returned, in order, nulls
left out, and the listener after the last call. -/
def ClientListener.drain : Nat → ClientListener → List Target × ClientListener
  | 0, l => ([], l)
  | n + 1, l =>
    let r := l.getNextClient
    let rest := ClientListener.drain n r.2
    (r.1.toList ++ rest.1, rest.2)

/-! ## Helpers for the statements -/

/-- The queue with the events `es` appended, in order. -/
def EventQueue.addAll (q : EventQueue) (es : List Event) : EventQueue :=
  { q with events := q.events ++ es }

/-- The events that were posted to `after` since the queue was `before`. -/
def postedSince (before after : EventQueue) : List Event :=
  after.events.drop before.events.length

/-- The event `FILE_KEEPALIVE` for a target. -/
def keepAliveEvent (eventTarget : Target) : Event :=
  { type := EventType.FILE_KEEPALIVE, target := eventTarget, data := EventData.none }

/-- The event `FILE_CHUNK_SENDING` that carries a file chunk. -/
def fileChunkEvent (eventTarget : Target) (chunk : FileChunk) : Event :=
  { type := EventType.FILE_CHUNK_SENDING, target := eventTarget,
    data := EventData.fileChunk chunk }

/-- The event `CLIPBOARD_SENDING` that carries a clipboard chunk. -/
def clipboardChunkEvent (eventTarget : Target) (chunk : ClipboardChunk) : Event :=
  { type := EventType.CLIPBOARD_SENDING, target := eventTarget,
    data := EventData.clipboardChunk chunk }

/-- The events of the loop iterations of `sendFile` that post the payloads `datas`: a
keepalive and a Data chunk for each. -/
def dataEvents (eventTarget : Target) : List (List Byte) → List Event
  | [] => []
  | d :: ds =>
    keepAliveEvent eventTarget ::
    fileChunkEvent eventTarget (FileChunk.data d d.length) ::
    dataEvents eventTarget ds

/-- The events of the loop iterations of `sendClipboard` that post the payloads `datas`. -/
def clipboardDataEvents (id sequence : Nat) (eventTarget : Target) :
    List (List Byte) → List Event
  | [] => []
  | d :: ds =>
    keepAliveEvent eventTarget ::
    clipboardChunkEvent eventTarget (ClipboardChunk.data id sequence d) ::
    clipboardDataEvents id sequence eventTarget ds

/-- Whether a file chunk is a Data chunk, by its mark `chunk_[0]`. -/
def isDataChunk (c : FileChunk) : Bool := c.chunk_.getD 0 0 = kDataChunk

/-- The number of Data chunks among the file chunks posted in a list of events. -/
def dataChunkCount (events : List Event) : Nat :=
  (fileChunksOf events).countP isDataChunk

/-- Whether `sendFile` stands outside its producer loop (lines 70 to 100). -/
def SendFilePc.outsideLoop : SendFilePc → Bool
  | SendFilePc.loopCheck => false
  | SendFilePc.keepAlive => false
  | SendFilePc.sendData => false
  | _ => true

/-- How many Data chunks a run that has the interrupt flag set can still post: one when
the flag check of the current iteration is already behind, none otherwise. `none` when
the state gives no bound (in the loop with the flag clear). -/
def interruptSlack (s : SendFile) : Option Nat :=
  match s.pc with
  | SendFilePc.entry | SendFilePc.sendStart | SendFilePc.loopCheck =>
    if s.statics.s_interruptFile then some 0 else none
  | SendFilePc.keepAlive | SendFilePc.sendData =>
    if s.statics.s_interruptFile then some 1 else none
  | _ => some 0

/-- How many steps of `sendFile` a run that has the interrupt flag set needs at most to
stand outside the loop. -/
def stepsToLeave (s : SendFile) : Nat :=
  match s.pc with
  | SendFilePc.entry => 3
  | SendFilePc.sendStart => 2
  | SendFilePc.loopCheck => 1
  | SendFilePc.keepAlive => 3
  | SendFilePc.sendData => 2
  | _ => 0

/-- An event queue with nothing in it. -/
def emptyQueue : EventQueue := { events := [], handlers := [], timers := [], nextTimer := 0 }

/-- The statics as they are when the program starts (lines 37 and 38). -/
def StreamChunker.initial : StreamChunker :=
  { s_isChunkingFile := false, s_interruptFile := false }

/-- A client named `laptop` that waits for the hello of the server: constructed, then
given a stream with event target 3 and the connect timer, with the handlers the
hello stage has on them. -/
def awaitingHello : Client :=
  let c := Client.new 1 emptyQueue "laptop" { eventTarget := 2, enabled := false }
    { m_enableCrypto := false, m_enableDragDrop := false, m_restartable := true }
  let (q, timer) := c.m_events.newOneShotTimer 15
  let q := q.add_handler EventType.TIMER timer ClientHandler.handle_connect_timeout
  let q := q.add_handler EventType.STREAM_INPUT_READY 3 ClientHandler.handle_hello
  { c with m_stream := some { eventTarget := 3, isReady := false }, m_timer := some timer,
           m_events := q }

/-- A send of a three-byte file in which `interruptFile` is called right after
`s_isChunkingFile = true`, taken up to the first flag check of the loop. -/
def interruptedAtCheck : SendFile :=
  (SendFile.init (some [1, 2, 3]) emptyQueue 7 StreamChunker.initial).run
    [Action.step, Action.interrupt, Action.step]

/-- A complete send of a one-byte file in which `interruptFile` is called after the flag
check of the only iteration, between the keepalive and the Data chunk. -/
def lateInterruptedRun : SendFile :=
  (SendFile.init (some [1]) emptyQueue 7 StreamChunker.initial).run
    [Action.step, Action.step, Action.step, Action.step, Action.interrupt,
     Action.step, Action.step, Action.step]

/-- A send of a three-byte file that has passed the flag check of its first iteration and
stands before the keepalive. -/
def pastFirstCheck : SendFile :=
  (SendFile.init (some [1, 2, 3]) emptyQueue 7 StreamChunker.initial).run
    [Action.step, Action.step, Action.step]

/-- A receiving server that has taken one byte of an announced two. -/
def partialServer : Server :=
  { target := 5, m_receivedFileData := [1], m_expectedFileSize := 2,
    m_fakeDragFileList := [] }

/-- A client named `laptop` right after its construction, without crypto and drag-drop. -/
def idleClient : Client :=
  Client.new 1 emptyQueue "laptop" { eventTarget := 2, enabled := false }
    { m_enableCrypto := false, m_enableDragDrop := false, m_restartable := true }

/-- A connection attempt in which nothing fails; the new stream has event target 3. -/
def plainAttempt : ConnectAttempt :=
  { failBeforeStream := none, stream := { eventTarget := 3, isReady := false },
    failConnect := none }

/-- The client `awaitingHello` after the hello 1.6 of the server, compiled for 1.6. -/
def connectedClient : Client :=
  (Client.handle_hello 1 6 (some (1, 6)) awaitingHello).getD awaitingHello

/-- The connected client after `setOptions` with the list `[77, 0]`, where 77 stands
for `kOptionClipboardSharing`: clipboard sharing is switched off. -/
def sharingOffClient : Client :=
  (Client.setOptions 77 [77, 0] connectedClient).getD connectedClient

/-- A handler entry of the event queue: type, target and handler. -/
abbrev HandlerEntry := EventType × Target × ClientHandler

/-- Whether a handler entry is one that the constructor `Client::Client` registers:
suspend and resume on the event target of the client, and with drag-drop enabled the two
file handlers on the client object. -/
def Client.isConstructorHandler (c : Client) (h : HandlerEntry) : Bool :=
  h = (EventType.SCREEN_SUSPEND, c.getEventTarget, ClientHandler.handle_suspend) ||
  h = (EventType.SCREEN_RESUME, c.getEventTarget, ClientHandler.handle_resume) ||
  (c.m_args.m_enableDragDrop &&
    (h = (EventType.FILE_CHUNK_SENDING, c.this, ClientHandler.handle_file_chunk_sending) ||
     h = (EventType.FILE_RECEIVE_COMPLETED, c.this,
           ClientHandler.handle_file_receive_completed)))

/-- The event types that `setupConnecting` registers without crypto, which are the ones
`cleanupConnecting` removes. -/
def connectingTypes : List EventType :=
  [EventType.DATA_SOCKET_CONNECTED, EventType.DATA_SOCKET_CONNECTION_FAILED]

/-- The event types that `setupConnection` registers and `cleanupConnection` removes. -/
def connectionTypes : List EventType :=
  [EventType.STREAM_INPUT_READY, EventType.STREAM_OUTPUT_ERROR,
   EventType.STREAM_INPUT_SHUTDOWN, EventType.STREAM_OUTPUT_SHUTDOWN,
   EventType.SOCKET_DISCONNECTED, EventType.SOCKET_STOP_RETRY]

/-- The event types that `setupScreen` registers and `cleanupScreen` removes. -/
def screenTypes : List EventType :=
  [EventType.SCREEN_SHAPE_CHANGED, EventType.CLIPBOARD_GRABBED]

/-- The client states reachable through `connect`, `handle_connected` and
`handle_hello` from a new client on a dispatcher without handlers and timers. A handler
runs on a client with a stream for whose target it is registered; `handle_hello` runs
before the server proxy exists (`setupScreen` asserts so; afterwards the proxy reads the
stream). -/
inductive Client.Reachable (kProtocolMajorVersion kProtocolMinorVersion : Int)
    (kClipboardEnd : Nat) : Client → Prop
  | new (this : Target) (events : EventQueue) (name : String) (screen : Screen)
      (args : ClientArgs) (hh : events.handlers = []) (ht : events.timers = []) :
      Client.Reachable kProtocolMajorVersion kProtocolMinorVersion kClipboardEnd
        (Client.new this events name screen args)
  | connect (attempt : ConnectAttempt) (c : Client)
      (hc : Client.Reachable kProtocolMajorVersion kProtocolMinorVersion kClipboardEnd c) :
      Client.Reachable kProtocolMajorVersion kProtocolMinorVersion kClipboardEnd
        (c.connect attempt)
  | handle_connected (c c' : Client) (stream : Stream)
      (hc : Client.Reachable kProtocolMajorVersion kProtocolMinorVersion kClipboardEnd c)
      (hstream : c.m_stream = some stream)
      (hreg : (EventType.DATA_SOCKET_CONNECTED, stream.eventTarget,
                ClientHandler.handle_connected) ∈ c.m_events.handlers ∨
              (EventType.DATA_SOCKET_SECURE_CONNECTED, stream.eventTarget,
                ClientHandler.handle_connected) ∈ c.m_events.handlers)
      (hrun : c.handle_connected kClipboardEnd = some c') :
      Client.Reachable kProtocolMajorVersion kProtocolMinorVersion kClipboardEnd c'
  | handle_hello (hello : Option (Int × Int)) (c c' : Client) (stream : Stream)
      (hc : Client.Reachable kProtocolMajorVersion kProtocolMinorVersion kClipboardEnd c)
      (hstream : c.m_stream = some stream)
      (hserver : c.m_server = none)
      (hreg : (EventType.STREAM_INPUT_READY, stream.eventTarget,
                ClientHandler.handle_hello) ∈ c.m_events.handlers)
      (hrun : c.handle_hello kProtocolMajorVersion kProtocolMinorVersion hello = some c') :
      Client.Reachable kProtocolMajorVersion kProtocolMinorVersion kClipboardEnd c'

/-- What ties a handler entry to the state of the client: it is one of the constructor,
or a `DATA_SOCKET_SECURE_CONNECTED` handler, or the handler of the current connect
timer, or a screen handler while the server proxy exists, or a connecting or connection
handler on the target of the current stream. -/
def Client.allows (c : Client) (h : HandlerEntry) : Prop :=
  c.isConstructorHandler h = true ∨
  h.1 = EventType.DATA_SOCKET_SECURE_CONNECTED ∨
  (h.1 = EventType.TIMER ∧ c.m_timer = some h.2.1) ∨
  (h.1 ∈ screenTypes ∧ h.2.1 = c.getEventTarget ∧ c.m_server.isSome = true) ∨
  ((h.1 ∈ connectingTypes ∨ h.1 ∈ connectionTypes) ∧
    ∃ st : Stream, c.m_stream = some st ∧ h.2.1 = st.eventTarget)

/-- What ties every handler and timer of the dispatcher to the state of the client:
every handler is allowed by `Client.allows`; connecting and connection handlers are not
there together; every timer is the current connect timer; and there is a connect timer
only with a stream. -/
def Client.handlersTied (c : Client) : Prop :=
  (∀ h ∈ c.m_events.handlers, c.allows h) ∧
  ((∃ h ∈ c.m_events.handlers, h.1 ∈ connectionTypes) →
    ∀ h ∈ c.m_events.handlers, h.1 ∉ connectingTypes) ∧
  (∀ t ∈ c.m_events.timers, c.m_timer = some t.id) ∧
  (c.m_timer.isSome = true → c.m_stream.isSome = true)

/-- A client with crypto enabled right after its construction. -/
def secureIdleClient : Client :=
  Client.new 1 emptyQueue "laptop" { eventTarget := 2, enabled := false }
    { m_enableCrypto := true, m_enableDragDrop := false, m_restartable := true }

/-- The client `idleClient` after a `connect` in which nothing fails. -/
def connectingClient : Client := idleClient.connect plainAttempt

/-- The client `secureIdleClient` (crypto enabled) after a `connect` in which nothing
fails and `handle_connected` with two clipboards. -/
def secureHelloClient : Client :=
  ((secureIdleClient.connect plainAttempt).handle_connected 2).getD secureIdleClient

/-- The client `secureHelloClient` after the hello 1.6 of the server, compiled for 1.6. -/
def secureConnectedClient : Client :=
  (secureHelloClient.handle_hello 1 6 (some (1, 6))).getD secureHelloClient

/-! ## XWindowsEventQueueBuffer -/

/-- The fields of an `XEvent` that `XWindowsEventQueueBuffer::addEvent` sets
(`xclient.type` is always `ClientMessage`): the window, the message type, the format and
`xclient.data.l[0]`. -/
structure XEvent where
  window : Nat
  message_type : Nat
  format : Nat
  data0 : Nat
deriving DecidableEq, Repr

/-- The class `XWindowsEventQueueBuffer`: the members `m_window`, `m_userEvent`,
`m_waiting` and `m_postedEvents`, and what the calls on `m_impl` and on the pipe have done
so far: `sent`, the events handed to `XSendEvent` in order, `flushed`, the number of
`XFlush` calls, and `pipeWrites`, the number of characters written to `m_pipefd[1]`. -/
structure XWindowsEventQueueBuffer where
  m_window : Nat
  m_userEvent : Nat
  m_waiting : Bool
  m_postedEvents : List XEvent
  sent : List XEvent
  flushed : Nat
  pipeWrites : Nat
deriving DecidableEq, Repr

/-- The loop of `XWindowsEventQueueBuffer::flush` (lines 236 to 238) from index `i` on,
`fuel` bounding the number of iterations left: `XSendEvent` on `m_postedEvents[i]`. -/
def XWindowsEventQueueBuffer.flushLoop (posted : List XEvent) :
    Nat → Nat → List XEvent → List XEvent
  | 0, _, sent => sent
  | fuel + 1, i, sent =>
    match posted[i]? with
    | none => sent
    | some e => XWindowsEventQueueBuffer.flushLoop posted fuel (i + 1) (sent ++ [e])

/-- The function `XWindowsEventQueueBuffer::flush` (the mutex is held by the caller). -/
def XWindowsEventQueueBuffer.flush (b : XWindowsEventQueueBuffer) :
    XWindowsEventQueueBuffer :=
  let sent := XWindowsEventQueueBuffer.flushLoop b.m_postedEvents b.m_postedEvents.length 0
    b.sent
  { b with sent := sent, flushed := b.flushed + 1, m_postedEvents := [] }

/-- The function `XWindowsEventQueueBuffer::addEvent`: the value returned and the buffer
after the call. -/
def XWindowsEventQueueBuffer.addEvent (b : XWindowsEventQueueBuffer) (dataID : Nat) :
    Bool × XWindowsEventQueueBuffer :=
  let xevent : XEvent :=
    { window := b.m_window, message_type := b.m_userEvent, format := 32, data0 := dataID }
  let b := { b with m_postedEvents := b.m_postedEvents ++ [xevent] }
  if b.m_waiting then
    let b := b.flush
    (true, { b with pipeWrites := b.pipeWrites + 1 })
  else
    (true, b)

/-- What a thread does to the buffer while it holds the mutex: `addEvent(dataID)`; the
first block of `waitForEvent` (lines 96 to 101: `m_waiting = true` and `flush()`); its
last block (line 148: `m_waiting = false`); and the `flush()` of `getEvent` (line 159). -/
inductive BufferAction
  | addEvent (dataID : Nat)
  | waitBegin
  | waitEnd
  | getEvent
deriving DecidableEq, Repr

/-- The effect of one action on the buffer. -/
def XWindowsEventQueueBuffer.act (b : XWindowsEventQueueBuffer) :
    BufferAction → XWindowsEventQueueBuffer
  | BufferAction.addEvent dataID => (b.addEvent dataID).2
  | BufferAction.waitBegin => XWindowsEventQueueBuffer.flush { b with m_waiting := true }
  | BufferAction.waitEnd => { b with m_waiting := false }
  | BufferAction.getEvent => b.flush

/-- The effect of a list of actions, in the order in which they take the mutex. -/
def XWindowsEventQueueBuffer.run (b : XWindowsEventQueueBuffer)
    (actions : List BufferAction) : XWindowsEventQueueBuffer :=
  actions.foldl XWindowsEventQueueBuffer.act b

/-- The user events that the `addEvent` calls in a list of actions make, in call order,
for a buffer with the given window and user-event atom. -/
def addedEvents (window userEvent : Nat) : List BufferAction → List XEvent
  | [] => []
  | BufferAction.addEvent dataID :: rest =>
    { window := window, message_type := userEvent, format := 32, data0 := dataID }
      :: addedEvents window userEvent rest
  | _ :: rest => addedEvents window userEvent rest

/-! ## ClipboardChunk: the buffer -/

/-- Modelled from the spec: `CLIPBOARD_CHUNK_META_SIZE` of `ClipboardChunk.h` (not among
the sources): the bytes of a clipboard chunk that are not payload, namely the id at index
0, the four bytes of the sequence number, the mark at index 5 (the test
`ClipboardChunkTests` reads it there) and the terminating NUL. -/
def CLIPBOARD_CHUNK_META_SIZE : Nat := 7

/-- The four bytes of a `std::uint32_t` as they lie in memory when the low-order byte
comes first (the test `ClipboardChunkTests` reads the sequence number 1 back from the
first of the four bytes). -/
def uint32Bytes (n : Nat) : List Byte :=
  [Fin.ofNat n, Fin.ofNat (n / 256), Fin.ofNat (n / 65536), Fin.ofNat (n / 16777216)]

/-- Modelled from the spec: the buffer `chunk_` of a clipboard chunk, which
`ClipboardChunk::start`, `data` and `end` of `ClipboardChunk.cpp` (not among the sources)
fill; the spec has a chunk carry `id, sequence, mark, payload`, and the test
`ClipboardChunkTests` reads the id at index 0, the sequence from index 1, the mark at
index 5, the payload from index 6 and a NUL after it. The buffer is filled the way
`FileChunk.cpp` fills its own. -/
def ClipboardChunk.chunk_ (c : ClipboardChunk) : List Byte :=
  let size := c.payload.length + CLIPBOARD_CHUNK_META_SIZE
  let chunk := List.replicate size (0 : Byte)
  let chunk := chunk.set 0 (Fin.ofNat c.id)
  let chunk := memcpy chunk 1 (uint32Bytes c.sequence) 4
  let chunk := chunk.set 5 c.mark
  let chunk := memcpy chunk 6 c.payload c.payload.length
  chunk.set (size - 1) 0

/-- The number that four bytes hold when the low-order byte comes first. -/
def uint32OfBytes (b0 b1 b2 b3 : Byte) : Nat :=
  b0.val + 256 * b1.val + 65536 * b2.val + 16777216 * b3.val

/-- The payload `mock data` of the test `data_formatDataChunk`, as ASCII bytes. -/
def mockData : List Byte := [109, 111, 99, 107, 32, 100, 97, 116, 97]

/-! ## Keepalives and Data chunks -/

/-- Whether an event is a `FILE_KEEPALIVE` event. -/
def Event.isKeepAlive (e : Event) : Bool := e.type = EventType.FILE_KEEPALIVE

/-- Whether an event carries a Data chunk: a `FILE_CHUNK_SENDING` event with a file chunk
of mark `kDataChunk`, or a `CLIPBOARD_SENDING` event with a clipboard chunk of that
mark. -/
def Event.isDataEvent (e : Event) : Bool :=
  match e.type, e.data with
  | EventType.FILE_CHUNK_SENDING, EventData.fileChunk c => isDataChunk c
  | EventType.CLIPBOARD_SENDING, EventData.clipboardChunk c => c.mark = kDataChunk
  | _, _ => false

/-- Whether, in a list of events, every keepalive is directly followed by a Data chunk
event for the same target, and every Data chunk event directly follows a keepalive. -/
def keepAlivePaired : List Event → Bool
  | [] => true
  | [e] => !e.isKeepAlive && !e.isDataEvent
  | e :: d :: rest =>
    if e.isKeepAlive then
      d.isDataEvent && decide (d.target = e.target) && keepAlivePaired rest
    else
      !e.isDataEvent && keepAlivePaired (d :: rest)

/-- What a run of `sendFile` keeps true of the events it has posted on top of `base`:
they are paired, apart from the keepalive of the current iteration when the run stands
between that keepalive and its Data chunk. -/
def SendFile.keepAliveInv (base : List Event) (s : SendFile) : Prop :=
  ∃ es : List Event, keepAlivePaired es = true ∧
    s.events.events = base ++ es ++
      (if s.pc = SendFilePc.sendData then [keepAliveEvent s.eventTarget] else [])

/-- Modelled from the spec: the four-byte code of `kMsgDFileTransfer` of
`protocol_types.h` (not among the sources); the spec names the code `DFTR`. -/
def kMsgDFileTransfer : List Byte := [68, 70, 84, 82]

/-- Modelled from the spec: the four-byte code of `kMsgDDragInfo` of `protocol_types.h`
(not among the sources); the spec names the code `DDRG`. -/
def kMsgDDragInfo : List Byte := [68, 68, 82, 71]

/-- The function `ClientProxy1_5::parseMessage`: the value returned, the server and the
queue after the call. `memcmp(code, k, 4) == 0` compares the first four bytes.
`parseMessage1_4` stands for `ClientProxy1_4::parseMessage` and `dragInfoReceived` for
`ClientProxy1_5::dragInfoReceived`, which calls into `Server` (both not among the
sources); `readf` is what `FileChunk::assemble` reads from the stream. -/
def ClientProxy1_5.parseMessage (stringToSizeType : List Byte → Nat)
    (parseMessage1_4 : List Byte → Server × EventQueue → Bool × Server × EventQueue)
    (dragInfoReceived : Server × EventQueue → Server × EventQueue)
    (code : List Byte) (readf : Option (Byte × List Byte)) (server : Server)
    (m_events : EventQueue) : Bool × Server × EventQueue :=
  if code.take 4 = kMsgDFileTransfer.take 4 then
    (true, ClientProxy1_5.fileChunkReceived stringToSizeType readf server m_events)
  else if code.take 4 = kMsgDDragInfo.take 4 then
    (true, dragInfoReceived (server, m_events))
  else
    parseMessage1_4 code (server, m_events)

/-- The connected client after `sendClipboard(0)` has sent the clipboard of time 5 and
data `[1]`. -/
def sentClipboardClient : Client :=
  Client.sendClipboard 0 (5, [1]) connectedClient

/-- The function `ClientListener::handle_client_accepted` from the creation of the
`ClientProxyUnknown` on (line 152); `client` is the new object. What the constructor of
`ClientProxyUnknown` (not among the sources) registers for itself is left out. -/
def ClientListener.handle_client_accepted (l : ClientListener) (client : ClientProxyUnknown) :
    ClientListener :=
  let newClients :=
    if client.this ∈ l.m_newClients then l.m_newClients else l.m_newClients ++ [client.this]
  let q := l.m_events.add_handler EventType.CLIENT_PROXY_UNKNOWN_SUCCESS client.this
    ClientHandler.listener_handle_unknown_client
  let q := q.add_handler EventType.CLIENT_PROXY_UNKNOWN_FAILURE client.this
    ClientHandler.listener_handle_unknown_client
  { l with m_newClients := newClients, m_events := q }

/-- A listener (target 1) that has accepted nothing yet. -/
def freshListener : ClientListener :=
  { this := 1, m_newClients := [], m_waitingClients := [], m_events := emptyQueue,
    closed := [] }

/-- An unknown client (target 9, stream 4) whose handshake failed: `orphanClientProxy()`
returns null. -/
def failedUnknown : ClientProxyUnknown :=
  { this := 9, orphanClientProxy := none, getStream := some 4 }

/-- An unknown client (target 9, stream 4) whose handshake succeeded with the client
proxy 11. -/
def succeededUnknown : ClientProxyUnknown :=
  { this := 9, orphanClientProxy := some 11, getStream := some 4 }

/-! ## Two calls of `sendFile` at once -/

/-- Two calls of `StreamChunker::sendFile` in progress in two threads of one process, as
after `Client::sendFileToServer` has started a second send thread while the first still
runs: the two runs, and the statics and the event queue, which they share (the copies
inside `first` and `second` are overwritten before each step). -/
structure SendFilePair where
  first : SendFile
  second : SendFile
  statics : StreamChunker
  events : EventQueue

/-- What happens next while two calls of `sendFile` run: the first thread takes a step,
the second thread takes a step, or some thread calls `StreamChunker::interruptFile()`. -/
inductive PairAction
  | first
  | second
  | interrupt
deriving DecidableEq, Repr

/-- Two calls of `sendFile` about to start on the same statics and queue. -/
def SendFilePair.init (file1 : Option (List Byte)) (eventTarget1 : Target)
    (file2 : Option (List Byte)) (eventTarget2 : Target) (events : EventQueue)
    (statics : StreamChunker) : SendFilePair :=
  { first := SendFile.init file1 events eventTarget1 statics,
    second := SendFile.init file2 events eventTarget2 statics,
    statics := statics, events := events }

/-- The effect of one action on the two runs: a step of a run is `SendFile.step` on the
shared statics and queue. -/
def SendFilePair.act (p : SendFilePair) : PairAction → SendFilePair
  | PairAction.first =>
    let s := SendFile.step { p.first with statics := p.statics, events := p.events }
    { p with first := s, statics := s.statics, events := s.events }
  | PairAction.second =>
    let s := SendFile.step { p.second with statics := p.statics, events := p.events }
    { p with second := s, statics := s.statics, events := s.events }
  | PairAction.interrupt => { p with statics := p.statics.interruptFile }

/-- The effect of a schedule on the two runs. -/
def SendFilePair.run (p : SendFilePair) (schedule : List PairAction) : SendFilePair :=
  schedule.foldl SendFilePair.act p

/-- A file of 65537 zero bytes: two chunks of 32768 bytes and one of one byte. -/
def threeChunkFile : List Byte := List.replicate 65537 0

/-- The first send, of `threeChunkFile` for target 7, has posted its first Data chunk and
stands at its flag check; the second send, of the file `[7]`, has not started. -/
def firstChunkPosted : SendFilePair :=
  (SendFilePair.init (some threeChunkFile) 7 (some [7]) 7 emptyQueue
    StreamChunker.initial).run
    [PairAction.first, PairAction.first, PairAction.first, PairAction.first,
     PairAction.first]

/-- The schedule after the `interruptFile()` call of `Client::sendFileToServer`: the
second send runs from its start to its return (five steps), then the first send takes
eight steps. -/
def secondSendFirst : List PairAction :=
  [PairAction.second, PairAction.second, PairAction.second, PairAction.second,
   PairAction.second,
   PairAction.first, PairAction.first, PairAction.first, PairAction.first,
   PairAction.first, PairAction.first, PairAction.first, PairAction.first]

/-- Eight steps of `sendFile`: what the send of `threeChunkFile` needs from the flag
check after its first Data chunk to its return. -/
def eightSteps : List Action :=
  [Action.step, Action.step, Action.step, Action.step, Action.step, Action.step,
   Action.step, Action.step]

/-- Thirteen steps of `sendFile`: what the send of `threeChunkFile` needs from its call
to its return when the flag stays clear. -/
def thirteenSteps : List Action :=
  [Action.step, Action.step, Action.step, Action.step, Action.step, Action.step,
   Action.step, Action.step, Action.step, Action.step, Action.step, Action.step,
   Action.step]

/-! ## FileChunk: layout of the three kinds of chunk -/

theorem FileChunk.data_eq (d : List Byte) :
    FileChunk.data d d.length = { chunk_ := kDataChunk :: (d ++ [0]), m_dataSize := d.length } := by
  have h : ∀ k : Byte, List.drop (1 + d.length) (k :: List.replicate (d.length + 1) 0)
      = [0] := by
    intro k
    rw [Nat.add_comm, List.drop_succ_cons, List.drop_replicate]
    simp
  have h2 := h kDataChunk
  simp only [List.replicate_succ] at h2
  simp [FileChunk.data, FileChunk.new, memcpy, FILE_CHUNK_META_SIZE, List.replicate_succ,
    List.set_append, h2]

theorem FileChunk.start_eq (d : List Byte) :
    FileChunk.start d = { chunk_ := kDataStart :: (d ++ [0]), m_dataSize := d.length } := by
  have h : ∀ k : Byte, List.drop (1 + d.length) (k :: List.replicate (d.length + 1) 0)
      = [0] := by
    intro k
    rw [Nat.add_comm, List.drop_succ_cons, List.drop_replicate]
    simp
  have h2 := h kDataStart
  simp only [List.replicate_succ] at h2
  simp [FileChunk.start, FileChunk.new, memcpy, FILE_CHUNK_META_SIZE, List.replicate_succ,
    List.set_append, h2]

theorem FileChunk.end_eq : FileChunk.end_ = { chunk_ := [kDataEnd, 0], m_dataSize := 0 } := by
  decide

/-! ## The event queue: appending -/

theorem EventQueue.add_event_eq_addAll (q : EventQueue) (type : EventType) (target : Target)
    (data : EventData) :
    q.add_event type target data = q.addAll [{ type := type, target := target, data := data }] :=
  rfl

theorem EventQueue.addAll_addAll (q : EventQueue) (a b : List Event) :
    (q.addAll a).addAll b = q.addAll (a ++ b) := by
  simp [EventQueue.addAll]

theorem postedSince_addAll (q : EventQueue) (es : List Event) :
    postedSince q (q.addAll es) = es := by
  simp [postedSince, EventQueue.addAll]

theorem dataEvents_append (eventTarget : Target) (xs ys : List (List Byte)) :
    dataEvents eventTarget (xs ++ ys) = dataEvents eventTarget xs ++ dataEvents eventTarget ys := by
  induction xs with
  | nil => rfl
  | cons x xs ih => simp [dataEvents, ih]

theorem fileChunksOf_append (xs ys : List Event) :
    fileChunksOf (xs ++ ys) = fileChunksOf xs ++ fileChunksOf ys := by
  induction xs with
  | nil => rfl
  | cons x xs ih =>
    simp only [List.cons_append, fileChunksOf]
    split <;> simp [ih]

theorem fileChunksOf_dataEvents (eventTarget : Target) (datas : List (List Byte)) :
    fileChunksOf (dataEvents eventTarget datas)
      = datas.map (fun d => FileChunk.data d d.length) := by
  induction datas with
  | nil => rfl
  | cons d ds ih => simp [dataEvents, fileChunksOf, keepAliveEvent, fileChunkEvent, ih]

/-! ## The undisturbed run of `sendFile` -/

theorem SendFile.exec_add (m n : Nat) (s : SendFile) :
    SendFile.exec (m + n) s = SendFile.exec n (SendFile.exec m s) := by
  induction m generalizing s with
  | zero => simp [SendFile.exec]
  | succ m ih =>
    rw [Nat.add_right_comm]
    simp only [SendFile.exec]
    exact ih s.step

theorem SendFile.exec_done (n : Nat) (s : SendFile) (h : s.pc = SendFilePc.done) :
    SendFile.exec n s = s := by
  induction n with
  | zero => rfl
  | succ n ih =>
    have hs : s.step = s := by simp [SendFile.step, h]
    simp only [SendFile.exec, hs, ih]

/-- One iteration of the producer loop with the interrupt flag clear: the flag check, the
keepalive, and the Data chunk. -/
theorem SendFile.exec_iteration (B : List Byte) (tgt : Target) (st : StreamChunker)
    (hst : st.s_interruptFile = false) (a cs : Nat) (ev : EventQueue) :
    SendFile.exec 3
        { pc := SendFilePc.loopCheck, file := some B, eventTarget := tgt,
          size := B.length, sentLength := a, chunkSize := cs, statics := st, events := ev }
      = { pc := if a + (if a + cs > B.length then B.length - a else cs) = B.length
                then SendFilePc.sendEnd else SendFilePc.loopCheck,
          file := some B, eventTarget := tgt, size := B.length,
          sentLength := a + (if a + cs > B.length then B.length - a else cs),
          chunkSize := if a + cs > B.length then B.length - a else cs,
          statics := st,
          events := ev.addAll (dataEvents tgt
            [fileRead B a (if a + cs > B.length then B.length - a else cs)]) } := by
  have hlen : (fileRead B a (if a + cs > B.length then B.length - a else cs)).length
      = (if a + cs > B.length then B.length - a else cs) := by
    simp only [fileRead, List.length_take, List.length_drop]
    split <;> omega
  simp only [dataEvents, hlen]
  simp [SendFile.exec, SendFile.step, hst, EventQueue.add_event, EventQueue.addAll,
    keepAliveEvent, fileChunkEvent]

/-- The producer loop with the interrupt flag clear, from the flag check with `a` bytes
sent and `r` bytes left: it runs to the End chunk and posts the rest of the file in
chunks of `g_chunkSize` bytes, the last one holding what remains. -/
theorem SendFile.exec_loop (B : List Byte) (tgt : Target) (st : StreamChunker)
    (hst : st.s_interruptFile = false) :
    ∀ (r a : Nat) (ev : EventQueue), a ≤ B.length → B.length - a = r →
      ∃ (datas : List (List Byte)) (cs : Nat),
        SendFile.exec (3 * ((r - 1) / g_chunkSize + 1))
            { pc := SendFilePc.loopCheck, file := some B, eventTarget := tgt,
              size := B.length, sentLength := a, chunkSize := g_chunkSize, statics := st,
              events := ev }
          = { pc := SendFilePc.sendEnd, file := some B, eventTarget := tgt,
              size := B.length, sentLength := B.length, chunkSize := cs, statics := st,
              events := ev.addAll (dataEvents tgt datas) } ∧
        datas.flatten = B.drop a ∧
        datas.map List.length = List.replicate ((r - 1) / g_chunkSize) g_chunkSize
          ++ [r - (r - 1) / g_chunkSize * g_chunkSize] := by
  intro r
  induction r using Nat.strong_induction_on with
  | _ r ih =>
    intro a ev ha hr
    by_cases hle : r ≤ g_chunkSize
    · have hq : (r - 1) / g_chunkSize = 0 := by
        unfold g_chunkSize at hle ⊢
        omega
      have hc : (if a + g_chunkSize > B.length then B.length - a else g_chunkSize) = r := by
        split <;> omega
      refine ⟨[B.drop a], r, ?_, by simp, ?_⟩
      · rw [hq, SendFile.exec_iteration B tgt st hst, hc]
        have h1 : a + r = B.length := by omega
        have h2 : fileRead B a r = B.drop a := by
          simp only [fileRead]
          apply List.take_of_length_le
          simp only [List.length_drop]
          omega
        simp [h1, h2]
      · simp only [hq, List.length_drop]
        simp
        omega
    · have hgt : g_chunkSize < r := Nat.lt_of_not_le hle
      have hq : (r - 1) / g_chunkSize = (r - g_chunkSize - 1) / g_chunkSize + 1 := by
        unfold g_chunkSize at hgt ⊢
        omega
      have hc : (if a + g_chunkSize > B.length then B.length - a else g_chunkSize)
          = g_chunkSize := by
        split <;> omega
      obtain ⟨datas, cs, hexec, hjoin, hlen⟩ :=
        ih (r - g_chunkSize) (by unfold g_chunkSize at hgt ⊢; omega) (a + g_chunkSize)
          (ev.addAll (dataEvents tgt [fileRead B a g_chunkSize])) (by omega) (by omega)
      refine ⟨fileRead B a g_chunkSize :: datas, cs, ?_, ?_, ?_⟩
      · have hsteps : 3 * ((r - 1) / g_chunkSize + 1)
            = 3 + 3 * ((r - g_chunkSize - 1) / g_chunkSize + 1) := by
          rw [hq]
          ring
        rw [hsteps, SendFile.exec_add, SendFile.exec_iteration B tgt st hst, hc]
        have h1 : ¬ (a + g_chunkSize = B.length) := by omega
        simp only [h1, if_false]
        rw [hexec, EventQueue.addAll_addAll, ← dataEvents_append]
        rfl
      · have hd : List.drop (a + g_chunkSize) B = List.drop g_chunkSize (List.drop a B) := by
          rw [List.drop_drop, Nat.add_comm]
        simp only [List.flatten_cons, hjoin, fileRead, hd]
        exact List.take_append_drop _ _
      · have hl : (fileRead B a g_chunkSize).length = g_chunkSize := by
          simp only [fileRead, List.length_take, List.length_drop]
          omega
        have hg : g_chunkSize = 32768 := rfl
        have hxy : r - g_chunkSize - (r - g_chunkSize - 1) / g_chunkSize * g_chunkSize
            = r - ((r - g_chunkSize - 1) / g_chunkSize + 1) * g_chunkSize := by
          rw [hg]
          omega
        rw [List.map_cons, hl, hlen, hq, List.replicate_succ, List.cons_append, hxy]

/-- The event that posts the Start chunk of a file of `n` bytes. -/
theorem SendFile.exec_entry (B : List Byte) (ev : EventQueue) (tgt : Target)
    (st : StreamChunker) :
    SendFile.exec 2 (SendFile.init (some B) ev tgt st)
      = { pc := SendFilePc.loopCheck, file := some B, eventTarget := tgt,
          size := B.length, sentLength := 0, chunkSize := g_chunkSize,
          statics := { st with s_isChunkingFile := true },
          events := ev.addAll
            [fileChunkEvent tgt (FileChunk.start (sizeTypeToString B.length))] } := by
  simp [SendFile.exec, SendFile.step, SendFile.init, EventQueue.add_event, EventQueue.addAll,
    fileChunkEvent]

theorem SendFile.exec_exit (B : List Byte) (ev : EventQueue) (tgt : Target)
    (st : StreamChunker) (sz sl cs : Nat) :
    SendFile.exec 2
        { pc := SendFilePc.sendEnd, file := some B, eventTarget := tgt, size := sz,
          sentLength := sl, chunkSize := cs, statics := st, events := ev }
      = { pc := SendFilePc.done, file := some B, eventTarget := tgt, size := sz,
          sentLength := sl, chunkSize := cs,
          statics := { st with s_isChunkingFile := false },
          events := ev.addAll [fileChunkEvent tgt FileChunk.end_] } := by
  simp [SendFile.exec, SendFile.step, EventQueue.add_event, EventQueue.addAll, fileChunkEvent]

/-- The whole undisturbed run of `sendFile` on a file `B`, the interrupt flag clear at
the call: it returns, and has posted Start, then a keepalive and a Data chunk per
iteration, then End; the payloads are `B` cut into pieces of `g_chunkSize` bytes. -/
theorem StreamChunker.sendFile_run (B : List Byte) (events : EventQueue) (tgt : Target)
    (statics : StreamChunker) (hflag : statics.s_interruptFile = false) :
    ∃ (datas : List (List Byte)) (cs : Nat),
      StreamChunker.sendFile B events tgt statics
        = { pc := SendFilePc.done, file := some B, eventTarget := tgt, size := B.length,
            sentLength := B.length, chunkSize := cs,
            statics := { s_isChunkingFile := false, s_interruptFile := false },
            events := events.addAll
              (fileChunkEvent tgt (FileChunk.start (sizeTypeToString B.length))
                :: (dataEvents tgt datas ++ [fileChunkEvent tgt FileChunk.end_])) } ∧
      datas.flatten = B ∧
      datas.map List.length = List.replicate ((B.length - 1) / g_chunkSize) g_chunkSize
        ++ [B.length - (B.length - 1) / g_chunkSize * g_chunkSize] := by
  have hst : ({ statics with s_isChunkingFile := true } : StreamChunker).s_interruptFile
      = false := hflag
  obtain ⟨datas, cs, hexec, hjoin, hlen⟩ :=
    SendFile.exec_loop B tgt { statics with s_isChunkingFile := true } hst B.length 0
      (events.addAll [fileChunkEvent tgt (FileChunk.start (sizeTypeToString B.length))])
      (Nat.zero_le _) rfl
  refine ⟨datas, cs, ?_, by simpa using hjoin, hlen⟩
  have hg : g_chunkSize = 32768 := rfl
  have hsteps : sendFileSteps B.length
      = 2 + (3 * ((B.length - 1) / g_chunkSize + 1)
        + (2 + 3 * (B.length / g_chunkSize - (B.length - 1) / g_chunkSize))) := by
    unfold sendFileSteps
    rw [hg]
    omega
  unfold StreamChunker.sendFile
  rw [hsteps, SendFile.exec_add, SendFile.exec_entry, SendFile.exec_add, hexec,
    SendFile.exec_add, SendFile.exec_exit, SendFile.exec_done _ _ rfl]
  simp [EventQueue.addAll, hflag]

/-! ## The relay and the receiver -/

theorem relayFileChunks_foldl (chunks : List FileChunk) (stream : List Message) :
    chunks.foldl Client.send_file_chunk stream
      = stream ++ chunks.map (fun c => Message.kMsgDFileTransfer (c.chunk_.getD 0 0)
          ((c.chunk_.drop 1).take c.m_dataSize)) := by
  induction chunks generalizing stream with
  | nil => simp
  | cons c cs ih =>
    simp [List.foldl_cons, ih, Client.send_file_chunk, FileChunk.send]

/-- The receiver on the Data messages of the payloads `datas` and then an End message:
the payloads are appended, and End compares the sizes. -/
theorem assembleAll_data_end (p : List Byte → Nat) (datas : List (List Byte))
    (ec : List Byte) :
    ∀ (last : Option EDataReceived) (buf : List Byte) (e : Nat),
      assembleAll p (datas.map (fun d => Message.kMsgDFileTransfer kDataChunk d)
          ++ [Message.kMsgDFileTransfer kDataEnd ec]) (last, buf, e)
        = (some (if e = (buf ++ datas.flatten).length then EDataReceived.kFinish
                 else EDataReceived.kError), buf ++ datas.flatten, e) := by
  induction datas with
  | nil =>
    intro last buf e
    by_cases h : e = buf.length <;>
      simp [assembleAll, FileChunk.assemble, readfFileTransfer, kDataEnd, kDataStart,
        kDataChunk, h]
  | cons d ds ih =>
    intro last buf e
    have h1 : ¬ (kDataChunk = kDataStart) := by decide
    rw [List.map_cons, List.cons_append]
    simp only [assembleAll, FileChunk.assemble, readfFileTransfer, h1, if_false, if_true]
    rw [ih]
    simp

/-- The file chunks that an undisturbed `sendFile` posts, in order. -/
theorem StreamChunker.sendFile_chunks (B : List Byte) (events : EventQueue) (tgt : Target)
    (statics : StreamChunker) (hflag : statics.s_interruptFile = false) :
    ∃ datas : List (List Byte),
      (StreamChunker.sendFile B events tgt statics).pc = SendFilePc.done ∧
      (StreamChunker.sendFile B events tgt statics).statics
        = { s_isChunkingFile := false, s_interruptFile := false } ∧
      fileChunksOf (postedSince events (StreamChunker.sendFile B events tgt statics).events)
        = FileChunk.start (sizeTypeToString B.length)
          :: (datas.map (fun d => FileChunk.data d d.length) ++ [FileChunk.end_]) ∧
      datas.flatten = B ∧
      datas.map List.length = List.replicate ((B.length - 1) / g_chunkSize) g_chunkSize
        ++ [B.length - (B.length - 1) / g_chunkSize * g_chunkSize] := by
  obtain ⟨datas, cs, hrun, hjoin, hlen⟩ :=
    StreamChunker.sendFile_run B events tgt statics hflag
  refine ⟨datas, ?_, ?_, ?_, hjoin, hlen⟩
  · rw [hrun]
  · rw [hrun]
  · rw [hrun]
    simp only [postedSince_addAll]
    rw [← List.singleton_append, fileChunksOf_append, fileChunksOf_append,
      fileChunksOf_dataEvents]
    simp [fileChunksOf, fileChunkEvent]

/-- C1. File chunk round trip: `sendFile` of a file `B`, run without interruption (the
interrupt flag clear at the call, no `interruptFile` during the run), returns; when the
file chunks it posted are relayed in order through `FileChunk::send` (mark `chunk_[0]`,
payload the `m_dataSize` bytes from `chunk_[1]`) to `FileChunk::assemble`, starting
from any receive buffer and expected size, the last `assemble` call returns `kFinish`
with `dataReceived = B` and `expectedSize = |B|`, provided `stringToSizeType` maps the
text that `sizeTypeToString` gives for `|B|` back to `|B|`. -/
theorem fileChunk_round_trip (stringToSizeType : List Byte → Nat) (B : List Byte)
    (events : EventQueue) (eventTarget : Target) (statics : StreamChunker)
    (last : Option EDataReceived) (dataReceived : List Byte) (expectedSize : Nat)
    (hflag : statics.s_interruptFile = false)
    (hinv : stringToSizeType (sizeTypeToString B.length) = B.length) :
    (StreamChunker.sendFile B events eventTarget statics).pc = SendFilePc.done ∧
    assembleAll stringToSizeType
        (relayFileChunks (fileChunksOf (postedSince events
          (StreamChunker.sendFile B events eventTarget statics).events)))
        (last, dataReceived, expectedSize)
      = (some EDataReceived.kFinish, B, B.length) := by
  obtain ⟨datas, hpc, -, hchunks, hjoin, -⟩ :=
    StreamChunker.sendFile_chunks B events eventTarget statics hflag
  refine ⟨hpc, ?_⟩
  rw [hchunks, relayFileChunks, relayFileChunks_foldl]
  simp only [List.nil_append, List.map_cons, List.map_append, List.map_map, List.map_nil]
  have hdata : (fun c : FileChunk => Message.kMsgDFileTransfer (c.chunk_.getD 0 0)
      ((c.chunk_.drop 1).take c.m_dataSize)) ∘ (fun d : List Byte => FileChunk.data d d.length)
      = fun d => Message.kMsgDFileTransfer kDataChunk d := by
    funext d
    simp [FileChunk.data_eq]
  rw [hdata, FileChunk.start_eq, FileChunk.end_eq]
  simp only [assembleAll, FileChunk.assemble, readfFileTransfer, List.getD_cons_zero,
    if_true, List.drop_succ_cons, List.drop_zero, List.take_left', List.take_zero]
  rw [assembleAll_data_end, hinv, hjoin]
  simp

/-- C1, at a concrete input: a three-byte file, the decimal parser, and a receiver that
starts with two stale bytes and a stale expected size. -/
theorem fileChunk_round_trip_witness :
    StreamChunker.initial.s_interruptFile = false ∧
    decimalToSize (sizeTypeToString [1, 2, 3].length) = [1, 2, 3].length ∧
    (StreamChunker.sendFile [1, 2, 3] emptyQueue 7 StreamChunker.initial).pc
      = SendFilePc.done ∧
    assembleAll decimalToSize
        (relayFileChunks (fileChunksOf (postedSince emptyQueue
          (StreamChunker.sendFile [1, 2, 3] emptyQueue 7 StreamChunker.initial).events)))
        (none, [9, 9], 55)
      = (some EDataReceived.kFinish, [1, 2, 3], [1, 2, 3].length) :=
  ⟨rfl, by decide,
    fileChunk_round_trip decimalToSize [1, 2, 3] emptyQueue 7 StreamChunker.initial none
      [9, 9] 55 rfl (by decide)⟩

/-- C3. Exact frame sequence of a file send: for a file `B` of `n > 0` bytes, `sendFile`
run without interruption returns, and the file chunks it posted are, in order, the Start
chunk built from the decimal text of `n`, then `k = ceil(n / 32768)` Data chunks whose
payloads cut `B` into the first `k - 1` pieces of exactly 32768 bytes and a last piece of
`n - 32768 * (k - 1)` bytes (none longer than 32768), then the End chunk. Each chunk is
given byte for byte: the mark, the payload and a NUL in `chunk_`, and the payload size in
`m_dataSize`, so the Data chunks carry 32768, ..., 32768 and `n - 32768 * (k - 1)`
bytes. For `n = 100000` the Start text is `100000` and the Data sizes are 32768, 32768,
32768, 1696. -/
theorem sendFile_frame_sequence (B : List Byte) (events : EventQueue) (eventTarget : Target)
    (statics : StreamChunker) (hflag : statics.s_interruptFile = false)
    (hn : 0 < B.length) :
    ∃ datas : List (List Byte),
      (StreamChunker.sendFile B events eventTarget statics).pc = SendFilePc.done ∧
      fileChunksOf (postedSince events
          (StreamChunker.sendFile B events eventTarget statics).events)
        = FileChunk.start (sizeTypeToString B.length)
          :: (datas.map (fun d => FileChunk.data d d.length) ++ [FileChunk.end_]) ∧
      datas.flatten = B ∧
      datas.length = (B.length + 32767) / 32768 ∧
      datas.map List.length
        = List.replicate ((B.length + 32767) / 32768 - 1) 32768
          ++ [B.length - 32768 * ((B.length + 32767) / 32768 - 1)] ∧
      (∀ d ∈ datas, d.length ≤ 32768) ∧
      (B.length = 100000 →
        sizeTypeToString B.length = [49, 48, 48, 48, 48, 48] ∧
        datas.map List.length = [32768, 32768, 32768, 1696]) ∧
      fileChunksOf (postedSince events
          (StreamChunker.sendFile B events eventTarget statics).events)
        = (⟨kDataStart :: (sizeTypeToString B.length ++ [0]),
            (sizeTypeToString B.length).length⟩ : FileChunk)
          :: (datas.map (fun d => (⟨kDataChunk :: (d ++ [0]), d.length⟩ : FileChunk))
            ++ [(⟨[kDataEnd, 0], 0⟩ : FileChunk)]) ∧
      (fileChunksOf (postedSince events
          (StreamChunker.sendFile B events eventTarget statics).events)).map
          FileChunk.m_dataSize
        = (sizeTypeToString B.length).length
          :: (List.replicate ((B.length + 32767) / 32768 - 1) 32768
            ++ [B.length - 32768 * ((B.length + 32767) / 32768 - 1), 0]) ∧
      (∀ c ∈ fileChunksOf (postedSince events
          (StreamChunker.sendFile B events eventTarget statics).events),
        c.chunk_.length = c.m_dataSize + 2 ∧
        (isDataChunk c = true → c.m_dataSize ≤ 32768)) := by
  obtain ⟨datas, hpc, -, hchunks, hjoin, hlen⟩ :=
    StreamChunker.sendFile_chunks B events eventTarget statics hflag
  have hg : g_chunkSize = 32768 := rfl
  rw [hg] at hlen
  have hk : (B.length - 1) / 32768 = (B.length + 32767) / 32768 - 1 := by omega
  have hlast : B.length - (B.length - 1) / 32768 * 32768
      = B.length - 32768 * ((B.length + 32767) / 32768 - 1) := by omega
  rw [hlast, hk] at hlen
  have hle : ∀ d ∈ datas, d.length ≤ 32768 := by
    intro d hd
    have hmem : d.length ∈ datas.map List.length := List.mem_map_of_mem _ hd
    rw [hlen] at hmem
    simp only [List.mem_append, List.mem_replicate, List.mem_singleton] at hmem
    rcases hmem with ⟨-, h⟩ | h <;> omega
  have hdata : datas.map (fun d => FileChunk.data d d.length)
      = datas.map (fun d => (⟨kDataChunk :: (d ++ [0]), d.length⟩ : FileChunk)) :=
    List.map_congr_left (fun d _ => FileChunk.data_eq d)
  have hexp : fileChunksOf (postedSince events
      (StreamChunker.sendFile B events eventTarget statics).events)
      = (⟨kDataStart :: (sizeTypeToString B.length ++ [0]),
          (sizeTypeToString B.length).length⟩ : FileChunk)
        :: (datas.map (fun d => (⟨kDataChunk :: (d ++ [0]), d.length⟩ : FileChunk))
          ++ [(⟨[kDataEnd, 0], 0⟩ : FileChunk)]) := by
    rw [hchunks, hdata, FileChunk.start_eq, FileChunk.end_eq]
  refine ⟨datas, hpc, hchunks, hjoin, ?_, hlen, hle, ?_, hexp, ?_, ?_⟩
  · have h := congrArg List.length hlen
    simp only [List.length_map, List.length_append, List.length_replicate,
      List.length_singleton] at h
    omega
  · intro h100
    rw [hlen, h100]
    exact ⟨by decide, by decide⟩
  · rw [hexp]
    simp only [List.map_cons, List.map_append, List.map_map, List.map_nil]
    have hcomp : (FileChunk.m_dataSize ∘
        fun d : List Byte => (⟨kDataChunk :: (d ++ [0]), d.length⟩ : FileChunk))
        = List.length := rfl
    rw [hcomp, hlen]
    simp only [List.append_assoc, List.singleton_append]
  · intro c hc
    rw [hexp] at hc
    simp only [List.mem_cons, List.mem_append, List.mem_map, List.mem_singleton,
      List.not_mem_nil, or_false] at hc
    rcases hc with hc | ⟨d, hd, hc⟩ | hc
    · subst hc
      exact ⟨by simp, fun h => absurd h (by simp [isDataChunk]; decide)⟩
    · subst hc
      exact ⟨by simp, fun _ => hle d hd⟩
    · subst hc
      exact ⟨rfl, fun _ => Nat.zero_le _⟩

/-- C3, at a concrete input: a file of 100000 zero bytes; the chunks posted carry 6,
32768, 32768, 32768, 1696 and 0 bytes. -/
theorem sendFile_frame_sequence_witness :
    StreamChunker.initial.s_interruptFile = false ∧
    0 < (List.replicate 100000 (0 : Byte)).length ∧
    ∃ datas : List (List Byte),
      fileChunksOf (postedSince emptyQueue
          (StreamChunker.sendFile (List.replicate 100000 0) emptyQueue 7
            StreamChunker.initial).events)
        = FileChunk.start [49, 48, 48, 48, 48, 48]
          :: (datas.map (fun d => FileChunk.data d d.length) ++ [FileChunk.end_]) ∧
      datas.map List.length = [32768, 32768, 32768, 1696] ∧
      datas.flatten = List.replicate 100000 0 ∧
      fileChunksOf (postedSince emptyQueue
          (StreamChunker.sendFile (List.replicate 100000 0) emptyQueue 7
            StreamChunker.initial).events)
        = (⟨kDataStart :: [49, 48, 48, 48, 48, 48, 0], 6⟩ : FileChunk)
          :: (datas.map (fun d => (⟨kDataChunk :: (d ++ [0]), d.length⟩ : FileChunk))
            ++ [(⟨[kDataEnd, 0], 0⟩ : FileChunk)]) ∧
      (fileChunksOf (postedSince emptyQueue
          (StreamChunker.sendFile (List.replicate 100000 0) emptyQueue 7
            StreamChunker.initial).events)).map FileChunk.m_dataSize
        = [6, 32768, 32768, 32768, 1696, 0] := by
  have hlen : (List.replicate 100000 (0 : Byte)).length = 100000 :=
    List.length_replicate _ _
  have hpos : 0 < (List.replicate 100000 (0 : Byte)).length := by
    rw [hlen]
    omega
  refine ⟨rfl, hpos, ?_⟩
  obtain ⟨datas, -, hchunks, hjoin, -, -, -, h100, hexp, hsizes, -⟩ :=
    sendFile_frame_sequence (List.replicate 100000 0) emptyQueue 7 StreamChunker.initial
      rfl hpos
  obtain ⟨htext, hdsizes⟩ := h100 hlen
  refine ⟨datas, by rw [hchunks, htext], hdsizes, hjoin, ?_, ?_⟩
  · rw [hexp, htext]
    rfl
  · rw [hsizes, htext, hlen]
    decide

/-! ## `sendClipboard` -/

theorem clipboardChunksOf_append (xs ys : List Event) :
    clipboardChunksOf (xs ++ ys) = clipboardChunksOf xs ++ clipboardChunksOf ys := by
  induction xs with
  | nil => rfl
  | cons x xs ih =>
    simp only [List.cons_append, clipboardChunksOf]
    split <;> simp [ih]

theorem clipboardChunksOf_dataEvents (id sequence : Nat) (eventTarget : Target)
    (datas : List (List Byte)) :
    clipboardChunksOf (clipboardDataEvents id sequence eventTarget datas)
      = datas.map (ClipboardChunk.data id sequence) := by
  induction datas with
  | nil => rfl
  | cons d ds ih =>
    simp [clipboardDataEvents, clipboardChunksOf, keepAliveEvent, clipboardChunkEvent, ih]

/-- The loop of `sendClipboard` when `size` is the size of `data`, from `a` bytes sent
with `r` bytes left and enough fuel: it ends with all bytes sent, and has posted the rest
of `data` in at least one chunk. -/
theorem StreamChunker.sendClipboardLoop_spec (data : List Byte) (id sequence : Nat)
    (tgt : Target) :
    ∀ (r a fuel : Nat) (ev : EventQueue), a ≤ data.length → data.length - a = r →
      (r - 1) / g_chunkSize + 1 ≤ fuel →
      ∃ datas : List (List Byte),
        StreamChunker.sendClipboardLoop data data.length id sequence tgt fuel a g_chunkSize ev
          = some (data.length, ev.addAll (clipboardDataEvents id sequence tgt datas)) ∧
        datas ≠ [] ∧ datas.flatten = data.drop a := by
  have hg : g_chunkSize = 32768 := rfl
  intro r
  induction r using Nat.strong_induction_on with
  | _ r ih =>
    intro a fuel ev ha hr hfuel
    rw [hg] at hfuel
    obtain ⟨f, rfl⟩ : ∃ f, fuel = f + 1 := ⟨fuel - 1, by omega⟩
    by_cases hle : r ≤ g_chunkSize
    · have hc : (if a + g_chunkSize > data.length then data.length - a else g_chunkSize)
          = r := by
        split <;> omega
      have hsub : substr data a r = some (data.drop a) := by
        have h1 : ¬ (a > data.length) := by omega
        simp only [substr, h1, if_false]
        rw [List.take_of_length_le]
        simp only [List.length_drop]
        omega
      refine ⟨[data.drop a], ?_, by simp, by simp⟩
      have h2 : ¬ ((data.drop a).length < r) := by
        simp only [List.length_drop]
        omega
      have h3 : a + r = data.length := by omega
      have h4 : (data.drop a).take r = data.drop a := by
        apply List.take_of_length_le
        simp only [List.length_drop]
        omega
      simp only [StreamChunker.sendClipboardLoop, hc, hsub, h2, if_false, h3, if_true, h4,
        clipboardDataEvents, EventQueue.add_event_eq_addAll, EventQueue.addAll_addAll]
      rfl
    · have hgt : g_chunkSize < r := Nat.lt_of_not_le hle
      have hc : (if a + g_chunkSize > data.length then data.length - a else g_chunkSize)
          = g_chunkSize := by
        split <;> omega
      have hsub : substr data a g_chunkSize = some ((data.drop a).take g_chunkSize) := by
        have h1 : ¬ (a > data.length) := by omega
        simp only [substr, h1, if_false]
      have hl : ((data.drop a).take g_chunkSize).length = g_chunkSize := by
        simp only [List.length_take, List.length_drop]
        omega
      have h2 : ¬ (((data.drop a).take g_chunkSize).length < g_chunkSize) := by omega
      have h3 : ¬ (a + g_chunkSize = data.length) := by omega
      have h4 : ((data.drop a).take g_chunkSize).take g_chunkSize
          = (data.drop a).take g_chunkSize := by
        apply List.take_of_length_le
        omega
      obtain ⟨datas, hloop, -, hjoin⟩ :=
        ih (r - g_chunkSize) (by omega) (a + g_chunkSize) f
          ((ev.addAll [keepAliveEvent tgt]).addAll [clipboardChunkEvent tgt
            (ClipboardChunk.data id sequence ((data.drop a).take g_chunkSize))])
          (by omega) (by omega) (by rw [hg] at hgt ⊢; omega)
      refine ⟨(data.drop a).take g_chunkSize :: datas, ?_, by simp, ?_⟩
      · simp only [StreamChunker.sendClipboardLoop, hc, hsub, h2, if_false, h3, h4,
          EventQueue.add_event_eq_addAll]
        rw [← keepAliveEvent, ← clipboardChunkEvent, hloop]
        simp only [EventQueue.addAll_addAll, clipboardDataEvents, List.cons_append,
          List.nil_append]
      · have hd : List.drop (a + g_chunkSize) data
            = List.drop g_chunkSize (List.drop a data) := by
          rw [List.drop_drop, Nat.add_comm]
        simp only [List.flatten_cons, hjoin, hd]
        exact List.take_append_drop _ _

/-- C2. Clipboard chunks on the sender: for every byte string `data` (NUL bytes are bytes
like any other) and `size = |data|`, `sendClipboard` returns, and the clipboard chunks it
posted are, in order, one Start chunk whose payload is the decimal text of the size, one
or more Data chunks, one End chunk; every chunk carries the given id and sequence, and
the Data payloads concatenated in posting order are `data`. -/
theorem sendClipboard_frames (data : List Byte) (id sequence : Nat) (events : EventQueue)
    (eventTarget : Target) :
    ∃ (datas : List (List Byte)) (q : EventQueue),
      StreamChunker.sendClipboard data data.length id sequence events eventTarget = some q ∧
      clipboardChunksOf (postedSince events q)
        = ClipboardChunk.start id sequence (sizeTypeToString data.length)
          :: (datas.map (ClipboardChunk.data id sequence)
            ++ [ClipboardChunk.end_ id sequence]) ∧
      datas ≠ [] ∧
      (clipboardChunksOf (postedSince events q)).map ClipboardChunk.mark
        = kDataStart :: (List.replicate datas.length kDataChunk ++ [kDataEnd]) ∧
      (∀ c ∈ clipboardChunksOf (postedSince events q), c.id = id ∧ c.sequence = sequence) ∧
      ((datas.map (ClipboardChunk.data id sequence)).map ClipboardChunk.payload).flatten
        = data := by
  obtain ⟨datas, hloop, hne, hjoin⟩ :=
    StreamChunker.sendClipboardLoop_spec data id sequence eventTarget data.length 0
      (data.length / g_chunkSize + 1)
      (events.addAll [clipboardChunkEvent eventTarget
        (ClipboardChunk.start id sequence (sizeTypeToString data.length))])
      (Nat.zero_le _) rfl
      (by have hg : g_chunkSize = 32768 := rfl
          rw [hg]
          omega)
  have hchunks : clipboardChunksOf
      (clipboardChunkEvent eventTarget
          (ClipboardChunk.start id sequence (sizeTypeToString data.length))
        :: (clipboardDataEvents id sequence eventTarget datas
          ++ [clipboardChunkEvent eventTarget (ClipboardChunk.end_ id sequence)]))
      = ClipboardChunk.start id sequence (sizeTypeToString data.length)
        :: (datas.map (ClipboardChunk.data id sequence)
          ++ [ClipboardChunk.end_ id sequence]) := by
    rw [← List.singleton_append, clipboardChunksOf_append, clipboardChunksOf_append,
      clipboardChunksOf_dataEvents]
    simp [clipboardChunksOf, clipboardChunkEvent]
  refine ⟨datas, (events.addAll
      (clipboardChunkEvent eventTarget
          (ClipboardChunk.start id sequence (sizeTypeToString data.length))
        :: (clipboardDataEvents id sequence eventTarget datas
          ++ [clipboardChunkEvent eventTarget (ClipboardChunk.end_ id sequence)]))),
    ?_, ?_, hne, ?_, ?_, ?_⟩
  · simp only [StreamChunker.sendClipboard, EventQueue.add_event_eq_addAll]
    rw [← clipboardChunkEvent, hloop]
    simp only [EventQueue.addAll_addAll, List.cons_append, List.nil_append]
    rfl
  · rw [postedSince_addAll, hchunks]
  · rw [postedSince_addAll, hchunks]
    simp [ClipboardChunk.start, ClipboardChunk.data, ClipboardChunk.end_,
      Function.comp_def]
  · rw [postedSince_addAll, hchunks]
    intro c hc
    simp only [List.mem_cons, List.mem_append, List.mem_map, List.mem_singleton,
      List.not_mem_nil, or_false] at hc
    rcases hc with rfl | ⟨d, -, rfl⟩ | rfl <;> exact ⟨rfl, rfl⟩
  · have hp : (fun d => ClipboardChunk.payload (ClipboardChunk.data id sequence d))
        = fun d => d := by
      funext d
      rfl
    rw [List.map_map, Function.comp_def, hp, List.map_id', hjoin, List.drop_zero]

/-- C2, at a concrete input: three bytes with a NUL byte in the middle, clipboard 1,
sequence 42. -/
theorem sendClipboard_frames_witness :
    ∃ (datas : List (List Byte)) (q : EventQueue),
      StreamChunker.sendClipboard [1, 0, 3] [(1 : Byte), 0, 3].length 1 42 emptyQueue 7
        = some q ∧
      clipboardChunksOf (postedSince emptyQueue q)
        = ClipboardChunk.start 1 42 (sizeTypeToString [(1 : Byte), 0, 3].length)
          :: (datas.map (ClipboardChunk.data 1 42) ++ [ClipboardChunk.end_ 1 42]) ∧
      datas ≠ [] ∧
      (clipboardChunksOf (postedSince emptyQueue q)).map ClipboardChunk.mark
        = kDataStart :: (List.replicate datas.length kDataChunk ++ [kDataEnd]) ∧
      (∀ c ∈ clipboardChunksOf (postedSince emptyQueue q), c.id = 1 ∧ c.sequence = 42) ∧
      ((datas.map (ClipboardChunk.data 1 42)).map ClipboardChunk.payload).flatten
        = [1, 0, 3] :=
  sendClipboard_frames [1, 0, 3] 1 42 emptyQueue 7

/-! ## The hello of the server -/

theorem Client.cleanupTimer_fields (c : Client) :
    c.cleanupTimer.m_events.events = c.m_events.events ∧
    c.cleanupTimer.written = c.written ∧ c.cleanupTimer.m_server = c.m_server ∧
    c.cleanupTimer.m_ready = c.m_ready ∧ c.cleanupTimer.m_active = c.m_active ∧
    c.cleanupTimer.m_stream = c.m_stream ∧ c.cleanupTimer.m_timer = none := by
  unfold Client.cleanupTimer
  cases h : c.m_timer <;>
    simp [h, EventQueue.removeHandler, EventQueue.deleteTimer]

theorem Client.cleanupConnection_fields (c : Client) :
    c.cleanupConnection.m_events.events = c.m_events.events ∧
    c.cleanupConnection.written = c.written ∧ c.cleanupConnection.m_server = c.m_server ∧
    c.cleanupConnection.m_ready = c.m_ready ∧ c.cleanupConnection.m_active = c.m_active ∧
    c.cleanupConnection.m_timer = c.m_timer ∧ c.cleanupConnection.m_stream = none := by
  unfold Client.cleanupConnection
  cases h : c.m_stream <;>
    simp [h, Client.cleanupStream, EventQueue.removeHandler]

/-- C4. Version gate: for every hello `(major, minor)` older than the compiled version
(`major < kProtocolMajorVersion`, or equal majors and `minor < kProtocolMinorVersion`),
`Client::handle_hello` posts one `CLIENT_CONNECTION_FAILED` event (with the retry flag
set), writes nothing to the server (no hello reply), leaves `m_server` as it was (so a
client that was not connected stays not connected, and `m_ready`, `m_active` keep their
values), and drops the stream. -/
theorem handle_hello_version_gate (kProtocolMajorVersion kProtocolMinorVersion : Int)
    (major minor : Int) (c : Client) (stream : Stream)
    (hstream : c.m_stream = some stream)
    (hold : major < kProtocolMajorVersion ∨
      (major = kProtocolMajorVersion ∧ minor < kProtocolMinorVersion)) :
    ∃ c' : Client,
      Client.handle_hello kProtocolMajorVersion kProtocolMinorVersion (some (major, minor)) c
        = some c' ∧
      c'.m_events.events = c.m_events.events ++
        [{ type := EventType.CLIENT_CONNECTION_FAILED, target := c.getEventTarget,
           data := EventData.failInfo (FailWhat.XIncompatibleClient major minor) true }] ∧
      c'.written = c.written ∧
      c'.m_server = c.m_server ∧
      (c.isConnected = false → c'.isConnected = false) ∧
      c'.m_ready = c.m_ready ∧ c'.m_active = c.m_active ∧
      c'.m_stream = none := by
  refine ⟨((c.sendConnectionFailedEvent
    (FailWhat.XIncompatibleClient major minor)).cleanupTimer).cleanupConnection, ?_, ?_⟩
  · simp only [Client.handle_hello, hstream]
    rw [if_pos hold]
  · obtain ⟨h1, h2, h3, h4, h5, -, h7⟩ := Client.cleanupConnection_fields
      (c.sendConnectionFailedEvent (FailWhat.XIncompatibleClient major minor)).cleanupTimer
    obtain ⟨g1, g2, g3, g4, g5, -, -⟩ := Client.cleanupTimer_fields
      (c.sendConnectionFailedEvent (FailWhat.XIncompatibleClient major minor))
    have hsrv : (((c.sendConnectionFailedEvent
        (FailWhat.XIncompatibleClient major minor)).cleanupTimer).cleanupConnection).m_server
        = c.m_server := by
      rw [h3, g3]
      rfl
    refine ⟨?_, ?_, hsrv, ?_, ?_, ?_, h7⟩
    · rw [h1, g1]
      rfl
    · rw [h2, g2]
      rfl
    · intro hc
      simp only [Client.isConnected, hsrv] at hc ⊢
      exact hc
    · rw [h4, g4]
      rfl
    · rw [h5, g5]
      rfl

/-- C4, at a concrete input: the server says 1.3 to a client compiled for 1.6. -/
theorem handle_hello_version_gate_witness :
    awaitingHello.m_stream = some { eventTarget := 3, isReady := false } ∧
    ((1 : Int) < 1 ∨ ((1 : Int) = 1 ∧ (3 : Int) < 6)) ∧
    ∃ c' : Client,
      Client.handle_hello 1 6 (some (1, 3)) awaitingHello = some c' ∧
      c'.m_events.events = awaitingHello.m_events.events ++
        [{ type := EventType.CLIENT_CONNECTION_FAILED, target := awaitingHello.getEventTarget,
           data := EventData.failInfo (FailWhat.XIncompatibleClient 1 3) true }] ∧
      c'.written = awaitingHello.written ∧
      c'.m_server = awaitingHello.m_server ∧
      (awaitingHello.isConnected = false → c'.isConnected = false) ∧
      c'.m_ready = awaitingHello.m_ready ∧ c'.m_active = awaitingHello.m_active ∧
      c'.m_stream = none :=
  ⟨rfl, by decide,
    handle_hello_version_gate 1 6 1 3 awaitingHello { eventTarget := 3, isReady := false }
      rfl (by decide)⟩

/-! ## `sendFile` under interruption -/

theorem SendFile.run_cons (s : SendFile) (a : Action) (schedule : List Action) :
    s.run (a :: schedule) = (s.act a).run schedule := rfl

theorem EventQueue.addAll_nil (q : EventQueue) : q.addAll [] = q := by
  cases q
  simp [EventQueue.addAll]

/-- Once End is posted, nothing more is posted, whatever the schedule. -/
theorem SendFile.run_after_end (schedule : List Action) :
    ∀ s : SendFile, s.pc = SendFilePc.finish ∨ s.pc = SendFilePc.done →
      (s.run schedule).events = s.events := by
  induction schedule with
  | nil => intro s _; rfl
  | cons a as ih =>
    intro s h
    rw [SendFile.run_cons]
    cases a with
    | interrupt => exact ih _ h
    | step =>
      rcases h with h | h
      · have h1 : (s.act Action.step).pc = SendFilePc.done := by
          simp [SendFile.act, SendFile.step, h]
        have h2 : (s.act Action.step).events = s.events := by
          simp [SendFile.act, SendFile.step, h]
        rw [ih _ (Or.inr h1), h2]
      · have h1 : s.act Action.step = s := by
          simp [SendFile.act, SendFile.step, h]
        rw [h1]
        exact ih _ (Or.inr h)

/-- From the point before End, a schedule posts the End chunk with the first step that
`sendFile` takes, and nothing else. -/
theorem SendFile.run_from_sendEnd (schedule : List Action) :
    ∀ s : SendFile, s.pc = SendFilePc.sendEnd →
      (s.run schedule).events = s.events.addAll
        (if Action.step ∈ schedule then [fileChunkEvent s.eventTarget FileChunk.end_]
         else []) := by
  induction schedule with
  | nil =>
    intro s _
    simp only [List.not_mem_nil, if_false, EventQueue.addAll_nil]
    rfl
  | cons a as ih =>
    intro s h
    rw [SendFile.run_cons]
    cases a with
    | interrupt =>
      have h1 := ih (s.act Action.interrupt) h
      simp only [List.mem_cons, reduceCtorEq, false_or]
      exact h1
    | step =>
      have h1 : (s.act Action.step).pc = SendFilePc.finish := by
        simp [SendFile.act, SendFile.step, h]
      have h2 : (s.act Action.step).events
          = s.events.addAll [fileChunkEvent s.eventTarget FileChunk.end_] := by
        simp [SendFile.act, SendFile.step, h, EventQueue.add_event_eq_addAll, fileChunkEvent]
      rw [SendFile.run_after_end as _ (Or.inl h1), h2]
      simp

/-- C5 as stated fails: a send of a three-byte file, interrupted right after its start.
The producer loop stands at its flag check with the flag set, so it observes the flag;
the chunks posted by the whole run are Start and End. -/
theorem interrupted_send_posts_end :
    interruptedAtCheck.pc = SendFilePc.loopCheck ∧
    interruptedAtCheck.statics.s_interruptFile = true ∧
    fileChunksOf (interruptedAtCheck.run [Action.step, Action.step, Action.step]).events.events
      = [FileChunk.start (sizeTypeToString 3), FileChunk.end_] := by
  decide

/-- C5, amended. When the producer loop observes the interrupt flag (a step at the flag
check with the flag set), then whatever happens afterwards (further steps of `sendFile`
and further `interruptFile` calls, in any order) no Data chunk is posted any more: the
file chunks posted from the observation on are the End chunk alone, posted by the next
step of `sendFile`; and the observation clears the flag. -/
theorem interrupted_send_then_end (s : SendFile) (schedule : List Action)
    (hpc : s.pc = SendFilePc.loopCheck) (hflag : s.statics.s_interruptFile = true) :
    s.step.statics.s_interruptFile = false ∧
    fileChunksOf (postedSince s.events ((s.act Action.step).run schedule).events)
      = (if Action.step ∈ schedule then [FileChunk.end_] else []) := by
  have h1 : (s.act Action.step).pc = SendFilePc.sendEnd := by
    simp [SendFile.act, SendFile.step, hpc, hflag]
  have h2 : (s.act Action.step).events = s.events := by
    simp [SendFile.act, SendFile.step, hpc, hflag]
  refine ⟨by simp [SendFile.step, hpc, hflag], ?_⟩
  rw [SendFile.run_from_sendEnd schedule _ h1, h2, postedSince_addAll]
  split <;> simp [fileChunksOf, fileChunkEvent]

/-- C5 amended, at a concrete input: the interrupted send of a three-byte file. -/
theorem interrupted_send_then_end_witness :
    interruptedAtCheck.pc = SendFilePc.loopCheck ∧
    interruptedAtCheck.statics.s_interruptFile = true ∧
    interruptedAtCheck.step.statics.s_interruptFile = false ∧
    fileChunksOf (postedSince interruptedAtCheck.events
        ((interruptedAtCheck.act Action.step).run [Action.step, Action.step]).events)
      = (if Action.step ∈ [Action.step, Action.step] then [FileChunk.end_] else []) :=
  ⟨by decide, by decide,
    interrupted_send_then_end interruptedAtCheck [Action.step, Action.step]
      (by decide) (by decide)⟩

theorem isDataChunk_data (d : List Byte) (n : Nat) :
    isDataChunk (FileChunk.data d n) = true := by
  simp [isDataChunk, FileChunk.data, FileChunk.new, memcpy, FILE_CHUNK_META_SIZE,
    List.replicate_succ, List.getD_eq_getElem?_getD]

theorem isDataChunk_start (d : List Byte) : isDataChunk (FileChunk.start d) = false := by
  have h : ¬ (kDataStart = kDataChunk) := by decide
  simp [FileChunk.start_eq, isDataChunk, h]

theorem isDataChunk_end : isDataChunk FileChunk.end_ = false := by
  decide

theorem dataChunkCount_add_event (q : EventQueue) (type : EventType) (target : Target)
    (data : EventData) :
    dataChunkCount (q.add_event type target data).events
      = dataChunkCount q.events
        + dataChunkCount [{ type := type, target := target, data := data }] := by
  simp [dataChunkCount, EventQueue.add_event, fileChunksOf_append]

/-- One action of a schedule, seen through `interruptSlack`: the Data chunks posted so
far plus the Data chunks still possible never grow. -/
theorem interruptSlack_act (s : SendFile) (a : Action) (b : Nat)
    (h : interruptSlack s = some b) :
    ∃ b', interruptSlack (s.act a) = some b' ∧
      dataChunkCount (s.act a).events.events + b' ≤ dataChunkCount s.events.events + b := by
  cases a with
  | interrupt =>
    refine ⟨b, ?_, Nat.le_refl _⟩
    unfold interruptSlack at h ⊢
    unfold SendFile.act StreamChunker.interruptFile
    cases hc : s.statics.s_isChunkingFile <;> cases hpc : s.pc <;>
      simp_all
  | step =>
    obtain ⟨pc, file, tgt, size, sl, cs, ⟨chunking, flag⟩, ev⟩ := s
    have hk : ∀ q : EventQueue, dataChunkCount
        (q.add_event EventType.FILE_KEEPALIVE tgt EventData.none).events
        = dataChunkCount q.events := by
      intro q
      rw [dataChunkCount_add_event]
      simp [dataChunkCount, fileChunksOf]
    have hc : ∀ (q : EventQueue) (c : FileChunk), dataChunkCount
        (q.add_event EventType.FILE_CHUNK_SENDING tgt (EventData.fileChunk c)).events
        = dataChunkCount q.events + (if isDataChunk c = true then 1 else 0) := by
      intro q c
      rw [dataChunkCount_add_event]
      simp [dataChunkCount, fileChunksOf, List.countP_cons]
    cases pc <;> cases flag <;>
      simp only [interruptSlack, if_true, if_false, Bool.false_eq_true, Option.some.injEq,
        reduceCtorEq] at h
    all_goals subst h
    · exact ⟨0, by simp [interruptSlack, SendFile.act, SendFile.step],
        by simp [SendFile.act, SendFile.step]⟩
    · cases file with
      | none =>
        exact ⟨0, by simp [interruptSlack, SendFile.act, SendFile.step],
          by simp [SendFile.act, SendFile.step]⟩
      | some content =>
        exact ⟨0, by simp [interruptSlack, SendFile.act, SendFile.step],
          by simp [SendFile.act, SendFile.step, hc, isDataChunk_start]⟩
    · exact ⟨0, by simp [interruptSlack, SendFile.act, SendFile.step],
        by simp [SendFile.act, SendFile.step]⟩
    · exact ⟨1, by simp [interruptSlack, SendFile.act, SendFile.step],
        by simp [SendFile.act, SendFile.step, hk]⟩
    · refine ⟨0, ?_, by simp [SendFile.act, SendFile.step, hc, isDataChunk_data]⟩
      simp only [interruptSlack, SendFile.act, SendFile.step]
      by_cases hs : (sl + if sl + cs > size then size - sl else cs) = size <;> simp [hs]
    · exact ⟨0, by simp [interruptSlack, SendFile.act, SendFile.step],
        by simp [SendFile.act, SendFile.step, hc, isDataChunk_end]⟩
    · exact ⟨0, by simp [interruptSlack, SendFile.act, SendFile.step],
        by simp [SendFile.act, SendFile.step, hc, isDataChunk_end]⟩
    all_goals
      exact ⟨0, by simp [interruptSlack, SendFile.act, SendFile.step],
        by simp [SendFile.act, SendFile.step]⟩

/-- Under any schedule the Data chunks posted stay within the slack. -/
theorem interruptSlack_run (schedule : List Action) :
    ∀ (s : SendFile) (b : Nat), interruptSlack s = some b →
      dataChunkCount (s.run schedule).events.events ≤ dataChunkCount s.events.events + b := by
  induction schedule with
  | nil =>
    intro s b _
    exact Nat.le_add_right _ _
  | cons a as ih =>
    intro s b h
    obtain ⟨b', hb', hle⟩ := interruptSlack_act s a b h
    rw [SendFile.run_cons]
    exact Nat.le_trans (ih _ b' hb') hle

/-- One action of a schedule, seen through `stepsToLeave`: with the flag set, every step
of `sendFile` brings the exit of the loop nearer, and no action moves it away. -/
theorem stepsToLeave_act (s : SendFile) (a : Action)
    (h : 0 < stepsToLeave s → s.statics.s_interruptFile = true) :
    (0 < stepsToLeave (s.act a) → (s.act a).statics.s_interruptFile = true) ∧
    stepsToLeave (s.act a) ≤ stepsToLeave s - (if a = Action.step then 1 else 0) := by
  obtain ⟨pc, file, tgt, size, sl, cs, ⟨chunking, flag⟩, ev⟩ := s
  cases a with
  | interrupt =>
    cases pc <;> cases chunking <;>
      simp_all [stepsToLeave, SendFile.act, StreamChunker.interruptFile]
  | step =>
    cases pc <;> simp only [stepsToLeave, Nat.lt_irrefl, false_implies,
        Nat.zero_lt_succ, true_implies, Nat.ofNat_pos] at h
    case sendStart =>
      cases file <;> simp_all [stepsToLeave, SendFile.act, SendFile.step]
    case sendData =>
      simp only [SendFile.act, SendFile.step, stepsToLeave]
      by_cases hs : (sl + if sl + cs > size then size - sl else cs) = size <;>
        simp_all
    all_goals simp_all [stepsToLeave, SendFile.act, SendFile.step]

theorem stepsToLeave_run (schedule : List Action) :
    ∀ s : SendFile, (0 < stepsToLeave s → s.statics.s_interruptFile = true) →
      stepsToLeave (s.run schedule) ≤ stepsToLeave s - schedule.count Action.step := by
  induction schedule with
  | nil =>
    intro s _
    exact Nat.le_refl _
  | cons a as ih =>
    intro s h
    obtain ⟨h1, h2⟩ := stepsToLeave_act s a h
    rw [SendFile.run_cons]
    have h3 := ih _ h1
    cases a with
    | step =>
      simp only [if_true] at h2
      simp only [List.count_cons_self]
      omega
    | interrupt =>
      have hne : (Action.interrupt == Action.step) = false := rfl
      simp only [reduceCtorEq, if_false, Nat.sub_zero] at h2
      simp only [List.count_cons, hne, Bool.false_eq_true, if_false, Nat.add_zero]
      omega

theorem outsideLoop_of_stepsToLeave (s : SendFile) (h : stepsToLeave s = 0) :
    s.pc.outsideLoop = true := by
  unfold stepsToLeave at h
  cases hpc : s.pc <;> simp_all [SendFilePc.outsideLoop]

/-- One call of `sendFile` alone in the process: when `interruptFile()` is called while
it is chunking (`s_isChunkingFile` set), the flag is set, and whatever happens afterwards
(steps of this `sendFile` and further `interruptFile` calls, in any order) it posts at
most one further Data chunk; and once it has taken three more steps it stands outside
its producer loop. -/
theorem interrupt_within_one_chunk (s : SendFile) (schedule : List Action)
    (hchunking : s.statics.s_isChunkingFile = true) :
    (s.act Action.interrupt).statics.s_interruptFile = true ∧
    dataChunkCount ((s.act Action.interrupt).run schedule).events.events
      ≤ dataChunkCount s.events.events + 1 ∧
    (3 ≤ schedule.count Action.step →
      ((s.act Action.interrupt).run schedule).pc.outsideLoop = true) := by
  have hflag : (s.act Action.interrupt).statics.s_interruptFile = true := by
    simp [SendFile.act, StreamChunker.interruptFile, hchunking]
  have hev : (s.act Action.interrupt).events = s.events := rfl
  refine ⟨hflag, ?_, ?_⟩
  · have hslack : ∃ b, interruptSlack (s.act Action.interrupt) = some b ∧ b ≤ 1 := by
      unfold interruptSlack
      cases hpc : (s.act Action.interrupt).pc <;> simp [hflag]
    obtain ⟨b, hb, hb1⟩ := hslack
    have h := interruptSlack_run schedule _ b hb
    rw [hev] at h
    omega
  · intro h3
    have h := stepsToLeave_run schedule (s.act Action.interrupt) (fun _ => hflag)
    have hmax : stepsToLeave (s.act Action.interrupt) ≤ 3 := by
      unfold stepsToLeave
      cases hpc : (s.act Action.interrupt).pc <;> simp
    exact outsideLoop_of_stepsToLeave _ (by omega)

/-- One call of `sendFile` alone, at a concrete input: `interruptFile` is called when the
send of a three-byte file has passed its first flag check; four steps of `sendFile`
follow. -/
theorem interrupt_within_one_chunk_witness :
    pastFirstCheck.statics.s_isChunkingFile = true ∧
    (pastFirstCheck.act Action.interrupt).statics.s_interruptFile = true ∧
    dataChunkCount ((pastFirstCheck.act Action.interrupt).run
        [Action.step, Action.step, Action.step, Action.step]).events.events
      ≤ dataChunkCount pastFirstCheck.events.events + 1 ∧
    (3 ≤ [Action.step, Action.step, Action.step, Action.step].count Action.step →
      ((pastFirstCheck.act Action.interrupt).run
        [Action.step, Action.step, Action.step, Action.step]).pc.outsideLoop = true) :=
  ⟨by decide,
    interrupt_within_one_chunk pastFirstCheck
      [Action.step, Action.step, Action.step, Action.step] (by decide)⟩

/-- C7 fails on the code: a first send of a one-byte file runs to its end and posts all
its chunks, `interruptFile()` having been called after the flag check of its only
iteration; the flag stays set when it returns, and the next send, of the file `[7]` with
no further `interruptFile()` call, posts Start and End but no Data chunk. -/
theorem late_interrupt_cuts_next_send :
    lateInterruptedRun.pc = SendFilePc.done ∧
    fileChunksOf lateInterruptedRun.events.events
      = [FileChunk.start (sizeTypeToString 1), FileChunk.data [1] 1, FileChunk.end_] ∧
    lateInterruptedRun.statics = { s_isChunkingFile := false, s_interruptFile := true } ∧
    (StreamChunker.sendFile [7] lateInterruptedRun.events 7 lateInterruptedRun.statics).pc
      = SendFilePc.done ∧
    fileChunksOf (postedSince lateInterruptedRun.events
        (StreamChunker.sendFile [7] lateInterruptedRun.events 7
          lateInterruptedRun.statics).events)
      = [FileChunk.start (sizeTypeToString 1), FileChunk.end_] := by
  decide

/-! ## The receiver: End and Data chunks -/

theorem FileChunk.assemble_end (p : List Byte → Nat) (content dataReceived : List Byte)
    (expectedSize : Nat) :
    FileChunk.assemble p (some (kDataEnd, content)) dataReceived expectedSize
      = (if expectedSize = dataReceived.length then EDataReceived.kFinish
         else EDataReceived.kError, dataReceived, expectedSize) := by
  have h1 : ¬ (kDataEnd = kDataStart) := by decide
  have h2 : ¬ (kDataEnd = kDataChunk) := by decide
  by_cases h : expectedSize = dataReceived.length <;>
    simp [FileChunk.assemble, h1, h2, h]

theorem FileChunk.assemble_data (p : List Byte → Nat) (content dataReceived : List Byte)
    (expectedSize : Nat) :
    FileChunk.assemble p (some (kDataChunk, content)) dataReceived expectedSize
      = (EDataReceived.kNotFinish, dataReceived ++ content, expectedSize) := by
  have h1 : ¬ (kDataChunk = kDataStart) := by decide
  simp [FileChunk.assemble, h1]

/-- C8. End-of-transfer check: for every receiver state, `FileChunk::assemble` on an End
chunk returns `kFinish` if and only if `expectedSize` equals the size of `dataReceived`,
and `kError` otherwise; and for every outcome of the read,
`ClientProxy1_5::fileChunkReceived` posts `FILE_RECEIVE_COMPLETED` (to the server, one
event) when the result of `assemble` is `kFinish`, and posts nothing otherwise. -/
theorem end_of_transfer_check (stringToSizeType : List Byte → Nat)
    (content dataReceived : List Byte) (expectedSize : Nat)
    (readf : Option (Byte × List Byte)) (server : Server) (m_events : EventQueue) :
    ((FileChunk.assemble stringToSizeType (some (kDataEnd, content)) dataReceived
        expectedSize).1 = EDataReceived.kFinish ↔ expectedSize = dataReceived.length) ∧
    (FileChunk.assemble stringToSizeType (some (kDataEnd, content)) dataReceived
        expectedSize).1
      = (if expectedSize = dataReceived.length then EDataReceived.kFinish
         else EDataReceived.kError) ∧
    postedSince m_events
        (ClientProxy1_5.fileChunkReceived stringToSizeType readf server m_events).2
      = (if (FileChunk.assemble stringToSizeType readf server.m_receivedFileData
              server.m_expectedFileSize).1 = EDataReceived.kFinish
         then [{ type := EventType.FILE_RECEIVE_COMPLETED, target := server.target,
                 data := EventData.none }]
         else []) := by
  refine ⟨?_, ?_, ?_⟩
  · rw [FileChunk.assemble_end]
    by_cases h : expectedSize = dataReceived.length <;> simp [h]
  · rw [FileChunk.assemble_end]
  · unfold ClientProxy1_5.fileChunkReceived
    by_cases h : (FileChunk.assemble stringToSizeType readf server.m_receivedFileData
        server.m_expectedFileSize).1 = EDataReceived.kFinish
    · simp [h, postedSince, EventQueue.add_event]
    · by_cases h2 : (FileChunk.assemble stringToSizeType readf server.m_receivedFileData
          server.m_expectedFileSize).1 = EDataReceived.kStart <;>
        simp [h, h2, postedSince]

/-- C9 as stated fails: an End chunk arrives at a server that holds one byte of an
announced two. The receive buffer is kept as it is and no event is posted. -/
theorem size_mismatch_keeps_buffer :
    partialServer.m_expectedFileSize ≠ partialServer.m_receivedFileData.length ∧
    (ClientProxy1_5.fileChunkReceived decimalToSize (some (kDataEnd, [])) partialServer
        emptyQueue).1.m_receivedFileData = [1] ∧
    (ClientProxy1_5.fileChunkReceived decimalToSize (some (kDataEnd, [])) partialServer
        emptyQueue).2.events = [] := by
  decide

/-- C9, amended. Size mismatch at End is reported as an error and nothing else: when an
End chunk arrives while the received size differs from the expected size,
`FileChunk::assemble` returns `kError` and leaves the receive buffer and the expected
size as they were, and `ClientProxy1_5::fileChunkReceived` posts no event (no completion
is signalled). -/
theorem size_mismatch_at_end (stringToSizeType : List Byte → Nat) (content : List Byte)
    (server : Server) (m_events : EventQueue)
    (hne : server.m_expectedFileSize ≠ server.m_receivedFileData.length) :
    FileChunk.assemble stringToSizeType (some (kDataEnd, content)) server.m_receivedFileData
        server.m_expectedFileSize
      = (EDataReceived.kError, server.m_receivedFileData, server.m_expectedFileSize) ∧
    (ClientProxy1_5.fileChunkReceived stringToSizeType (some (kDataEnd, content)) server
        m_events).1.m_receivedFileData = server.m_receivedFileData ∧
    (ClientProxy1_5.fileChunkReceived stringToSizeType (some (kDataEnd, content)) server
        m_events).1.m_expectedFileSize = server.m_expectedFileSize ∧
    (ClientProxy1_5.fileChunkReceived stringToSizeType (some (kDataEnd, content)) server
        m_events).2.events = m_events.events := by
  have h : FileChunk.assemble stringToSizeType (some (kDataEnd, content))
      server.m_receivedFileData server.m_expectedFileSize
      = (EDataReceived.kError, server.m_receivedFileData, server.m_expectedFileSize) := by
    rw [FileChunk.assemble_end]
    simp [hne]
  refine ⟨h, ?_, ?_, ?_⟩ <;> simp [ClientProxy1_5.fileChunkReceived, h]

/-- C9 amended, at a concrete input: the server that holds one byte of an announced two. -/
theorem size_mismatch_at_end_witness :
    partialServer.m_expectedFileSize ≠ partialServer.m_receivedFileData.length ∧
    FileChunk.assemble decimalToSize (some (kDataEnd, [])) partialServer.m_receivedFileData
        partialServer.m_expectedFileSize
      = (EDataReceived.kError, partialServer.m_receivedFileData,
          partialServer.m_expectedFileSize) ∧
    (ClientProxy1_5.fileChunkReceived decimalToSize (some (kDataEnd, [])) partialServer
        emptyQueue).1.m_receivedFileData = partialServer.m_receivedFileData ∧
    (ClientProxy1_5.fileChunkReceived decimalToSize (some (kDataEnd, [])) partialServer
        emptyQueue).1.m_expectedFileSize = partialServer.m_expectedFileSize ∧
    (ClientProxy1_5.fileChunkReceived decimalToSize (some (kDataEnd, [])) partialServer
        emptyQueue).2.events = emptyQueue.events :=
  ⟨by decide, size_mismatch_at_end decimalToSize [] partialServer emptyQueue (by decide)⟩

/-- C10 as stated fails: a Data chunk of two bytes arrives when one byte is expected and
none received. `assemble` takes the two bytes and returns `kNotFinish`, not `kError`. -/
theorem oversized_data_is_taken :
    1 < ([] ++ [(1 : Byte), 2]).length ∧
    FileChunk.assemble decimalToSize (some (kDataChunk, [1, 2])) [] 1
      = (EDataReceived.kNotFinish, [1, 2], 1) := by
  decide

/-- C10, amended. Oversized data is an error at End: for every Data chunk,
`FileChunk::assemble` appends the payload and returns `kNotFinish`, also when the
received size then exceeds the expected size; the excess is reported by the End chunk,
on which `assemble` then returns `kError`, as long as no Start has reset the receiver. -/
theorem oversized_data_error_at_end (stringToSizeType : List Byte → Nat)
    (content endContent dataReceived : List Byte) (expectedSize : Nat)
    (hover : expectedSize < (dataReceived ++ content).length) :
    FileChunk.assemble stringToSizeType (some (kDataChunk, content)) dataReceived expectedSize
      = (EDataReceived.kNotFinish, dataReceived ++ content, expectedSize) ∧
    (∀ more : List (List Byte),
      assembleAll stringToSizeType
          (more.map (fun d => Message.kMsgDFileTransfer kDataChunk d)
            ++ [Message.kMsgDFileTransfer kDataEnd endContent])
          (some EDataReceived.kNotFinish, dataReceived ++ content, expectedSize)
        = (some EDataReceived.kError, dataReceived ++ content ++ more.flatten,
            expectedSize)) := by
  refine ⟨FileChunk.assemble_data _ _ _ _, ?_⟩
  intro more
  rw [assembleAll_data_end]
  have hne : ¬ (expectedSize = (dataReceived ++ content ++ more.flatten).length) := by
    simp only [List.length_append] at hover ⊢
    omega
  rw [if_neg hne]

/-- C10 amended, at a concrete input: two bytes arrive when one is expected, then End. -/
theorem oversized_data_error_at_end_witness :
    1 < (([] : List Byte) ++ [1, 2]).length ∧
    FileChunk.assemble decimalToSize (some (kDataChunk, [1, 2])) [] 1
      = (EDataReceived.kNotFinish, [] ++ [1, 2], 1) ∧
    (∀ more : List (List Byte),
      assembleAll decimalToSize
          (more.map (fun d => Message.kMsgDFileTransfer kDataChunk d)
            ++ [Message.kMsgDFileTransfer kDataEnd []])
          (some EDataReceived.kNotFinish, [] ++ [1, 2], 1)
        = (some EDataReceived.kError, [] ++ [1, 2] ++ more.flatten, 1)) :=
  ⟨by decide, oversized_data_error_at_end decimalToSize [1, 2] [] [] 1 (by decide)⟩

/-! ## The receiver: Start chunks -/

/-- C11. Start resets the receiver: for every prior buffer content and expected size,
`FileChunk::assemble` on a Start chunk with payload `s` empties `dataReceived`, sets
`expectedSize` to what `stringToSizeType` reads from `s`, and returns `kStart`; what the
receiver does with the messages after the Start does not depend on what it held before,
so a partly received transfer is discarded. -/
theorem start_resets_receiver (stringToSizeType : List Byte → Nat)
    (s dataReceived : List Byte) (expectedSize : Nat) (last : Option EDataReceived)
    (rest : List Message) :
    FileChunk.assemble stringToSizeType (some (kDataStart, s)) dataReceived expectedSize
      = (EDataReceived.kStart, [], stringToSizeType s) ∧
    assembleAll stringToSizeType (Message.kMsgDFileTransfer kDataStart s :: rest)
        (last, dataReceived, expectedSize)
      = assembleAll stringToSizeType rest
          (some EDataReceived.kStart, [], stringToSizeType s) := by
  have h : FileChunk.assemble stringToSizeType (some (kDataStart, s)) dataReceived
      expectedSize = (EDataReceived.kStart, [], stringToSizeType s) := by
    simp [FileChunk.assemble]
  exact ⟨h, by simp only [assembleAll, readfFileTransfer, h]⟩

/-! ## Clipboard ownership -/

/-- C12. Remote grab clears ownership: for every clipboard id and client state, after
`Client::grabClipboard(id)` the flags `m_ownClipboard[id]` and `m_sentClipboard[id]` are
false, the flags of every other id are unchanged, and the screen was told to grab
`id`. -/
theorem remote_grab_clears_ownership (c : Client) (id : Nat) :
    (c.grabClipboard id).m_ownClipboard id = false ∧
    (c.grabClipboard id).m_sentClipboard id = false ∧
    (∀ j : Nat, j ≠ id →
      (c.grabClipboard id).m_ownClipboard j = c.m_ownClipboard j ∧
      (c.grabClipboard id).m_sentClipboard j = c.m_sentClipboard j) ∧
    (c.grabClipboard id).m_screen.grabbed = c.m_screen.grabbed ++ [id] := by
  refine ⟨by simp [Client.grabClipboard], by simp [Client.grabClipboard], ?_, rfl⟩
  intro j hj
  simp [Client.grabClipboard, Function.update_noteq hj]

theorem Client.sendClipboard_own (id : Nat) (clipboard : Nat × List Byte) (c : Client) :
    (c.sendClipboard id clipboard).m_ownClipboard = c.m_ownClipboard := by
  unfold Client.sendClipboard
  by_cases h1 : c.m_timeClipboard id = 0 ∨ clipboard.1 ≠ c.m_timeClipboard id
  · by_cases h2 : c.m_sentClipboard id = false ∨ clipboard.2 ≠ c.m_dataClipboard id <;>
      simp [h1, h2]
  · simp [h1]

theorem Client.sendClipboard_proxyCalls (id : Nat) (clipboard : Nat × List Byte)
    (c : Client) (call : ProxyCall) (h : call ∈ c.proxyCalls) :
    call ∈ (c.sendClipboard id clipboard).proxyCalls := by
  unfold Client.sendClipboard
  by_cases h1 : c.m_timeClipboard id = 0 ∨ clipboard.1 ≠ c.m_timeClipboard id
  · by_cases h2 : c.m_sentClipboard id = false ∨ clipboard.2 ≠ c.m_dataClipboard id <;>
      simp [h1, h2, h]
  · simp [h1, h]

/-- C13 as stated fails: a connected client whose clipboard sharing was switched off by
`setOptions` handles a local `CLIPBOARD_GRABBED` event for clipboard 0 and does not own
the clipboard afterwards. -/
theorem local_grab_without_sharing :
    sharingOffClient.isConnected = true ∧
    sharingOffClient.m_enableClipboard = false ∧
    (Client.handle_clipboard_grabbed 0 (5, [1]) sharingOffClient).map
      (fun c => c.m_ownClipboard 0) = some false := by
  decide

/-- C13, amended. Local grab gives ownership when clipboard sharing is enabled: for
every clipboard id and every connected client state (active screen or not, whatever the
screen holds), after the client handles a local `CLIPBOARD_GRABBED` event for `id` with
`m_enableClipboard` set, `m_ownClipboard[id]` is true and the server proxy was told of
the grab; with `m_enableClipboard` clear the handler returns at once and changes
nothing. -/
theorem local_grab_gives_ownership (c : Client) (id : Nat) (clipboard : Nat × List Byte)
    (proxy : ServerProxy) (hserver : c.m_server = some proxy) :
    (c.m_enableClipboard = true →
      ∃ c' : Client, Client.handle_clipboard_grabbed id clipboard c = some c' ∧
        c'.m_ownClipboard id = true ∧
        ProxyCall.onGrabClipboard id ∈ c'.proxyCalls) ∧
    (c.m_enableClipboard = false →
      Client.handle_clipboard_grabbed id clipboard c = some c) := by
  constructor
  · intro hen
    unfold Client.handle_clipboard_grabbed
    simp only [hen, hserver, Bool.true_eq_false, if_false]
    by_cases hact : c.m_active = false
    · simp only [hact, if_true]
      refine ⟨_, rfl, ?_, ?_⟩
      · rw [Client.sendClipboard_own]
        simp
      · apply Client.sendClipboard_proxyCalls
        simp
    · simp only [hact, if_false]
      exact ⟨_, rfl, by simp, by simp⟩
  · intro hen
    simp [Client.handle_clipboard_grabbed, hen]

/-- C13 amended, at a concrete input: the connected client, sharing enabled, grabs
clipboard 0. -/
theorem local_grab_gives_ownership_witness :
    connectedClient.m_server = some { m_stream := { eventTarget := 3, isReady := false } } ∧
    (connectedClient.m_enableClipboard = true →
      ∃ c' : Client, Client.handle_clipboard_grabbed 0 (5, [1]) connectedClient = some c' ∧
        c'.m_ownClipboard 0 = true ∧
        ProxyCall.onGrabClipboard 0 ∈ c'.proxyCalls) ∧
    (connectedClient.m_enableClipboard = false →
      Client.handle_clipboard_grabbed 0 (5, [1]) connectedClient = some connectedClient) :=
  ⟨by decide,
    local_grab_gives_ownership connectedClient 0 (5, [1])
      { m_stream := { eventTarget := 3, isReady := false } } (by decide)⟩

/-- C12, at a concrete input: the connected client is told that clipboard 0 was grabbed
elsewhere. -/
theorem remote_grab_clears_ownership_witness :
    (connectedClient.grabClipboard 0).m_ownClipboard 0 = false ∧
    (connectedClient.grabClipboard 0).m_sentClipboard 0 = false ∧
    (∀ j : Nat, j ≠ 0 →
      (connectedClient.grabClipboard 0).m_ownClipboard j = connectedClient.m_ownClipboard j ∧
      (connectedClient.grabClipboard 0).m_sentClipboard j
        = connectedClient.m_sentClipboard j) ∧
    (connectedClient.grabClipboard 0).m_screen.grabbed
      = connectedClient.m_screen.grabbed ++ [0] :=
  remote_grab_clears_ownership connectedClient 0

/-! ## Suspend and resume -/

/-- A call of `connect` on a client without a stream that is not suspended acts: it
leaves a stream behind or posts an event. -/
theorem Client.connect_acts (attempt : ConnectAttempt) (c : Client)
    (hstream : c.m_stream = none) (hsusp : c.m_suspended = false) :
    (c.connect attempt).m_stream.isSome = true ∨
    postedSince c.m_events (c.connect attempt).m_events ≠ [] := by
  obtain ⟨fb, st, fc⟩ := attempt
  obtain ⟨this, name, screen, stream, timer, server, ready, active, susp, cor, ev, args, ec,
    own, sent, time, written, data, calls⟩ := c
  simp only at hstream hsusp
  subst hstream hsusp
  obtain ⟨crypto, dragDrop, restartable⟩ := args
  cases fb <;> cases fc <;> cases timer <;> cases crypto <;>
    simp [Client.connect, Client.connectFailed, Client.cleanupTimer, Client.cleanupConnecting,
      Client.cleanupStream, Client.sendConnectionFailedEvent, Client.setupConnecting,
      Client.setupTimer, EventQueue.add_handler, EventQueue.removeHandler,
      EventQueue.deleteTimer, EventQueue.newOneShotTimer, EventQueue.add_event, postedSince]

/-- C14. Suspend then resume: for every client state, `Client::handle_suspend` leaves the
client without server proxy, stream and connect timer, with `m_suspended` set, having
posted `CLIENT_DISCONNECTED` and nothing else, and with `m_connectOnResume` telling
whether the client was connected; the `handle_resume` that follows is a call of
`connect()` on the resumed client if the client was connected when the suspend arrived,
and only clears `m_suspended` if it was not; that call of `connect()` acts (it leaves a
stream or posts an event). -/
theorem suspend_then_resume (c : Client) (attempt : ConnectAttempt) :
    c.handle_suspend.m_server = none ∧
    c.handle_suspend.m_stream = none ∧
    c.handle_suspend.m_timer = none ∧
    c.handle_suspend.m_suspended = true ∧
    postedSince c.m_events c.handle_suspend.m_events
      = [{ type := EventType.CLIENT_DISCONNECTED, target := c.getEventTarget,
           data := EventData.none }] ∧
    c.handle_suspend.m_connectOnResume = c.isConnected ∧
    c.handle_suspend.handle_resume attempt
      = (if c.isConnected = true then
          Client.connect attempt
            { c.handle_suspend with m_suspended := false, m_connectOnResume := false }
         else { c.handle_suspend with m_suspended := false }) ∧
    ((Client.connect attempt
        { c.handle_suspend with m_suspended := false, m_connectOnResume := false }).m_stream.isSome
        = true ∨
      postedSince c.handle_suspend.m_events
        (Client.connect attempt
          { c.handle_suspend with m_suspended := false, m_connectOnResume := false }).m_events
        ≠ []) := by
  have hfields : c.handle_suspend.m_server = none ∧ c.handle_suspend.m_stream = none ∧
      c.handle_suspend.m_timer = none ∧ c.handle_suspend.m_suspended = true ∧
      postedSince c.m_events c.handle_suspend.m_events
        = [{ type := EventType.CLIENT_DISCONNECTED, target := c.getEventTarget,
             data := EventData.none }] ∧
      c.handle_suspend.m_connectOnResume = c.isConnected := by
    obtain ⟨this, name, screen, stream, timer, server, ready, active, susp, cor, ev, args,
      ec, own, sent, time, written, data, calls⟩ := c
    cases stream <;> cases timer <;> cases server <;> cases ready <;>
      simp [Client.handle_suspend, Client.disconnect, Client.cleanupTimer,
        Client.cleanupScreen, Client.cleanupConnecting, Client.cleanupConnection,
        Client.cleanupStream, Client.send_event, Client.isConnected, Client.getEventTarget,
        EventQueue.removeHandler, EventQueue.deleteTimer, EventQueue.add_event, postedSince]
  obtain ⟨h1, h2, h3, h4, h5, h6⟩ := hfields
  refine ⟨h1, h2, h3, h4, h5, h6, ?_, ?_⟩
  · unfold Client.handle_resume
    simp only [h6]
  · exact Client.connect_acts attempt _ h2 rfl

/-! ## The acceptable hello and the handshake -/

/-- What `handle_hello` leaves behind on a hello that is not older than the compiled
version. -/
theorem Client.handle_hello_accept (kProtocolMajorVersion kProtocolMinorVersion : Int)
    (major minor : Int) (c : Client) (stream : Stream)
    (hstream : c.m_stream = some stream)
    (hnew : ¬ (major < kProtocolMajorVersion ∨
      (major = kProtocolMajorVersion ∧ minor < kProtocolMinorVersion))) :
    ∃ c' : Client,
      Client.handle_hello kProtocolMajorVersion kProtocolMinorVersion (some (major, minor)) c
        = some c' ∧
      c'.written = c.written ++
        [Message.kMsgHelloBack kProtocolMajorVersion kProtocolMinorVersion c.m_name] ∧
      c'.m_server = some { m_stream := stream } ∧
      c'.m_timer = none ∧
      (∀ t : Target, c.m_timer = some t → ∀ x ∈ c'.m_events.timers, x.id ≠ t) ∧
      c'.m_stream = some stream ∧
      c'.m_ready = false ∧
      c'.m_screen = c.m_screen ∧
      postedSince c.m_events c'.m_events
        = (if stream.isReady = true then
            [{ type := EventType.STREAM_INPUT_READY, target := stream.eventTarget,
               data := EventData.none }]
           else []) := by
  obtain ⟨this, name, screen, st, timer, server, ready, active, susp, cor, ev, args,
    ec, own, sent, time, written, data, calls⟩ := c
  simp only at hstream
  subst hstream
  obtain ⟨target, isReady⟩ := stream
  cases timer <;> cases isReady <;>
    simp [Client.handle_hello, hnew, Client.setupScreen, Client.cleanupTimer,
      Client.getEventTarget, EventQueue.add_handler, EventQueue.removeHandler,
      EventQueue.deleteTimer, EventQueue.add_event, postedSince, List.mem_filter]

/-- C16. Hello reply: for every hello `(major, minor)` that is not older than the
compiled version, `Client::handle_hello` writes exactly one message, the hello reply
carrying `kProtocolMajorVersion`, `kProtocolMinorVersion` and the name of the client,
creates the server proxy (`isConnected()` is true afterwards) and cancels the connect
timer (`isConnecting()` is false afterwards, and the timer is deleted from the queue). -/
theorem handle_hello_reply (kProtocolMajorVersion kProtocolMinorVersion : Int)
    (major minor : Int) (c : Client) (stream : Stream)
    (hstream : c.m_stream = some stream)
    (hnew : ¬ (major < kProtocolMajorVersion ∨
      (major = kProtocolMajorVersion ∧ minor < kProtocolMinorVersion))) :
    ∃ c' : Client,
      Client.handle_hello kProtocolMajorVersion kProtocolMinorVersion (some (major, minor)) c
        = some c' ∧
      c'.written = c.written ++
        [Message.kMsgHelloBack kProtocolMajorVersion kProtocolMinorVersion c.m_name] ∧
      c'.isConnected = true ∧
      c'.m_server = some { m_stream := stream } ∧
      c'.isConnecting = false ∧
      (∀ t : Target, c.m_timer = some t → ∀ x ∈ c'.m_events.timers, x.id ≠ t) := by
  obtain ⟨c', h, hw, hs, ht, hq, -, -, -, -⟩ :=
    Client.handle_hello_accept kProtocolMajorVersion kProtocolMinorVersion major minor c
      stream hstream hnew
  exact ⟨c', h, hw, by simp [Client.isConnected, hs], hs, by simp [Client.isConnecting, ht],
    hq⟩

/-- C16, at a concrete input: the server says 1.6 to a client compiled for 1.6. -/
theorem handle_hello_reply_witness :
    awaitingHello.m_stream = some { eventTarget := 3, isReady := false } ∧
    ¬ ((1 : Int) < 1 ∨ ((1 : Int) = 1 ∧ (6 : Int) < 6)) ∧
    ∃ c' : Client,
      Client.handle_hello 1 6 (some (1, 6)) awaitingHello = some c' ∧
      c'.written = awaitingHello.written ++ [Message.kMsgHelloBack 1 6 awaitingHello.m_name] ∧
      c'.isConnected = true ∧
      c'.m_server = some { m_stream := { eventTarget := 3, isReady := false } } ∧
      c'.isConnecting = false ∧
      (∀ t : Target, awaitingHello.m_timer = some t → ∀ x ∈ c'.m_events.timers, x.id ≠ t) :=
  ⟨rfl, by decide,
    handle_hello_reply 1 6 1 6 awaitingHello { eventTarget := 3, isReady := false } rfl
      (by decide)⟩

/-- C17 as stated fails: after the acceptable hello 1.6 the client `awaitingHello` has a
server proxy, but it is not ready, its screen is not enabled, and no event at all was
posted, so no `CLIENT_CONNECTED`. -/
theorem hello_alone_does_not_activate :
    (Client.handle_hello 1 6 (some (1, 6)) awaitingHello).map
        (fun c => (c.isConnected, c.m_ready, c.m_screen.enabled, c.m_events.events))
      = some (true, false, false, []) := by
  decide

/-- C17, amended. An acceptable hello connects the client and the handshake completes
later: on a hello that is not older than the compiled version `Client::handle_hello`
creates the server proxy with `m_ready` clear, leaves the screen as it is and posts no
`CLIENT_CONNECTED` event; `Client::handshakeComplete()`, which the server proxy calls
when the handshake is over, sets `m_ready`, enables the local screen and posts one
`CLIENT_CONNECTED` event, the server proxy staying in place. -/
theorem hello_then_handshakeComplete (kProtocolMajorVersion kProtocolMinorVersion : Int)
    (major minor : Int) (c : Client) (stream : Stream)
    (hstream : c.m_stream = some stream)
    (hnew : ¬ (major < kProtocolMajorVersion ∨
      (major = kProtocolMajorVersion ∧ minor < kProtocolMinorVersion))) :
    ∃ c' : Client,
      Client.handle_hello kProtocolMajorVersion kProtocolMinorVersion (some (major, minor)) c
        = some c' ∧
      c'.isConnected = true ∧
      c'.m_ready = false ∧
      c'.m_screen = c.m_screen ∧
      (∀ e ∈ postedSince c.m_events c'.m_events, e.type ≠ EventType.CLIENT_CONNECTED) ∧
      c'.handshakeComplete.m_ready = true ∧
      c'.handshakeComplete.m_screen.enabled = true ∧
      c'.handshakeComplete.isConnected = true ∧
      postedSince c'.m_events c'.handshakeComplete.m_events
        = [{ type := EventType.CLIENT_CONNECTED, target := c.getEventTarget,
             data := EventData.none }] := by
  obtain ⟨c', h, -, hs, -, -, -, hr, hscreen, hposted⟩ :=
    Client.handle_hello_accept kProtocolMajorVersion kProtocolMinorVersion major minor c
      stream hstream hnew
  refine ⟨c', h, by simp [Client.isConnected, hs], hr, hscreen, ?_, ?_, ?_, ?_, ?_⟩
  · intro e he
    rw [hposted] at he
    split at he
    · simp only [List.mem_singleton] at he
      rw [he]
      simp
    · simp at he
  · simp [Client.handshakeComplete, Client.send_event]
  · simp [Client.handshakeComplete, Client.send_event]
  · simp [Client.handshakeComplete, Client.send_event, Client.isConnected, hs]
  · simp [Client.handshakeComplete, Client.send_event, Client.getEventTarget,
      EventQueue.add_event, postedSince, hscreen]

/-- C17 amended, at a concrete input: the hello 1.6 for a client compiled for 1.6. -/
theorem hello_then_handshakeComplete_witness :
    awaitingHello.m_stream = some { eventTarget := 3, isReady := false } ∧
    ¬ ((1 : Int) < 1 ∨ ((1 : Int) = 1 ∧ (6 : Int) < 6)) ∧
    ∃ c' : Client,
      Client.handle_hello 1 6 (some (1, 6)) awaitingHello = some c' ∧
      c'.isConnected = true ∧
      c'.m_ready = false ∧
      c'.m_screen = awaitingHello.m_screen ∧
      (∀ e ∈ postedSince awaitingHello.m_events c'.m_events,
        e.type ≠ EventType.CLIENT_CONNECTED) ∧
      c'.handshakeComplete.m_ready = true ∧
      c'.handshakeComplete.m_screen.enabled = true ∧
      c'.handshakeComplete.isConnected = true ∧
      postedSince c'.m_events c'.handshakeComplete.m_events
        = [{ type := EventType.CLIENT_CONNECTED, target := awaitingHello.getEventTarget,
             data := EventData.none }] :=
  ⟨rfl, by decide,
    hello_then_handshakeComplete 1 6 1 6 awaitingHello { eventTarget := 3, isReady := false }
      rfl (by decide)⟩

/-! ## The connect timer -/

/-- C18. Connect timeout: a call of `connect()` that goes through (no stream yet, not
suspended, nothing thrown) arms a one-shot timer of 15 seconds and registers
`handle_connect_timeout` for it; and for every client state `d`,
`Client::handle_connect_timeout` removes the timer (`m_timer` null, the timer deleted
and its handler removed) and the stream, and posts exactly one event,
`CLIENT_CONNECTION_FAILED` with the message `Timed out` and the retry flag set. -/
theorem connect_timeout (c d : Client) (attempt : ConnectAttempt)
    (hstream : c.m_stream = none) (hsusp : c.m_suspended = false)
    (hok1 : attempt.failBeforeStream = none) (hok2 : attempt.failConnect = none) :
    (∃ t : Target, (c.connect attempt).m_timer = some t ∧
      { id := t, duration := 15, oneShot := true } ∈ (c.connect attempt).m_events.timers ∧
      (EventType.TIMER, t, ClientHandler.handle_connect_timeout)
        ∈ (c.connect attempt).m_events.handlers) ∧
    d.handle_connect_timeout.m_timer = none ∧
    d.handle_connect_timeout.m_stream = none ∧
    (∀ t : Target, d.m_timer = some t →
      (∀ x ∈ d.handle_connect_timeout.m_events.timers, x.id ≠ t) ∧
      (∀ h ∈ d.handle_connect_timeout.m_events.handlers,
        ¬ (h.1 = EventType.TIMER ∧ h.2.1 = t))) ∧
    postedSince d.m_events d.handle_connect_timeout.m_events
      = [{ type := EventType.CLIENT_CONNECTION_FAILED, target := d.getEventTarget,
           data := EventData.failInfo (FailWhat.text "Timed out") true }] := by
  refine ⟨?_, ?_⟩
  · obtain ⟨fb, st, fc⟩ := attempt
    obtain ⟨this, name, screen, stream, timer, server, ready, active, susp, cor, ev, args,
      ec, own, sent, time, written, data, calls⟩ := c
    simp only at hstream hsusp hok1 hok2
    subst hstream hsusp hok1 hok2
    obtain ⟨crypto, dragDrop, restartable⟩ := args
    refine ⟨ev.nextTimer, ?_⟩
    cases crypto <;> simp [Client.connect, Client.setupConnecting, Client.setupTimer, EventQueue.add_handler,
      EventQueue.removeHandler, EventQueue.newOneShotTimer]
  · obtain ⟨this, name, screen, stream, timer, server, ready, active, susp, cor, ev, args,
      ec, own, sent, time, written, data, calls⟩ := d
    cases stream <;> cases timer <;>
      simp [Client.handle_connect_timeout, Client.cleanupTimer, Client.cleanupConnecting,
        Client.cleanupConnection, Client.cleanupStream, Client.sendConnectionFailedEvent,
        Client.getEventTarget, EventQueue.removeHandler, EventQueue.deleteTimer,
        EventQueue.add_event, postedSince, List.mem_filter]
    all_goals
      intros
      simp_all

/-- C18, at a concrete input: the client `idleClient` connects, nothing fails, and the
timer expires. -/
theorem connect_timeout_witness :
    idleClient.m_stream = none ∧ idleClient.m_suspended = false ∧
    plainAttempt.failBeforeStream = none ∧ plainAttempt.failConnect = none ∧
    (∃ t : Target, (idleClient.connect plainAttempt).m_timer = some t ∧
      { id := t, duration := 15, oneShot := true }
        ∈ (idleClient.connect plainAttempt).m_events.timers ∧
      (EventType.TIMER, t, ClientHandler.handle_connect_timeout)
        ∈ (idleClient.connect plainAttempt).m_events.handlers) ∧
    (idleClient.connect plainAttempt).handle_connect_timeout.m_timer = none ∧
    (idleClient.connect plainAttempt).handle_connect_timeout.m_stream = none ∧
    (∀ t : Target, (idleClient.connect plainAttempt).m_timer = some t →
      (∀ x ∈ (idleClient.connect plainAttempt).handle_connect_timeout.m_events.timers,
        x.id ≠ t) ∧
      (∀ h ∈ (idleClient.connect plainAttempt).handle_connect_timeout.m_events.handlers,
        ¬ (h.1 = EventType.TIMER ∧ h.2.1 = t))) ∧
    postedSince (idleClient.connect plainAttempt).m_events
        (idleClient.connect plainAttempt).handle_connect_timeout.m_events
      = [{ type := EventType.CLIENT_CONNECTION_FAILED,
           target := (idleClient.connect plainAttempt).getEventTarget,
           data := EventData.failInfo (FailWhat.text "Timed out") true }] :=
  ⟨rfl, rfl, rfl, rfl,
    connect_timeout idleClient (idleClient.connect plainAttempt) plainAttempt rfl rfl rfl rfl⟩

/-! ## The queue of waiting clients -/

theorem ClientListener.handle_unknown_client_waiting (l : ClientListener)
    (u : ClientProxyUnknown) :
    (l.handle_unknown_client u).m_waitingClients
      = l.m_waitingClients ++ u.orphanClientProxy.toList := by
  obtain ⟨this, proxy, stream⟩ := u
  cases proxy <;> cases stream <;> simp [ClientListener.handle_unknown_client]

theorem ClientListener.foldl_handle_unknown_client (unknowns : List ClientProxyUnknown) :
    ∀ l : ClientListener,
      (unknowns.foldl ClientListener.handle_unknown_client l).m_waitingClients
        = l.m_waitingClients ++ unknowns.filterMap (fun u => u.orphanClientProxy) := by
  induction unknowns with
  | nil => intro l; simp
  | cons u us ih =>
    intro l
    rw [List.foldl_cons, ih, ClientListener.handle_unknown_client_waiting]
    cases h : u.orphanClientProxy <;> simp [List.filterMap_cons, h]

theorem ClientListener.drain_spec (n : Nat) :
    ∀ l : ClientListener,
      (ClientListener.drain n l).1 = l.m_waitingClients.take n ∧
      (ClientListener.drain n l).2.m_waitingClients = l.m_waitingClients.drop n := by
  induction n with
  | zero => intro l; simp [ClientListener.drain]
  | succ n ih =>
    intro l
    cases hw : l.m_waitingClients with
    | nil =>
      have h := ih l
      simp [ClientListener.drain, ClientListener.getNextClient, hw, h]
    | cons x xs =>
      have h := ih (l.getNextClient).2
      simp only [ClientListener.getNextClient, hw] at h
      simp [ClientListener.drain, ClientListener.getNextClient, hw, h]

/-- C20. Waiting clients are a FIFO: `ClientListener::getNextClient` returns the front of
the queue and removes it, and returns null if and only if the queue is empty;
`handle_unknown_client` appends the client proxy of each successful handshake at the
back; so after any handshakes the first `n` calls of `getNextClient` return the waiting
proxies in the order in which they were appended, the older ones first. -/
theorem waiting_clients_fifo (l : ClientListener) (unknowns : List ClientProxyUnknown)
    (n : Nat) :
    l.getNextClient.1 = l.m_waitingClients.head? ∧
    l.getNextClient.2.m_waitingClients = l.m_waitingClients.tail ∧
    (l.getNextClient.1 = none ↔ l.m_waitingClients = []) ∧
    (unknowns.foldl ClientListener.handle_unknown_client l).m_waitingClients
      = l.m_waitingClients ++ unknowns.filterMap (fun u => u.orphanClientProxy) ∧
    (ClientListener.drain n (unknowns.foldl ClientListener.handle_unknown_client l)).1
      = (l.m_waitingClients ++ unknowns.filterMap (fun u => u.orphanClientProxy)).take n ∧
    (ClientListener.drain n
        (unknowns.foldl ClientListener.handle_unknown_client l)).2.m_waitingClients
      = (l.m_waitingClients ++ unknowns.filterMap (fun u => u.orphanClientProxy)).drop n := by
  have hget : l.getNextClient.1 = l.m_waitingClients.head? ∧
      l.getNextClient.2.m_waitingClients = l.m_waitingClients.tail ∧
      (l.getNextClient.1 = none ↔ l.m_waitingClients = []) := by
    cases hw : l.m_waitingClients <;> simp [ClientListener.getNextClient, hw]
  obtain ⟨h1, h2⟩ := ClientListener.drain_spec n
    (unknowns.foldl ClientListener.handle_unknown_client l)
  rw [ClientListener.foldl_handle_unknown_client] at h1 h2
  exact ⟨hget.1, hget.2.1, hget.2.2, ClientListener.foldl_handle_unknown_client _ _, h1, h2⟩

/-! ## One interrupt flag for all sessions -/

theorem EventQueue.mem_removeHandler (q : EventQueue) (t : EventType) (g : Target)
    (h : HandlerEntry) :
    h ∈ (q.removeHandler t g).handlers ↔ h ∈ q.handlers ∧ ¬ (h.1 = t ∧ h.2.1 = g) := by
  simp only [EventQueue.removeHandler, List.mem_filter, Bool.not_eq_true', Bool.and_eq_false_imp,
    decide_eq_true_eq, decide_eq_false_iff_not, not_and]

theorem EventQueue.mem_add_handler (q : EventQueue) (t : EventType) (g : Target)
    (k : ClientHandler) (h : HandlerEntry) :
    h ∈ (q.add_handler t g k).handlers
      ↔ (h ∈ q.handlers ∧ ¬ (h.1 = t ∧ h.2.1 = g)) ∨ h = (t, g, k) := by
  simp only [EventQueue.add_handler, List.mem_append, List.mem_singleton,
    EventQueue.mem_removeHandler]

theorem EventQueue.mem_deleteTimer (q : EventQueue) (t : Target) (x : EventQueueTimer) :
    x ∈ (q.deleteTimer t).timers ↔ x ∈ q.timers ∧ x.id ≠ t := by
  simp [EventQueue.deleteTimer, List.mem_filter]

theorem Client.cleanupTimer_spec (c : Client) :
    (∀ h : HandlerEntry, h ∈ c.cleanupTimer.m_events.handlers →
      h ∈ c.m_events.handlers ∧ ¬ (h.1 = EventType.TIMER ∧ c.m_timer = some h.2.1)) ∧
    (∀ x ∈ c.cleanupTimer.m_events.timers, x ∈ c.m_events.timers ∧ c.m_timer ≠ some x.id) ∧
    c.cleanupTimer.m_timer = none ∧ c.cleanupTimer.m_stream = c.m_stream ∧
    c.cleanupTimer.m_server = c.m_server ∧ c.cleanupTimer.m_screen = c.m_screen ∧
    c.cleanupTimer.this = c.this ∧ c.cleanupTimer.m_args = c.m_args := by
  unfold Client.cleanupTimer
  cases ht : c.m_timer with
  | none => simp [ht]
  | some t =>
    refine ⟨?_, ?_, rfl, rfl, rfl, rfl, rfl, rfl⟩
    · intro h hmem
      have h1 : h ∈ (c.m_events.removeHandler EventType.TIMER t).handlers := hmem
      rw [EventQueue.mem_removeHandler] at h1
      refine ⟨h1.1, ?_⟩
      rintro ⟨h2, h3⟩
      exact h1.2 ⟨h2, (Option.some.inj h3).symm⟩
    · intro x hx
      have h1 : x ∈ ((c.m_events.removeHandler EventType.TIMER t).deleteTimer t).timers := hx
      rw [EventQueue.mem_deleteTimer] at h1
      refine ⟨h1.1, ?_⟩
      intro h2
      exact h1.2 (Option.some.inj h2).symm

theorem Client.cleanupScreen_spec (c : Client) :
    (∀ h : HandlerEntry, h ∈ c.cleanupScreen.m_events.handlers →
      h ∈ c.m_events.handlers ∧
      ¬ (h.1 ∈ screenTypes ∧ h.2.1 = c.getEventTarget ∧ c.m_server.isSome = true)) ∧
    c.cleanupScreen.m_events.timers = c.m_events.timers ∧
    c.cleanupScreen.m_timer = c.m_timer ∧ c.cleanupScreen.m_stream = c.m_stream ∧
    c.cleanupScreen.m_server = none ∧ c.cleanupScreen.getEventTarget = c.getEventTarget ∧
    c.cleanupScreen.this = c.this ∧ c.cleanupScreen.m_args = c.m_args := by
  unfold Client.cleanupScreen
  cases hs : c.m_server with
  | none => simp [hs]
  | some p =>
    have hframe : ∀ d : Client, d.getEventTarget = c.getEventTarget →
        d.m_events = c.m_events →
        ∀ h : HandlerEntry,
          h ∈ ((d.m_events.removeHandler EventType.SCREEN_SHAPE_CHANGED
              d.getEventTarget).removeHandler EventType.CLIPBOARD_GRABBED
              d.getEventTarget).handlers →
          h ∈ c.m_events.handlers ∧
          ¬ (h.1 ∈ screenTypes ∧ h.2.1 = c.getEventTarget ∧ (some p).isSome = true) := by
      intro d hd he h hmem
      rw [EventQueue.mem_removeHandler, EventQueue.mem_removeHandler, hd, he] at hmem
      refine ⟨hmem.1.1, ?_⟩
      rintro ⟨h1, h2, -⟩
      simp only [screenTypes, List.mem_cons, List.mem_singleton, List.not_mem_nil,
        or_false] at h1
      rcases h1 with h1 | h1
      · exact hmem.1.2 ⟨h1, h2⟩
      · exact hmem.2 ⟨h1, h2⟩
    by_cases hr : c.m_ready = true
    · rw [if_pos hr]
      exact ⟨hframe _ rfl rfl, rfl, rfl, rfl, rfl, rfl, rfl, rfl⟩
    · rw [if_neg hr]
      exact ⟨hframe _ rfl rfl, rfl, rfl, rfl, rfl, rfl, rfl, rfl⟩

theorem Client.cleanupConnecting_spec (c : Client) :
    (∀ h : HandlerEntry, h ∈ c.cleanupConnecting.m_events.handlers →
      h ∈ c.m_events.handlers ∧
      ¬ (h.1 ∈ connectingTypes ∧ ∃ st : Stream, c.m_stream = some st ∧ h.2.1 = st.eventTarget)) ∧
    c.cleanupConnecting.m_events.timers = c.m_events.timers ∧
    c.cleanupConnecting.m_timer = c.m_timer ∧ c.cleanupConnecting.m_stream = c.m_stream ∧
    c.cleanupConnecting.m_server = c.m_server ∧ c.cleanupConnecting.m_screen = c.m_screen ∧
    c.cleanupConnecting.this = c.this ∧ c.cleanupConnecting.m_args = c.m_args := by
  unfold Client.cleanupConnecting
  cases hs : c.m_stream with
  | none => simp [hs]
  | some st =>
    refine ⟨?_, rfl, rfl, by simp [hs], rfl, rfl, rfl, rfl⟩
    intro h hmem
    have h1 : h ∈ ((c.m_events.removeHandler EventType.DATA_SOCKET_CONNECTED
        st.eventTarget).removeHandler EventType.DATA_SOCKET_CONNECTION_FAILED
        st.eventTarget).handlers := hmem
    rw [EventQueue.mem_removeHandler, EventQueue.mem_removeHandler] at h1
    refine ⟨h1.1.1, ?_⟩
    rintro ⟨h2, st', h3, h4⟩
    cases h3
    simp only [connectingTypes, List.mem_cons, List.mem_singleton, List.not_mem_nil,
      or_false] at h2
    rcases h2 with h2 | h2
    · exact h1.1.2 ⟨h2, h4⟩
    · exact h1.2 ⟨h2, h4⟩

theorem Client.cleanupConnection_spec (c : Client) :
    (∀ h : HandlerEntry, h ∈ c.cleanupConnection.m_events.handlers →
      h ∈ c.m_events.handlers ∧
      ¬ (h.1 ∈ connectionTypes ∧ ∃ st : Stream, c.m_stream = some st ∧ h.2.1 = st.eventTarget)) ∧
    c.cleanupConnection.m_events.timers = c.m_events.timers ∧
    c.cleanupConnection.m_timer = c.m_timer ∧ c.cleanupConnection.m_stream = none ∧
    c.cleanupConnection.m_server = c.m_server ∧ c.cleanupConnection.m_screen = c.m_screen ∧
    c.cleanupConnection.this = c.this ∧ c.cleanupConnection.m_args = c.m_args := by
  unfold Client.cleanupConnection
  cases hs : c.m_stream with
  | none => simp [hs]
  | some st =>
    refine ⟨?_, rfl, rfl, rfl, rfl, rfl, rfl, rfl⟩
    intro h hmem
    have h1 : h ∈ ((((((c.m_events.removeHandler EventType.STREAM_INPUT_READY
        st.eventTarget).removeHandler EventType.STREAM_OUTPUT_ERROR
        st.eventTarget).removeHandler EventType.STREAM_INPUT_SHUTDOWN
        st.eventTarget).removeHandler EventType.STREAM_OUTPUT_SHUTDOWN
        st.eventTarget).removeHandler EventType.SOCKET_DISCONNECTED
        st.eventTarget).removeHandler EventType.SOCKET_STOP_RETRY
        st.eventTarget).handlers := hmem
    simp only [EventQueue.mem_removeHandler] at h1
    refine ⟨h1.1.1.1.1.1.1, ?_⟩
    rintro ⟨h2, st', h3, h4⟩
    cases h3
    simp only [connectionTypes, List.mem_cons, List.mem_singleton, List.not_mem_nil,
      or_false] at h2
    rcases h2 with h2 | h2 | h2 | h2 | h2 | h2
    · exact h1.1.1.1.1.1.2 ⟨h2, h4⟩
    · exact h1.1.1.1.1.2 ⟨h2, h4⟩
    · exact h1.1.1.1.2 ⟨h2, h4⟩
    · exact h1.1.1.2 ⟨h2, h4⟩
    · exact h1.1.2 ⟨h2, h4⟩
    · exact h1.2 ⟨h2, h4⟩

theorem Client.setupConnecting_spec (c : Client) (st : Stream) :
    (∀ h : HandlerEntry, h ∈ (c.setupConnecting st).m_events.handlers →
      h ∈ c.m_events.handlers ∨ h.1 = EventType.DATA_SOCKET_SECURE_CONNECTED ∨
      (h.1 ∈ connectingTypes ∧ h.2.1 = st.eventTarget)) ∧
    (c.setupConnecting st).m_events.timers = c.m_events.timers ∧
    (c.setupConnecting st).m_events.nextTimer = c.m_events.nextTimer ∧
    (c.setupConnecting st).m_timer = c.m_timer ∧
    (c.setupConnecting st).m_stream = c.m_stream ∧
    (c.setupConnecting st).m_server = c.m_server ∧
    (c.setupConnecting st).m_screen = c.m_screen ∧
    (c.setupConnecting st).this = c.this ∧ (c.setupConnecting st).m_args = c.m_args := by
  unfold Client.setupConnecting
  by_cases hcr : c.m_args.m_enableCrypto = true
  · rw [if_pos hcr]
    refine ⟨?_, rfl, rfl, rfl, rfl, rfl, rfl, rfl, rfl⟩
    intro h hmem
    have h1 : h ∈ ((c.m_events.add_handler EventType.DATA_SOCKET_SECURE_CONNECTED
        st.eventTarget ClientHandler.handle_connected).add_handler
        EventType.DATA_SOCKET_CONNECTION_FAILED st.eventTarget
        ClientHandler.handle_connection_failed).handlers := hmem
    simp only [EventQueue.mem_add_handler] at h1
    rcases h1 with ⟨⟨h1, -⟩ | h1, -⟩ | h1
    · exact Or.inl h1
    · exact Or.inr (Or.inl (by rw [h1]))
    · exact Or.inr (Or.inr (by rw [h1]; simp [connectingTypes]))
  · rw [if_neg hcr]
    refine ⟨?_, rfl, rfl, rfl, rfl, rfl, rfl, rfl, rfl⟩
    intro h hmem
    have h1 : h ∈ ((c.m_events.add_handler EventType.DATA_SOCKET_CONNECTED
        st.eventTarget ClientHandler.handle_connected).add_handler
        EventType.DATA_SOCKET_CONNECTION_FAILED st.eventTarget
        ClientHandler.handle_connection_failed).handlers := hmem
    simp only [EventQueue.mem_add_handler] at h1
    rcases h1 with ⟨⟨h1, -⟩ | h1, -⟩ | h1
    · exact Or.inl h1
    · exact Or.inr (Or.inr (by rw [h1]; simp [connectingTypes]))
    · exact Or.inr (Or.inr (by rw [h1]; simp [connectingTypes]))

theorem Client.setupTimer_spec (c : Client) :
    (∀ h : HandlerEntry, h ∈ c.setupTimer.m_events.handlers →
      h ∈ c.m_events.handlers ∨ (h.1 = EventType.TIMER ∧ c.setupTimer.m_timer = some h.2.1)) ∧
    (∀ x ∈ c.setupTimer.m_events.timers,
      x ∈ c.m_events.timers ∨ c.setupTimer.m_timer = some x.id) ∧
    c.setupTimer.m_timer.isSome = true ∧
    c.setupTimer.m_stream = c.m_stream ∧ c.setupTimer.m_server = c.m_server ∧
    c.setupTimer.m_screen = c.m_screen ∧
    c.setupTimer.this = c.this ∧ c.setupTimer.m_args = c.m_args := by
  unfold Client.setupTimer
  refine ⟨?_, ?_, rfl, rfl, rfl, rfl, rfl, rfl⟩
  · intro h hmem
    have h1 : h ∈ ((c.m_events.newOneShotTimer 15).1.add_handler EventType.TIMER
        (c.m_events.newOneShotTimer 15).2 ClientHandler.handle_connect_timeout).handlers :=
      hmem
    rw [EventQueue.mem_add_handler] at h1
    rcases h1 with ⟨h1, -⟩ | h1
    · exact Or.inl h1
    · exact Or.inr (by rw [h1]; exact ⟨rfl, rfl⟩)
  · intro x hx
    have h1 : x ∈ c.m_events.timers
        ++ [{ id := c.m_events.nextTimer, duration := 15, oneShot := true }] := hx
    rw [List.mem_append, List.mem_singleton] at h1
    rcases h1 with h1 | h1
    · exact Or.inl h1
    · exact Or.inr (by rw [h1]; rfl)

theorem Client.setupConnection_spec (c : Client) (st : Stream) :
    (∀ h : HandlerEntry, h ∈ (c.setupConnection st).m_events.handlers →
      h ∈ c.m_events.handlers ∨ (h.1 ∈ connectionTypes ∧ h.2.1 = st.eventTarget)) ∧
    (c.setupConnection st).m_events.timers = c.m_events.timers ∧
    (c.setupConnection st).m_timer = c.m_timer ∧
    (c.setupConnection st).m_stream = c.m_stream ∧
    (c.setupConnection st).m_server = c.m_server ∧
    (c.setupConnection st).m_screen = c.m_screen ∧
    (c.setupConnection st).this = c.this ∧ (c.setupConnection st).m_args = c.m_args := by
  unfold Client.setupConnection
  refine ⟨?_, rfl, rfl, rfl, rfl, rfl, rfl, rfl⟩
  intro h hmem
  have h1 : h ∈ ((((((c.m_events.add_handler EventType.SOCKET_DISCONNECTED st.eventTarget
      ClientHandler.handle_disconnected).add_handler EventType.STREAM_INPUT_READY
      st.eventTarget ClientHandler.handle_hello).add_handler EventType.STREAM_OUTPUT_ERROR
      st.eventTarget ClientHandler.handle_output_error).add_handler
      EventType.STREAM_INPUT_SHUTDOWN st.eventTarget
      ClientHandler.handle_disconnected).add_handler EventType.STREAM_OUTPUT_SHUTDOWN
      st.eventTarget ClientHandler.handle_disconnected).add_handler
      EventType.SOCKET_STOP_RETRY st.eventTarget ClientHandler.handle_stop_retry).handlers :=
    hmem
  simp only [EventQueue.mem_add_handler] at h1
  rcases h1 with ⟨⟨⟨⟨⟨⟨h1, -⟩ | h1, -⟩ | h1, -⟩ | h1, -⟩ | h1, -⟩ | h1, -⟩ | h1
  · exact Or.inl h1
  all_goals
    right
    rw [h1]
    simp [connectionTypes]

theorem Client.setupScreen_spec (c : Client) (st : Stream) :
    (∀ h : HandlerEntry, h ∈ (c.setupScreen st).m_events.handlers →
      h ∈ c.m_events.handlers ∨ (h.1 ∈ screenTypes ∧ h.2.1 = c.getEventTarget)) ∧
    (c.setupScreen st).m_events.timers = c.m_events.timers ∧
    (c.setupScreen st).m_events.events = c.m_events.events ∧
    (c.setupScreen st).m_timer = c.m_timer ∧
    (c.setupScreen st).m_stream = c.m_stream ∧
    (c.setupScreen st).m_server.isSome = true ∧
    (c.setupScreen st).m_screen = c.m_screen ∧
    (c.setupScreen st).this = c.this ∧ (c.setupScreen st).m_args = c.m_args := by
  unfold Client.setupScreen
  refine ⟨?_, rfl, rfl, rfl, rfl, rfl, rfl, rfl, rfl⟩
  intro h hmem
  have h1 : h ∈ ((c.m_events.add_handler EventType.SCREEN_SHAPE_CHANGED c.getEventTarget
      ClientHandler.handle_shape_changed).add_handler EventType.CLIPBOARD_GRABBED
      c.getEventTarget ClientHandler.handle_clipboard_grabbed).handlers := hmem
  simp only [EventQueue.mem_add_handler] at h1
  rcases h1 with ⟨⟨h1, -⟩ | h1, -⟩ | h1
  · exact Or.inl h1
  all_goals
    right
    rw [h1]
    simp [screenTypes]

theorem Client.isConstructorHandler_congr (c d : Client) (h : HandlerEntry)
    (h1 : d.m_screen.eventTarget = c.m_screen.eventTarget) (h2 : d.this = c.this)
    (h3 : d.m_args = c.m_args) :
    d.isConstructorHandler h = c.isConstructorHandler h := by
  simp [Client.isConstructorHandler, Client.getEventTarget, h1, h2, h3]

theorem Client.isConstructorHandler_type (c : Client) (h : HandlerEntry)
    (hc : c.isConstructorHandler h = true) :
    h.1 ≠ EventType.TIMER ∧ h.1 ≠ EventType.DATA_SOCKET_SECURE_CONNECTED ∧
    h.1 ∉ screenTypes ∧ h.1 ∉ connectingTypes ∧ h.1 ∉ connectionTypes := by
  obtain ⟨ty, tg, k⟩ := h
  simp only [Client.isConstructorHandler, Bool.or_eq_true, Bool.and_eq_true,
    decide_eq_true_eq, Prod.mk.injEq] at hc
  have hsusp : EventType.SCREEN_SUSPEND ≠ EventType.TIMER ∧
      EventType.SCREEN_SUSPEND ≠ EventType.DATA_SOCKET_SECURE_CONNECTED ∧
      EventType.SCREEN_SUSPEND ∉ screenTypes ∧ EventType.SCREEN_SUSPEND ∉ connectingTypes ∧
      EventType.SCREEN_SUSPEND ∉ connectionTypes := by decide
  have hres : EventType.SCREEN_RESUME ≠ EventType.TIMER ∧
      EventType.SCREEN_RESUME ≠ EventType.DATA_SOCKET_SECURE_CONNECTED ∧
      EventType.SCREEN_RESUME ∉ screenTypes ∧ EventType.SCREEN_RESUME ∉ connectingTypes ∧
      EventType.SCREEN_RESUME ∉ connectionTypes := by decide
  have hsend : EventType.FILE_CHUNK_SENDING ≠ EventType.TIMER ∧
      EventType.FILE_CHUNK_SENDING ≠ EventType.DATA_SOCKET_SECURE_CONNECTED ∧
      EventType.FILE_CHUNK_SENDING ∉ screenTypes ∧
      EventType.FILE_CHUNK_SENDING ∉ connectingTypes ∧
      EventType.FILE_CHUNK_SENDING ∉ connectionTypes := by decide
  have hrecv : EventType.FILE_RECEIVE_COMPLETED ≠ EventType.TIMER ∧
      EventType.FILE_RECEIVE_COMPLETED ≠ EventType.DATA_SOCKET_SECURE_CONNECTED ∧
      EventType.FILE_RECEIVE_COMPLETED ∉ screenTypes ∧
      EventType.FILE_RECEIVE_COMPLETED ∉ connectingTypes ∧
      EventType.FILE_RECEIVE_COMPLETED ∉ connectionTypes := by decide
  rcases hc with (⟨h1, -⟩ | ⟨h1, -⟩) | ⟨-, ⟨h1, -⟩ | ⟨h1, -⟩⟩
  · subst h1; exact hsusp
  · subst h1; exact hres
  · subst h1; exact hsend
  · subst h1; exact hrecv

theorem connectingTypes_not_connection (t : EventType) (h : t ∈ connectingTypes) :
    t ∉ connectionTypes ∧ t ∉ screenTypes ∧ t ≠ EventType.TIMER ∧
    t ≠ EventType.DATA_SOCKET_SECURE_CONNECTED := by
  simp only [connectingTypes, List.mem_cons, List.mem_singleton, List.not_mem_nil,
    or_false] at h
  rcases h with h | h <;>
    (subst h; exact ⟨by decide, by decide, by decide, by decide⟩)

theorem connectionTypes_not_connecting (t : EventType) (h : t ∈ connectionTypes) :
    t ∉ connectingTypes ∧ t ∉ screenTypes ∧ t ≠ EventType.TIMER ∧
    t ≠ EventType.DATA_SOCKET_SECURE_CONNECTED := by
  simp only [connectionTypes, List.mem_cons, List.mem_singleton, List.not_mem_nil,
    or_false] at h
  rcases h with h | h | h | h | h | h <;>
    (subst h; exact ⟨by decide, by decide, by decide, by decide⟩)

theorem screenTypes_not_stream (t : EventType) (h : t ∈ screenTypes) :
    t ∉ connectingTypes ∧ t ∉ connectionTypes ∧ t ≠ EventType.TIMER ∧
    t ≠ EventType.DATA_SOCKET_SECURE_CONNECTED := by
  simp only [screenTypes, List.mem_cons, List.mem_singleton, List.not_mem_nil,
    or_false] at h
  rcases h with h | h <;>
    (subst h; exact ⟨by decide, by decide, by decide, by decide⟩)

theorem Client.allows_of_frame (c d : Client) (h : HandlerEntry) (ha : c.allows h)
    (h1 : d.getEventTarget = c.getEventTarget) (h2 : d.this = c.this)
    (h3 : d.m_args = c.m_args)
    (ht : h.1 = EventType.TIMER → c.m_timer = some h.2.1 → d.m_timer = some h.2.1)
    (hs : h.1 ∈ screenTypes → h.2.1 = c.getEventTarget → c.m_server.isSome = true →
      d.m_server.isSome = true)
    (hst : ∀ st : Stream, (h.1 ∈ connectingTypes ∨ h.1 ∈ connectionTypes) →
      c.m_stream = some st → h.2.1 = st.eventTarget → d.m_stream = some st) :
    d.allows h := by
  rcases ha with a | a | ⟨a, b⟩ | ⟨a, b, e⟩ | ⟨a, st, b, e⟩
  · left
    rw [← a]
    exact Client.isConstructorHandler_congr c d h h1 h2 h3
  · exact Or.inr (Or.inl a)
  · exact Or.inr (Or.inr (Or.inl ⟨a, ht a b⟩))
  · exact Or.inr (Or.inr (Or.inr (Or.inl ⟨a, by rw [h1]; exact b, hs a b e⟩)))
  · exact Or.inr (Or.inr (Or.inr (Or.inr ⟨a, st, hst st a b e, e⟩)))

theorem Client.allows_no_timer (c : Client) (h : HandlerEntry) (ha : c.allows h)
    (ht : c.m_timer = none) : h.1 ≠ EventType.TIMER := by
  rcases ha with a | a | ⟨a, b⟩ | ⟨a, b, e⟩ | ⟨a | a, st, b, e⟩
  · exact (Client.isConstructorHandler_type c h a).1
  · rw [a]; decide
  · rw [ht] at b; cases b
  · exact (screenTypes_not_stream _ a).2.2.1
  · exact (connectingTypes_not_connection _ a).2.2.1
  · exact (connectionTypes_not_connecting _ a).2.2.1

theorem Client.allows_no_stream (c : Client) (h : HandlerEntry) (ha : c.allows h)
    (hs : c.m_stream = none) : h.1 ∉ connectingTypes ∧ h.1 ∉ connectionTypes := by
  rcases ha with a | a | ⟨a, b⟩ | ⟨a, b, e⟩ | ⟨a, st, b, e⟩
  · exact ⟨(Client.isConstructorHandler_type c h a).2.2.2.1,
      (Client.isConstructorHandler_type c h a).2.2.2.2⟩
  · rw [a]; exact ⟨by decide, by decide⟩
  · rw [a]; exact ⟨by decide, by decide⟩
  · exact ⟨(screenTypes_not_stream _ a).1, (screenTypes_not_stream _ a).2.1⟩
  · rw [hs] at b; cases b

theorem Client.allows_disconnected (c : Client) (h : HandlerEntry) (ha : c.allows h)
    (ht : c.m_timer = none) (hs : c.m_stream = none) (hv : c.m_server = none) :
    c.isConstructorHandler h = true ∨ h.1 = EventType.DATA_SOCKET_SECURE_CONNECTED := by
  rcases ha with a | a | ⟨a, b⟩ | ⟨a, b, e⟩ | ⟨a, st, b, e⟩
  · exact Or.inl a
  · exact Or.inr a
  · rw [ht] at b; cases b
  · rw [hv] at e; cases e
  · rw [hs] at b; cases b

theorem Client.handlersTied_timers (c : Client) (hc : c.handlersTied)
    (ht : c.m_timer = none) : c.m_events.timers = [] := by
  rw [List.eq_nil_iff_forall_not_mem]
  intro x hx
  have h := hc.2.2.1 x hx
  rw [ht] at h
  cases h

theorem Client.handlersTied_congr (c d : Client) (hc : c.handlersTied)
    (eh : d.m_events.handlers = c.m_events.handlers)
    (et : d.m_events.timers = c.m_events.timers)
    (e1 : d.m_timer = c.m_timer) (e2 : d.m_stream = c.m_stream)
    (e3 : d.m_server = c.m_server) (e4 : d.getEventTarget = c.getEventTarget)
    (e5 : d.this = c.this) (e6 : d.m_args = c.m_args) : d.handlersTied := by
  obtain ⟨a1, a2, a3, a4⟩ := hc
  refine ⟨?_, ?_, ?_, ?_⟩
  · intro h hmem
    rw [eh] at hmem
    refine Client.allows_of_frame c d h (a1 h hmem) e4 e5 e6 ?_ ?_ ?_
    · intro _ y; rw [e1]; exact y
    · intro _ _ y; rw [e3]; exact y
    · intro st _ y _; rw [e2]; exact y
  · rw [eh]; exact a2
  · rw [et, e1]; exact a3
  · rw [e1, e2]; exact a4

theorem Client.handlersTied_cleanupTimer (c : Client) (hc : c.handlersTied) :
    c.cleanupTimer.handlersTied := by
  obtain ⟨hh, htm, e1, e2, e3, e4, e5, e6⟩ := c.cleanupTimer_spec
  obtain ⟨a1, a2, a3, a4⟩ := hc
  refine ⟨?_, ?_, ?_, ?_⟩
  · intro h hmem
    obtain ⟨m1, m2⟩ := hh h hmem
    refine Client.allows_of_frame c _ h (a1 h m1) (congrArg Screen.eventTarget e4) e5 e6
      ?_ ?_ ?_
    · intro x y; exact absurd ⟨x, y⟩ m2
    · intro _ _ y; rw [e3]; exact y
    · intro st _ y _; rw [e2]; exact y
  · rintro ⟨h, hmem, hty⟩ h' hmem'
    exact a2 ⟨h, (hh h hmem).1, hty⟩ h' (hh h' hmem').1
  · intro x hx
    obtain ⟨m1, m2⟩ := htm x hx
    exact absurd (a3 x m1) m2
  · intro y; rw [e1] at y; cases y

theorem Client.handlersTied_cleanupScreen (c : Client) (hc : c.handlersTied) :
    c.cleanupScreen.handlersTied := by
  obtain ⟨hh, et, e1, e2, e3, e4, e5, e6⟩ := c.cleanupScreen_spec
  obtain ⟨a1, a2, a3, a4⟩ := hc
  refine ⟨?_, ?_, ?_, ?_⟩
  · intro h hmem
    obtain ⟨m1, m2⟩ := hh h hmem
    refine Client.allows_of_frame c _ h (a1 h m1) e4 e5 e6 ?_ ?_ ?_
    · intro _ y; rw [e1]; exact y
    · intro x y z; exact absurd ⟨x, y, z⟩ m2
    · intro st _ y _; rw [e2]; exact y
  · rintro ⟨h, hmem, hty⟩ h' hmem'
    exact a2 ⟨h, (hh h hmem).1, hty⟩ h' (hh h' hmem').1
  · rw [et, e1]; exact a3
  · rw [e1, e2]; exact a4

theorem Client.handlersTied_cleanupConnecting (c : Client) (hc : c.handlersTied) :
    c.cleanupConnecting.handlersTied ∧
    ∀ h ∈ c.cleanupConnecting.m_events.handlers, h.1 ∉ connectingTypes := by
  obtain ⟨hh, et, e1, e2, e3, e4, e5, e6⟩ := c.cleanupConnecting_spec
  obtain ⟨a1, a2, a3, a4⟩ := hc
  refine ⟨⟨?_, ?_, ?_, ?_⟩, ?_⟩
  · intro h hmem
    obtain ⟨m1, m2⟩ := hh h hmem
    refine Client.allows_of_frame c _ h (a1 h m1) (congrArg Screen.eventTarget e4) e5 e6
      ?_ ?_ ?_
    · intro _ y; rw [e1]; exact y
    · intro _ _ y; rw [e3]; exact y
    · intro st _ y _; rw [e2]; exact y
  · rintro ⟨h, hmem, hty⟩ h' hmem'
    exact a2 ⟨h, (hh h hmem).1, hty⟩ h' (hh h' hmem').1
  · rw [et, e1]; exact a3
  · rw [e1, e2]; exact a4
  · intro h hmem hty
    obtain ⟨m1, m2⟩ := hh h hmem
    rcases a1 h m1 with a | a | ⟨a, b⟩ | ⟨a, b, e⟩ | ⟨a, st, b, e⟩
    · exact (Client.isConstructorHandler_type c h a).2.2.2.1 hty
    · exact (connectingTypes_not_connection _ hty).2.2.2 a
    · exact (connectingTypes_not_connection _ hty).2.2.1 a
    · exact (screenTypes_not_stream _ a).1 hty
    · exact m2 ⟨hty, st, b, e⟩

theorem Client.handlersTied_cleanupConnection (c : Client) (hc : c.handlersTied)
    (ht : c.m_timer = none) (hn : ∀ h ∈ c.m_events.handlers, h.1 ∉ connectingTypes) :
    c.cleanupConnection.handlersTied := by
  obtain ⟨hh, et, e1, e2, e3, e4, e5, e6⟩ := c.cleanupConnection_spec
  obtain ⟨a1, a2, a3, a4⟩ := hc
  refine ⟨?_, ?_, ?_, ?_⟩
  · intro h hmem
    obtain ⟨m1, m2⟩ := hh h hmem
    refine Client.allows_of_frame c _ h (a1 h m1) (congrArg Screen.eventTarget e4) e5 e6
      ?_ ?_ ?_
    · intro _ y; rw [e1]; exact y
    · intro _ _ y; rw [e3]; exact y
    · intro st x y z
      rcases x with x | x
      · exact absurd x (hn h m1)
      · exact absurd ⟨x, st, y, z⟩ m2
  · rintro - h' hmem'
    exact hn h' (hh h' hmem').1
  · rw [et, e1]; exact a3
  · intro y; rw [e1, ht] at y; cases y

theorem Client.handlersTied_cleanupStream (c : Client) (hc : c.handlersTied)
    (ht : c.m_timer = none)
    (hn : ∀ h ∈ c.m_events.handlers, h.1 ∉ connectingTypes ∧ h.1 ∉ connectionTypes) :
    c.cleanupStream.handlersTied := by
  obtain ⟨a1, a2, a3, a4⟩ := hc
  refine ⟨?_, a2, a3, ?_⟩
  · intro h hmem
    refine Client.allows_of_frame c _ h (a1 h hmem) rfl rfl rfl ?_ ?_ ?_
    · intro _ y; exact y
    · intro _ _ y; exact y
    · intro st x y z
      rcases x with x | x
      · exact absurd x (hn h hmem).1
      · exact absurd x (hn h hmem).2
  · intro y
    have y1 : c.m_timer.isSome = true := y
    rw [ht] at y1; cases y1

theorem Client.handlersTied_no_stream (c : Client) (hc : c.handlersTied)
    (hs : c.m_stream = none) :
    ∀ h ∈ c.m_events.handlers, h.1 ∉ connectingTypes ∧ h.1 ∉ connectionTypes :=
  fun h hmem => Client.allows_no_stream c h (hc.1 h hmem) hs

theorem Client.handlersTied_setStream (c : Client) (st : Stream) (hc : c.handlersTied)
    (hs : c.m_stream = none) : Client.handlersTied { c with m_stream := some st } := by
  obtain ⟨a1, a2, a3, a4⟩ := hc
  refine ⟨?_, a2, a3, fun _ => rfl⟩
  intro h hmem
  refine Client.allows_of_frame c _ h (a1 h hmem) rfl rfl rfl ?_ ?_ ?_
  · intro _ y; exact y
  · intro _ _ y; exact y
  · intro st' _ y _; rw [hs] at y; cases y

theorem Client.handlersTied_setupConnecting (c : Client) (st : Stream)
    (hc : c.handlersTied) (hs : c.m_stream = some st)
    (hn : ∀ h ∈ c.m_events.handlers, h.1 ∉ connectionTypes) :
    (c.setupConnecting st).handlersTied ∧
    ∀ h ∈ (c.setupConnecting st).m_events.handlers, h.1 ∉ connectionTypes := by
  obtain ⟨hh, et, -, e1, e2, e3, e4, e5, e6⟩ := c.setupConnecting_spec st
  obtain ⟨a1, a2, a3, a4⟩ := hc
  have hno : ∀ h ∈ (c.setupConnecting st).m_events.handlers, h.1 ∉ connectionTypes := by
    intro h hmem
    rcases hh h hmem with m | m | ⟨m, -⟩
    · exact hn h m
    · rw [m]; decide
    · exact (connectingTypes_not_connection _ m).1
  refine ⟨⟨?_, ?_, ?_, ?_⟩, hno⟩
  · intro h hmem
    rcases hh h hmem with m | m | ⟨m, m'⟩
    · refine Client.allows_of_frame c _ h (a1 h m) (congrArg Screen.eventTarget e4) e5 e6
        ?_ ?_ ?_
      · intro _ y; rw [e1]; exact y
      · intro _ _ y; rw [e3]; exact y
      · intro st' _ y _; rw [e2]; exact y
    · exact Or.inr (Or.inl m)
    · exact Or.inr (Or.inr (Or.inr (Or.inr ⟨Or.inl m, st, by rw [e2]; exact hs, m'⟩)))
  · rintro ⟨h, hmem, hty⟩
    exact absurd hty (hno h hmem)
  · rw [et, e1]; exact a3
  · rw [e1, e2]; exact a4

theorem Client.handlersTied_setupTimer (c : Client) (hc : c.handlersTied)
    (ht : c.m_timer = none) (hs : c.m_stream.isSome = true) :
    c.setupTimer.handlersTied ∧
    ∀ h ∈ c.setupTimer.m_events.handlers,
      h ∈ c.m_events.handlers ∨ h.1 = EventType.TIMER := by
  obtain ⟨hh, htm, e1, e2, e3, e4, e5, e6⟩ := c.setupTimer_spec
  obtain ⟨a1, a2, a3, a4⟩ := hc
  refine ⟨⟨?_, ?_, ?_, ?_⟩, ?_⟩
  · intro h hmem
    rcases hh h hmem with m | ⟨m, m'⟩
    · refine Client.allows_of_frame c _ h (a1 h m) (congrArg Screen.eventTarget e4) e5 e6
        ?_ ?_ ?_
      · intro _ y; rw [ht] at y; cases y
      · intro _ _ y; rw [e3]; exact y
      · intro st' _ y _; rw [e2]; exact y
    · exact Or.inr (Or.inr (Or.inl ⟨m, m'⟩))
  · rintro ⟨h, hmem, hty⟩ h' hmem'
    have hold : h ∈ c.m_events.handlers := by
      rcases hh h hmem with m | ⟨m, -⟩
      · exact m
      · exact absurd m (connectionTypes_not_connecting _ hty).2.2.1
    rcases hh h' hmem' with m | ⟨m, -⟩
    · exact a2 ⟨h, hold, hty⟩ h' m
    · rw [m]; decide
  · intro x hx
    rcases htm x hx with m | m
    · have := a3 x m
      rw [ht] at this; cases this
    · exact m
  · intro _; rw [e2]; exact hs
  · intro h hmem
    rcases hh h hmem with m | ⟨m, -⟩
    · exact Or.inl m
    · exact Or.inr m

theorem Client.handlersTied_setupConnection (c : Client) (st : Stream)
    (hc : c.handlersTied) (hs : c.m_stream = some st)
    (hn : ∀ h ∈ c.m_events.handlers, h.1 ∉ connectingTypes) :
    (c.setupConnection st).handlersTied := by
  obtain ⟨hh, et, e1, e2, e3, e4, e5, e6⟩ := c.setupConnection_spec st
  obtain ⟨a1, a2, a3, a4⟩ := hc
  refine ⟨?_, ?_, ?_, ?_⟩
  · intro h hmem
    rcases hh h hmem with m | ⟨m, m'⟩
    · refine Client.allows_of_frame c _ h (a1 h m) (congrArg Screen.eventTarget e4) e5 e6
        ?_ ?_ ?_
      · intro _ y; rw [e1]; exact y
      · intro _ _ y; rw [e3]; exact y
      · intro st' _ y _; rw [e2]; exact y
    · exact Or.inr (Or.inr (Or.inr (Or.inr ⟨Or.inr m, st, by rw [e2]; exact hs, m'⟩)))
  · rintro - h' hmem'
    rcases hh h' hmem' with m | ⟨m, -⟩
    · exact hn h' m
    · exact (connectionTypes_not_connecting _ m).1
  · rw [et, e1]; exact a3
  · rw [e1, e2]; exact a4

theorem Client.handlersTied_setupScreen (c : Client) (st : Stream) (hc : c.handlersTied) :
    (c.setupScreen st).handlersTied := by
  obtain ⟨hh, et, -, e1, e2, e3, e4, e5, e6⟩ := c.setupScreen_spec st
  obtain ⟨a1, a2, a3, a4⟩ := hc
  have e4' : (c.setupScreen st).getEventTarget = c.getEventTarget :=
    congrArg Screen.eventTarget e4
  refine ⟨?_, ?_, ?_, ?_⟩
  · intro h hmem
    rcases hh h hmem with m | ⟨m, m'⟩
    · refine Client.allows_of_frame c _ h (a1 h m) e4' e5 e6 ?_ ?_ ?_
      · intro _ y; rw [e1]; exact y
      · intro _ _ _; exact e3
      · intro st' _ y _; rw [e2]; exact y
    · exact Or.inr (Or.inr (Or.inr (Or.inl ⟨m, by rw [e4']; exact m', e3⟩)))
  · rintro ⟨h, hmem, hty⟩ h' hmem'
    have hold : h ∈ c.m_events.handlers := by
      rcases hh h hmem with m | ⟨m, -⟩
      · exact m
      · exact absurd hty (screenTypes_not_stream _ m).2.1
    rcases hh h' hmem' with m | ⟨m, -⟩
    · exact a2 ⟨h, hold, hty⟩ h' m
    · exact (screenTypes_not_stream _ m).1
  · rw [et, e1]; exact a3
  · rw [e1, e2]; exact a4

theorem Client.handlersTied_new (this : Target) (events : EventQueue) (name : String)
    (screen : Screen) (args : ClientArgs) (hh : events.handlers = [])
    (ht : events.timers = []) : (Client.new this events name screen args).handlersTied := by
  have hmem : ∀ h ∈ (Client.new this events name screen args).m_events.handlers,
      (Client.new this events name screen args).isConstructorHandler h = true := by
    intro h hm
    obtain ⟨crypto, dd, rs⟩ := args
    cases dd
    · simp only [Client.new, Bool.false_eq_true, if_false] at hm
      simp only [EventQueue.mem_add_handler, hh, List.not_mem_nil, false_and, false_or] at hm
      simp only [Client.isConstructorHandler, Client.getEventTarget, Client.new,
        Bool.or_eq_true, decide_eq_true_eq]
      tauto
    · simp only [Client.new, if_true] at hm
      simp only [EventQueue.mem_add_handler, hh, List.not_mem_nil, false_and, false_or] at hm
      simp only [Client.isConstructorHandler, Client.getEventTarget, Client.new,
        Bool.true_and, Bool.or_eq_true, decide_eq_true_eq]
      tauto
  have htim : (Client.new this events name screen args).m_events.timers = [] := by
    obtain ⟨crypto, dd, rs⟩ := args
    cases dd
    · exact ht
    · exact ht
  refine ⟨fun h hm => Or.inl (hmem h hm), ?_, ?_, ?_⟩
  · rintro ⟨h, hm, hty⟩
    exact absurd hty (Client.isConstructorHandler_type _ h (hmem h hm)).2.2.2.2
  · rw [htim]; intro t htm; cases htm
  · intro y; cases y

theorem Client.handlersTied_connectFailed (c : Client) (what : String)
    (hc : c.handlersTied) (hn : ∀ h ∈ c.m_events.handlers, h.1 ∉ connectionTypes) :
    (c.connectFailed what).handlersTied := by
  have t1 := Client.handlersTied_cleanupTimer c hc
  obtain ⟨s1, -, e1, -⟩ := c.cleanupTimer_spec
  obtain ⟨t2, n2⟩ := Client.handlersTied_cleanupConnecting _ t1
  obtain ⟨s2, -, e2, -⟩ := c.cleanupTimer.cleanupConnecting_spec
  have t3 := Client.handlersTied_cleanupStream _ t2 (by rw [e2, e1])
    (fun h hm => ⟨n2 h hm, hn h (s1 h (s2 h hm).1).1⟩)
  exact Client.handlersTied_congr _ _ t3 rfl rfl rfl rfl rfl rfl rfl rfl

theorem Client.handlersTied_connect (attempt : ConnectAttempt) (c : Client)
    (hc : c.handlersTied) : (c.connect attempt).handlersTied := by
  unfold Client.connect
  by_cases h1 : c.m_stream.isSome = true
  · rw [if_pos h1]; exact hc
  rw [if_neg h1]
  by_cases h2 : c.m_suspended = true
  · rw [if_pos h2]
    exact Client.handlersTied_congr _ _ hc rfl rfl rfl rfl rfl rfl rfl rfl
  rw [if_neg h2]
  have hs : c.m_stream = none := by
    cases h : c.m_stream with
    | none => rfl
    | some st => rw [h] at h1; exact absurd rfl h1
  have hn := Client.handlersTied_no_stream c hc hs
  have ht : c.m_timer = none := by
    cases h : c.m_timer with
    | none => rfl
    | some t =>
      have := hc.2.2.2 (by rw [h]; rfl)
      exact absurd this h1
  cases attempt.failBeforeStream with
  | some what => exact Client.handlersTied_connectFailed c what hc (fun h hm => (hn h hm).2)
  | none =>
    have t1 := Client.handlersTied_setStream c attempt.stream hc hs
    obtain ⟨t2, n2⟩ := Client.handlersTied_setupConnecting _ attempt.stream t1 rfl
      (fun h hm => (hn h hm).2)
    obtain ⟨-, -, -, e1, e2, -⟩ :=
      Client.setupConnecting_spec { c with m_stream := some attempt.stream } attempt.stream
    obtain ⟨t3, n3⟩ := Client.handlersTied_setupTimer _ t2 (by rw [e1]; exact ht)
      (by rw [e2]; rfl)
    have n3' : ∀ h ∈ (Client.setupTimer (Client.setupConnecting
        { c with m_stream := some attempt.stream } attempt.stream)).m_events.handlers,
        h.1 ∉ connectionTypes := by
      intro h hm
      rcases n3 h hm with m | m
      · exact n2 h m
      · rw [m]; decide
    cases attempt.failConnect with
    | some what => exact Client.handlersTied_connectFailed _ what t3 n3'
    | none => exact t3

theorem Client.handlersTied_handle_connected (kClipboardEnd : Nat) (c d : Client)
    (hc : c.handlersTied) (hrun : c.handle_connected kClipboardEnd = some d) :
    d.handlersTied := by
  unfold Client.handle_connected at hrun
  cases hs : c.m_stream with
  | none => rw [hs] at hrun; cases hrun
  | some st =>
    rw [hs] at hrun
    obtain ⟨t1, n1⟩ := Client.handlersTied_cleanupConnecting c hc
    obtain ⟨-, -, -, e2, -⟩ := c.cleanupConnecting_spec
    have t2 := Client.handlersTied_setupConnection _ st t1 (by rw [e2]; exact hs) n1
    have hd := Option.some.inj hrun
    rw [← hd]
    exact Client.handlersTied_congr _ _ t2 rfl rfl rfl rfl rfl rfl rfl rfl

theorem Client.handlersTied_hello_failed (c : Client) (msg : FailWhat)
    (hc : c.handlersTied) (hn : ∀ h ∈ c.m_events.handlers, h.1 ∉ connectingTypes) :
    ((c.sendConnectionFailedEvent msg).cleanupTimer).cleanupConnection.handlersTied := by
  have t0 : (c.sendConnectionFailedEvent msg).handlersTied :=
    Client.handlersTied_congr _ _ hc rfl rfl rfl rfl rfl rfl rfl rfl
  have t1 := Client.handlersTied_cleanupTimer _ t0
  obtain ⟨s1, -, e1, -⟩ := (c.sendConnectionFailedEvent msg).cleanupTimer_spec
  exact Client.handlersTied_cleanupConnection _ t1 e1 (fun h hm => hn h (s1 h hm).1)

theorem Client.handlersTied_handle_hello (kProtocolMajorVersion kProtocolMinorVersion : Int)
    (hello : Option (Int × Int)) (c d : Client) (stream : Stream) (hc : c.handlersTied)
    (hstream : c.m_stream = some stream)
    (hreg : (EventType.STREAM_INPUT_READY, stream.eventTarget, ClientHandler.handle_hello)
      ∈ c.m_events.handlers)
    (hrun : c.handle_hello kProtocolMajorVersion kProtocolMinorVersion hello = some d) :
    d.handlersTied := by
  have hn : ∀ h ∈ c.m_events.handlers, h.1 ∉ connectingTypes :=
    hc.2.1 ⟨_, hreg, by simp [connectionTypes]⟩
  have t2 : ∀ w : List Message,
      (Client.cleanupTimer (Client.setupScreen { c with written := w } stream)).handlersTied :=
    fun w => Client.handlersTied_cleanupTimer _ (Client.handlersTied_setupScreen _ stream
      (Client.handlersTied_congr c _ hc rfl rfl rfl rfl rfl rfl rfl rfl))
  have t3 : ∀ (w : List Message) (q : EventQueue),
      q.handlers = (Client.cleanupTimer
        (Client.setupScreen { c with written := w } stream)).m_events.handlers →
      q.timers = (Client.cleanupTimer
        (Client.setupScreen { c with written := w } stream)).m_events.timers →
      Client.handlersTied { Client.cleanupTimer
        (Client.setupScreen { c with written := w } stream) with m_events := q } :=
    fun w q e1 e2 => Client.handlersTied_congr _ _ (t2 w) e1 e2 rfl rfl rfl rfl rfl rfl
  have tf := Client.handlersTied_hello_failed c
  unfold Client.handle_hello at hrun
  rw [hstream] at hrun t2 t3
  cases hello with
  | none =>
    have hd := Option.some.inj hrun
    rw [← hd]
    exact tf _ hc hn
  | some v =>
    obtain ⟨major, minor⟩ := v
    by_cases hv : major < kProtocolMajorVersion ∨
        (major = kProtocolMajorVersion ∧ minor < kProtocolMinorVersion)
    · simp only [hv, if_true] at hrun
      have hd := Option.some.inj hrun
      rw [← hd]
      exact tf _ hc hn
    · simp only [hv, if_false] at hrun
      by_cases hr : stream.isReady = true
      · simp only [hr, if_true] at hrun
        have hd := Option.some.inj hrun
        rw [← hd]
        exact t3 _ _ rfl rfl
      · simp only [hr] at hrun
        have hd := Option.some.inj hrun
        rw [← hd]
        exact t2 _

theorem Client.Reachable.handlersTied (kProtocolMajorVersion kProtocolMinorVersion : Int)
    (kClipboardEnd : Nat) (c : Client)
    (hc : Client.Reachable kProtocolMajorVersion kProtocolMinorVersion kClipboardEnd c) :
    c.handlersTied := by
  induction hc with
  | new this events name screen args hh ht =>
    exact Client.handlersTied_new this events name screen args hh ht
  | connect attempt c _ ih => exact Client.handlersTied_connect attempt c ih
  | handle_connected c d stream _ _ _ hrun ih =>
    exact Client.handlersTied_handle_connected kClipboardEnd c d ih hrun
  | handle_hello hello c d stream _ hstream _ hreg hrun ih =>
    exact Client.handlersTied_handle_hello kProtocolMajorVersion kProtocolMinorVersion
      hello c d stream ih hstream hreg hrun

theorem Client.handlersTied_disconnect (msg : Option FailWhat) (c : Client)
    (hc : c.handlersTied) :
    (c.disconnect msg).handlersTied ∧ (c.disconnect msg).m_timer = none ∧
    (c.disconnect msg).m_stream = none ∧ (c.disconnect msg).m_server = none := by
  have t0 : Client.handlersTied { c with m_connectOnResume := false } :=
    Client.handlersTied_congr _ _ hc rfl rfl rfl rfl rfl rfl rfl rfl
  have t1 := Client.handlersTied_cleanupTimer _ t0
  obtain ⟨-, -, e1, -⟩ := Client.cleanupTimer_spec { c with m_connectOnResume := false }
  have t2 := Client.handlersTied_cleanupScreen _ t1
  obtain ⟨-, -, f1, -, f3, -⟩ :=
    Client.cleanupScreen_spec (Client.cleanupTimer { c with m_connectOnResume := false })
  obtain ⟨t3, n3⟩ := Client.handlersTied_cleanupConnecting _ t2
  obtain ⟨-, -, g1, -, g3, -⟩ := Client.cleanupConnecting_spec
    (Client.cleanupScreen (Client.cleanupTimer { c with m_connectOnResume := false }))
  have t4 := Client.handlersTied_cleanupConnection _ t3 (by rw [g1, f1, e1]) n3
  obtain ⟨-, -, k1, k2, k3, -⟩ := Client.cleanupConnection_spec (Client.cleanupConnecting
    (Client.cleanupScreen (Client.cleanupTimer { c with m_connectOnResume := false })))
  have k1' := k1.trans (g1.trans (f1.trans e1))
  have k3' := k3.trans (g3.trans f3)
  unfold Client.disconnect
  cases msg with
  | none =>
    exact ⟨Client.handlersTied_congr _ _ t4 rfl rfl rfl rfl rfl rfl rfl rfl, k1', k2, k3'⟩
  | some m =>
    exact ⟨Client.handlersTied_congr _ _ t4 rfl rfl rfl rfl rfl rfl rfl rfl, k1', k2, k3'⟩

/-- C15, amended: for every client state reachable through `connect`, `handle_connected`
and `handle_hello`, with or without crypto and drag-drop, after `Client::disconnect(msg)`
the connect timer is gone (`m_timer` is null and the dispatcher holds no timer),
`m_stream` and `m_server` are null, and every handler left in the dispatcher is one the
constructor registered (suspend and resume on the event target of the client, the two
file handlers on the client object with drag-drop), the `DATA_SOCKET_SECURE_CONNECTED`
handlers of `setupConnecting` left aside. -/
theorem disconnect_removes_session_handlers
    (kProtocolMajorVersion kProtocolMinorVersion : Int) (kClipboardEnd : Nat) (c : Client)
    (msg : Option FailWhat)
    (hc : Client.Reachable kProtocolMajorVersion kProtocolMinorVersion kClipboardEnd c) :
    (c.disconnect msg).m_timer = none ∧ (c.disconnect msg).m_stream = none ∧
    (c.disconnect msg).m_server = none ∧ (c.disconnect msg).m_events.timers = [] ∧
    ∀ h ∈ (c.disconnect msg).m_events.handlers,
      (c.disconnect msg).isConstructorHandler h = true ∨
      h.1 = EventType.DATA_SOCKET_SECURE_CONNECTED := by
  obtain ⟨t, e1, e2, e3⟩ := Client.handlersTied_disconnect msg c
    (Client.Reachable.handlersTied kProtocolMajorVersion kProtocolMinorVersion
      kClipboardEnd c hc)
  exact ⟨e1, e2, e3, Client.handlersTied_timers _ t e1,
    fun h hm => Client.allows_disconnected _ h (t.1 h hm) e1 e2 e3⟩

/-- C15, counterexample: the client `connectingClient` is reachable through `connect`, its
event target is 2, and after `Client::disconnect()` the suspend and resume handlers that
the constructor registered for that target are still in the dispatcher. -/
theorem disconnect_keeps_constructor_handlers :
    Client.Reachable 1 6 2 connectingClient ∧
    connectingClient.getEventTarget = 2 ∧
    (EventType.SCREEN_SUSPEND, 2, ClientHandler.handle_suspend)
      ∈ (connectingClient.disconnect none).m_events.handlers ∧
    (EventType.SCREEN_RESUME, 2, ClientHandler.handle_resume)
      ∈ (connectingClient.disconnect none).m_events.handlers :=
  ⟨Client.Reachable.connect plainAttempt idleClient
      (Client.Reachable.new 1 emptyQueue "laptop" { eventTarget := 2, enabled := false }
        { m_enableCrypto := false, m_enableDragDrop := false, m_restartable := true }
        rfl rfl),
    rfl, by decide, by decide⟩

theorem secureConnectedClient_reachable : Client.Reachable 1 6 2 secureConnectedClient :=
  Client.Reachable.handle_hello (some (1, 6)) secureHelloClient secureConnectedClient
    plainAttempt.stream
    (Client.Reachable.handle_connected (secureIdleClient.connect plainAttempt)
      secureHelloClient plainAttempt.stream
      (Client.Reachable.connect plainAttempt secureIdleClient
        (Client.Reachable.new 1 emptyQueue "laptop" { eventTarget := 2, enabled := false }
          { m_enableCrypto := true, m_enableDragDrop := false, m_restartable := true }
          rfl rfl))
      rfl (Or.inr (by decide)) rfl)
    rfl rfl (by decide) rfl

/-- With crypto, the `DATA_SOCKET_SECURE_CONNECTED` handler that `setupConnecting`
registered on the stream is still in the dispatcher after `Client::disconnect()`:
`cleanupConnecting` removes `DATA_SOCKET_CONNECTED` only. -/
theorem secure_connected_handler_survives :
    (EventType.DATA_SOCKET_SECURE_CONNECTED, 3, ClientHandler.handle_connected)
      ∈ (secureConnectedClient.disconnect none).m_events.handlers := by
  decide

/-- C15, amended, at the client with crypto that went through `connect`,
`handle_connected` and `handle_hello`. -/
theorem disconnect_removes_session_handlers_witness :
    Client.Reachable 1 6 2 secureConnectedClient ∧
    (secureConnectedClient.disconnect none).m_timer = none ∧
    (secureConnectedClient.disconnect none).m_stream = none ∧
    (secureConnectedClient.disconnect none).m_server = none ∧
    (secureConnectedClient.disconnect none).m_events.timers = [] ∧
    ∀ h ∈ (secureConnectedClient.disconnect none).m_events.handlers,
      (secureConnectedClient.disconnect none).isConstructorHandler h = true ∨
      h.1 = EventType.DATA_SOCKET_SECURE_CONNECTED :=
  ⟨secureConnectedClient_reachable,
    disconnect_removes_session_handlers 1 6 2 secureConnectedClient none
      secureConnectedClient_reachable⟩

/-! ## XWindowsEventQueueBuffer: posted events -/

theorem XWindowsEventQueueBuffer.flushLoop_spec (posted : List XEvent) :
    ∀ (fuel i : Nat) (sent : List XEvent), posted.length ≤ i + fuel →
      XWindowsEventQueueBuffer.flushLoop posted fuel i sent = sent ++ posted.drop i := by
  intro fuel
  induction fuel with
  | zero =>
    intro i sent h
    have hd : posted.drop i = [] := List.drop_eq_nil_of_le (by omega)
    simp [XWindowsEventQueueBuffer.flushLoop, hd]
  | succ fuel ih =>
    intro i sent h
    by_cases hi : i < posted.length
    · have hget : posted[i]? = some (posted.get ⟨i, hi⟩) := List.getElem?_eq_getElem hi
      have hdrop : posted.drop i = posted.get ⟨i, hi⟩ :: posted.drop (i + 1) :=
        List.drop_eq_getElem_cons hi
      simp only [XWindowsEventQueueBuffer.flushLoop, hget]
      rw [ih (i + 1) _ (by omega), hdrop]
      simp
    · have hget : posted[i]? = none := List.getElem?_eq_none (by omega)
      have hd : posted.drop i = [] := List.drop_eq_nil_of_le (by omega)
      simp [XWindowsEventQueueBuffer.flushLoop, hget, hd]

theorem XWindowsEventQueueBuffer.flush_eq (b : XWindowsEventQueueBuffer) :
    b.flush = { b with sent := b.sent ++ b.m_postedEvents, flushed := b.flushed + 1,
                       m_postedEvents := [] } := by
  simp [XWindowsEventQueueBuffer.flush,
    XWindowsEventQueueBuffer.flushLoop_spec b.m_postedEvents b.m_postedEvents.length 0 b.sent
      (by omega)]

theorem XWindowsEventQueueBuffer.act_spec (b : XWindowsEventQueueBuffer) (a : BufferAction) :
    (b.act a).m_window = b.m_window ∧ (b.act a).m_userEvent = b.m_userEvent ∧
    (b.act a).sent ++ (b.act a).m_postedEvents
      = b.sent ++ b.m_postedEvents ++ addedEvents b.m_window b.m_userEvent [a] := by
  cases a with
  | addEvent d =>
    cases hw : b.m_waiting <;>
      simp [XWindowsEventQueueBuffer.act, XWindowsEventQueueBuffer.addEvent,
        XWindowsEventQueueBuffer.flush_eq, addedEvents, hw]
  | waitBegin =>
    simp [XWindowsEventQueueBuffer.act, XWindowsEventQueueBuffer.flush_eq, addedEvents]
  | waitEnd => simp [XWindowsEventQueueBuffer.act, addedEvents]
  | getEvent =>
    simp [XWindowsEventQueueBuffer.act, XWindowsEventQueueBuffer.flush_eq, addedEvents]

theorem addedEvents_cons (window userEvent : Nat) (a : BufferAction)
    (rest : List BufferAction) :
    addedEvents window userEvent (a :: rest)
      = addedEvents window userEvent [a] ++ addedEvents window userEvent rest := by
  cases a <;> simp [addedEvents]

theorem XWindowsEventQueueBuffer.run_spec (actions : List BufferAction) :
    ∀ b : XWindowsEventQueueBuffer,
      (b.run actions).m_window = b.m_window ∧ (b.run actions).m_userEvent = b.m_userEvent ∧
      (b.run actions).sent ++ (b.run actions).m_postedEvents
        = b.sent ++ b.m_postedEvents ++ addedEvents b.m_window b.m_userEvent actions := by
  induction actions with
  | nil => intro b; simp [XWindowsEventQueueBuffer.run, addedEvents]
  | cons a rest ih =>
    intro b
    obtain ⟨h1, h2, h3⟩ := XWindowsEventQueueBuffer.act_spec b a
    obtain ⟨k1, k2, k3⟩ := ih (b.act a)
    have hrun : b.run (a :: rest) = (b.act a).run rest := rfl
    rw [hrun, k1, k2, k3, h1, h2, h3, addedEvents_cons b.m_window b.m_userEvent a rest]
    simp

theorem addedEvents_data0 (window userEvent : Nat) (ds : List Nat) :
    (addedEvents window userEvent (ds.map BufferAction.addEvent)).map XEvent.data0 = ds := by
  induction ds with
  | nil => rfl
  | cons d ds ih => simp [addedEvents, ih]

/-- C21. Posted events keep their order: `addEvent` always returns true; `flush()` hands
the posted events to the X server in their order and leaves the posted-event list empty;
whatever the interleaving of `addEvent`, `waitForEvent` and `getEvent` (each under the
mutex), the events sent so far followed by the events still posted are those of before
followed by the user events of the `addEvent` calls in call order, each once; so after
the calls `addEvent(d1)`, ..., `addEvent(dn)` and the next `flush()`, the events that
have reached the X server carry what was sent or posted before and then exactly
`d1, ..., dn` in call order. -/
theorem posted_events_keep_order (b : XWindowsEventQueueBuffer) (actions : List BufferAction)
    (dataID : Nat) (ds : List Nat) :
    (b.addEvent dataID).1 = true ∧
    b.flush.m_postedEvents = [] ∧
    b.flush.sent = b.sent ++ b.m_postedEvents ∧
    (b.run actions).sent ++ (b.run actions).m_postedEvents
      = b.sent ++ b.m_postedEvents ++ addedEvents b.m_window b.m_userEvent actions ∧
    (b.run actions).flush.sent
      = b.sent ++ b.m_postedEvents ++ addedEvents b.m_window b.m_userEvent actions ∧
    (b.run actions).flush.m_postedEvents = [] ∧
    ((b.run (ds.map BufferAction.addEvent)).flush.sent).map XEvent.data0
      = (b.sent ++ b.m_postedEvents).map XEvent.data0 ++ ds := by
  have hadd : (b.addEvent dataID).1 = true := by
    cases hw : b.m_waiting <;> simp [XWindowsEventQueueBuffer.addEvent, hw]
  have hflush : ∀ x : XWindowsEventQueueBuffer,
      x.flush.m_postedEvents = [] ∧ x.flush.sent = x.sent ++ x.m_postedEvents := by
    intro x
    rw [XWindowsEventQueueBuffer.flush_eq]
    exact ⟨rfl, rfl⟩
  refine ⟨hadd, (hflush b).1, (hflush b).2, (XWindowsEventQueueBuffer.run_spec actions b).2.2,
    ?_, (hflush _).1, ?_⟩
  · rw [(hflush _).2]
    exact (XWindowsEventQueueBuffer.run_spec actions b).2.2
  · rw [(hflush _).2, (XWindowsEventQueueBuffer.run_spec _ b).2.2]
    simp [addedEvents_data0]

/-! ## ClipboardChunk: layout of the three kinds of chunk -/

theorem ClipboardChunk.chunk_eq (c : ClipboardChunk) :
    c.chunk_ = Fin.ofNat c.id :: (uint32Bytes c.sequence ++ c.mark :: (c.payload ++ [0])) := by
  obtain ⟨id, sequence, mark, payload⟩ := c
  have hrep : List.replicate (payload.length + 7) (0 : Byte)
      = 0 :: 0 :: 0 :: 0 :: 0 :: 0 :: (List.replicate payload.length 0 ++ [0]) := by
    rw [List.replicate_succ, List.replicate_succ, List.replicate_succ, List.replicate_succ,
      List.replicate_succ, List.replicate_succ, List.replicate_succ']
  have hdrop : ∀ a b c d e f : Byte, List.drop (6 + payload.length)
      (a :: b :: c :: d :: e :: f :: (List.replicate payload.length 0 ++ [0])) = [0] := by
    intro a b c d e f
    rw [Nat.add_comm]
    simp
  have hlen : payload.length + 7 - 1 = payload.length + 6 := by omega
  simp only [ClipboardChunk.chunk_, CLIPBOARD_CHUNK_META_SIZE, memcpy, uint32Bytes, hrep, hlen,
    List.set_cons_zero, List.take_succ_cons, List.take_zero, List.drop_succ_cons,
    List.drop_zero, List.cons_append, List.nil_append, List.set_cons_succ, hdrop,
    List.take_length, List.append_assoc]
  congr 6
  rw [List.set_append_right _ _ (Nat.le_refl _)]
  simp

theorem ClipboardChunk.chunk_layout (c : ClipboardChunk) (hid : c.id < 256)
    (hseq : c.sequence < 4294967296) :
    c.chunk_.length = c.payload.length + 7 ∧
    (c.chunk_.getD 0 0).val = c.id ∧
    (c.chunk_.getD 1 0).val = c.sequence % 256 ∧
    uint32OfBytes (c.chunk_.getD 1 0) (c.chunk_.getD 2 0) (c.chunk_.getD 3 0)
      (c.chunk_.getD 4 0) = c.sequence ∧
    c.chunk_.getD 5 0 = c.mark ∧
    (c.chunk_.drop 6).take c.payload.length = c.payload ∧
    (∀ i : Nat, i < c.payload.length → c.chunk_[6 + i]? = c.payload[i]?) ∧
    c.chunk_[6 + c.payload.length]? = some 0 := by
  have hv : ∀ n : Nat, (Fin.ofNat n : Byte).val = n % 256 := fun n => rfl
  rw [ClipboardChunk.chunk_eq]
  refine ⟨?_, ?_, ?_, ?_, ?_, ?_, ?_, ?_⟩
  · simp [uint32Bytes]
  · simp only [List.getD_cons_zero, hv]
    omega
  · simp only [uint32Bytes, List.cons_append, List.getD_cons_succ, List.getD_cons_zero, hv]
  · simp only [uint32Bytes, List.cons_append, List.getD_cons_succ, List.getD_cons_zero,
      uint32OfBytes, hv]
    omega
  · simp [uint32Bytes]
  · simp [uint32Bytes]
  · intro i hi
    have h6 : 6 + i = i + 6 := Nat.add_comm _ _
    rw [h6]
    simp only [uint32Bytes, List.cons_append, List.nil_append, List.getElem?_cons_succ]
    exact List.getElem?_append_left hi
  · have h6 : 6 + c.payload.length = c.payload.length + 6 := Nat.add_comm _ _
    rw [h6]
    simp only [uint32Bytes, List.cons_append, List.nil_append, List.getElem?_cons_succ]
    rw [List.getElem?_append_right (Nat.le_refl _)]
    simp

/-- C22. Clipboard start chunk layout: for every clipboard id (a `std::uint8_t`), sequence
(a `std::uint32_t`) and size string `s`, the buffer of `ClipboardChunk::start(id,
sequence, s)` has `|s| + 7` bytes; byte 0 is the id, bytes 1 to 4 hold the sequence with
its low-order byte at index 1, byte 5 is `kDataStart`, bytes 6 to `5 + |s|` are the
characters of `s`, and byte `6 + |s|` is NUL. -/
theorem clipboard_start_layout (id sequence : Nat) (s : List Byte) (hid : id < 256)
    (hseq : sequence < 4294967296) :
    (ClipboardChunk.start id sequence s).chunk_.length = s.length + 7 ∧
    ((ClipboardChunk.start id sequence s).chunk_.getD 0 0).val = id ∧
    ((ClipboardChunk.start id sequence s).chunk_.getD 1 0).val = sequence % 256 ∧
    uint32OfBytes ((ClipboardChunk.start id sequence s).chunk_.getD 1 0)
      ((ClipboardChunk.start id sequence s).chunk_.getD 2 0)
      ((ClipboardChunk.start id sequence s).chunk_.getD 3 0)
      ((ClipboardChunk.start id sequence s).chunk_.getD 4 0) = sequence ∧
    (ClipboardChunk.start id sequence s).chunk_.getD 5 0 = kDataStart ∧
    ((ClipboardChunk.start id sequence s).chunk_.drop 6).take s.length = s ∧
    (∀ i : Nat, i < s.length →
      (ClipboardChunk.start id sequence s).chunk_[6 + i]? = s[i]?) ∧
    (ClipboardChunk.start id sequence s).chunk_[6 + s.length]? = some 0 :=
  ClipboardChunk.chunk_layout (ClipboardChunk.start id sequence s) hid hseq

/-- C22, at the input of the test `start_formatStartChunk`: id 0, sequence 0 and the size
string `10`; bytes 6, 7 and 8 are `1`, `0` and NUL. -/
theorem clipboard_start_layout_witness :
    (0 : Nat) < 256 ∧ (0 : Nat) < 4294967296 ∧
    (ClipboardChunk.start 0 0 [49, 48]).chunk_ = [0, 0, 0, 0, 0, kDataStart, 49, 48, 0] ∧
    ((ClipboardChunk.start 0 0 [49, 48]).chunk_.length = [49, 48].length + 7 ∧
    ((ClipboardChunk.start 0 0 [49, 48]).chunk_.getD 0 0).val = 0 ∧
    ((ClipboardChunk.start 0 0 [49, 48]).chunk_.getD 1 0).val = 0 % 256 ∧
    uint32OfBytes ((ClipboardChunk.start 0 0 [49, 48]).chunk_.getD 1 0)
      ((ClipboardChunk.start 0 0 [49, 48]).chunk_.getD 2 0)
      ((ClipboardChunk.start 0 0 [49, 48]).chunk_.getD 3 0)
      ((ClipboardChunk.start 0 0 [49, 48]).chunk_.getD 4 0) = 0 ∧
    (ClipboardChunk.start 0 0 [49, 48]).chunk_.getD 5 0 = kDataStart ∧
    ((ClipboardChunk.start 0 0 [49, 48]).chunk_.drop 6).take [49, 48].length = [49, 48] ∧
    (∀ i : Nat, i < [49, 48].length →
      (ClipboardChunk.start 0 0 [49, 48]).chunk_[6 + i]? = ([49, 48] : List Byte)[i]?) ∧
    (ClipboardChunk.start 0 0 [49, 48]).chunk_[6 + [49, 48].length]? = some 0) :=
  ⟨by decide, by decide, by decide,
    clipboard_start_layout 0 0 [49, 48] (by decide) (by decide)⟩

/-- C23. Clipboard data chunk layout: for every clipboard id (a `std::uint8_t`), sequence
(a `std::uint32_t`) and payload `d`, the buffer of `ClipboardChunk::data(id, sequence, d)`
has `|d| + 7` bytes; byte 0 is the id, bytes 1 to 4 hold the sequence with its low-order
byte at index 1, byte 5 is `kDataChunk`, bytes 6 to `5 + |d|` equal `d` byte for byte,
and byte `6 + |d|` is NUL. -/
theorem clipboard_data_layout (id sequence : Nat) (d : List Byte) (hid : id < 256)
    (hseq : sequence < 4294967296) :
    (ClipboardChunk.data id sequence d).chunk_.length = d.length + 7 ∧
    ((ClipboardChunk.data id sequence d).chunk_.getD 0 0).val = id ∧
    ((ClipboardChunk.data id sequence d).chunk_.getD 1 0).val = sequence % 256 ∧
    uint32OfBytes ((ClipboardChunk.data id sequence d).chunk_.getD 1 0)
      ((ClipboardChunk.data id sequence d).chunk_.getD 2 0)
      ((ClipboardChunk.data id sequence d).chunk_.getD 3 0)
      ((ClipboardChunk.data id sequence d).chunk_.getD 4 0) = sequence ∧
    (ClipboardChunk.data id sequence d).chunk_.getD 5 0 = kDataChunk ∧
    ((ClipboardChunk.data id sequence d).chunk_.drop 6).take d.length = d ∧
    (∀ i : Nat, i < d.length →
      (ClipboardChunk.data id sequence d).chunk_[6 + i]? = d[i]?) ∧
    (ClipboardChunk.data id sequence d).chunk_[6 + d.length]? = some 0 :=
  ClipboardChunk.chunk_layout (ClipboardChunk.data id sequence d) hid hseq

/-- C23, at the input of the test `data_formatDataChunk`: id 0, sequence 1 and the
payload `mock data`; bytes 6 to 14 spell the payload and byte 15 is NUL. -/
theorem clipboard_data_layout_witness :
    (0 : Nat) < 256 ∧ (1 : Nat) < 4294967296 ∧
    (ClipboardChunk.data 0 1 mockData).chunk_
      = [0, 1, 0, 0, 0, kDataChunk, 109, 111, 99, 107, 32, 100, 97, 116, 97, 0] ∧
    ((ClipboardChunk.data 0 1 mockData).chunk_.length = mockData.length + 7 ∧
    ((ClipboardChunk.data 0 1 mockData).chunk_.getD 0 0).val = 0 ∧
    ((ClipboardChunk.data 0 1 mockData).chunk_.getD 1 0).val = 1 % 256 ∧
    uint32OfBytes ((ClipboardChunk.data 0 1 mockData).chunk_.getD 1 0)
      ((ClipboardChunk.data 0 1 mockData).chunk_.getD 2 0)
      ((ClipboardChunk.data 0 1 mockData).chunk_.getD 3 0)
      ((ClipboardChunk.data 0 1 mockData).chunk_.getD 4 0) = 1 ∧
    (ClipboardChunk.data 0 1 mockData).chunk_.getD 5 0 = kDataChunk ∧
    ((ClipboardChunk.data 0 1 mockData).chunk_.drop 6).take mockData.length = mockData ∧
    (∀ i : Nat, i < mockData.length →
      (ClipboardChunk.data 0 1 mockData).chunk_[6 + i]? = mockData[i]?) ∧
    (ClipboardChunk.data 0 1 mockData).chunk_[6 + mockData.length]? = some 0) :=
  ⟨by decide, by decide, by decide,
    clipboard_data_layout 0 1 mockData (by decide) (by decide)⟩

/-- C24. Clipboard end chunk layout: for every clipboard id (a `std::uint8_t`) and
sequence (a `std::uint32_t`), the buffer of `ClipboardChunk::end(id, sequence)` has 7
bytes; byte 0 is the id, bytes 1 to 4 hold the sequence with its low-order byte at index
1, byte 5 is `kDataEnd`, byte 6 is NUL, and the payload is empty. -/
theorem clipboard_end_layout (id sequence : Nat) (hid : id < 256)
    (hseq : sequence < 4294967296) :
    (ClipboardChunk.end_ id sequence).chunk_.length = 7 ∧
    ((ClipboardChunk.end_ id sequence).chunk_.getD 0 0).val = id ∧
    ((ClipboardChunk.end_ id sequence).chunk_.getD 1 0).val = sequence % 256 ∧
    uint32OfBytes ((ClipboardChunk.end_ id sequence).chunk_.getD 1 0)
      ((ClipboardChunk.end_ id sequence).chunk_.getD 2 0)
      ((ClipboardChunk.end_ id sequence).chunk_.getD 3 0)
      ((ClipboardChunk.end_ id sequence).chunk_.getD 4 0) = sequence ∧
    (ClipboardChunk.end_ id sequence).chunk_.getD 5 0 = kDataEnd ∧
    (ClipboardChunk.end_ id sequence).chunk_[6]? = some 0 ∧
    (ClipboardChunk.end_ id sequence).payload = [] := by
  obtain ⟨h1, h2, h3, h4, h5, -, -, h8⟩ :=
    ClipboardChunk.chunk_layout (ClipboardChunk.end_ id sequence) hid hseq
  exact ⟨h1, h2, h3, h4, h5, h8, rfl⟩

/-- C24, at the input of the test `end_formatDataChunk`: id 1 and sequence 1. -/
theorem clipboard_end_layout_witness :
    (1 : Nat) < 256 ∧ (1 : Nat) < 4294967296 ∧
    (ClipboardChunk.end_ 1 1).chunk_ = [1, 1, 0, 0, 0, kDataEnd, 0] ∧
    ((ClipboardChunk.end_ 1 1).chunk_.length = 7 ∧
    ((ClipboardChunk.end_ 1 1).chunk_.getD 0 0).val = 1 ∧
    ((ClipboardChunk.end_ 1 1).chunk_.getD 1 0).val = 1 % 256 ∧
    uint32OfBytes ((ClipboardChunk.end_ 1 1).chunk_.getD 1 0)
      ((ClipboardChunk.end_ 1 1).chunk_.getD 2 0)
      ((ClipboardChunk.end_ 1 1).chunk_.getD 3 0)
      ((ClipboardChunk.end_ 1 1).chunk_.getD 4 0) = 1 ∧
    (ClipboardChunk.end_ 1 1).chunk_.getD 5 0 = kDataEnd ∧
    (ClipboardChunk.end_ 1 1).chunk_[6]? = some 0 ∧
    (ClipboardChunk.end_ 1 1).payload = []) :=
  ⟨by decide, by decide, by decide, clipboard_end_layout 1 1 (by decide) (by decide)⟩

/-! ## One keepalive for each Data chunk -/

theorem keepAlivePaired_append (es fs : List Event) (h1 : keepAlivePaired es = true)
    (h2 : keepAlivePaired fs = true) : keepAlivePaired (es ++ fs) = true := by
  induction es using keepAlivePaired.induct with
  | case1 => simpa using h2
  | case2 e =>
    simp only [keepAlivePaired, Bool.and_eq_true, Bool.not_eq_true'] at h1
    cases fs with
    | nil => simp [keepAlivePaired, h1.1, h1.2]
    | cons f fs =>
      simp only [List.singleton_append, keepAlivePaired, h1.1, h1.2, Bool.false_eq_true,
        if_false, Bool.not_false, Bool.true_and]
      exact h2
  | case3 e d rest hk ih =>
    simp only [keepAlivePaired, hk, if_true, Bool.and_eq_true] at h1
    simp only [List.cons_append, keepAlivePaired, hk, if_true, Bool.and_eq_true]
    exact ⟨h1.1, ih h1.2⟩
  | case4 e d rest hk ih =>
    simp only [keepAlivePaired, hk, Bool.false_eq_true, if_false, Bool.and_eq_true] at h1
    simp only [List.cons_append, keepAlivePaired, hk, Bool.false_eq_true, if_false,
      Bool.and_eq_true]
    exact ⟨h1.1, ih h1.2⟩

theorem Event.isDataEvent_not_keepAlive (e : Event) (h : e.isDataEvent = true) :
    e.isKeepAlive = false := by
  obtain ⟨ty, tg, data⟩ := e
  cases ty <;> simp_all [Event.isDataEvent, Event.isKeepAlive]

theorem keepAlivePaired_count (es : List Event) (h : keepAlivePaired es = true) :
    es.countP Event.isKeepAlive = es.countP Event.isDataEvent := by
  induction es using keepAlivePaired.induct with
  | case1 => rfl
  | case2 e =>
    simp only [keepAlivePaired, Bool.and_eq_true, Bool.not_eq_true'] at h
    simp [List.countP_cons, h.1, h.2]
  | case3 e d rest hk ih =>
    simp only [keepAlivePaired, hk, if_true, Bool.and_eq_true] at h
    have hd := Event.isDataEvent_not_keepAlive d h.1.1
    have he : e.isDataEvent = false := by
      cases hx : e.isDataEvent with
      | false => rfl
      | true =>
        have := Event.isDataEvent_not_keepAlive e hx
        rw [hk] at this
        cases this
    simp [List.countP_cons, hk, hd, he, h.1.1, ih h.2]
  | case4 e d rest hk ih =>
    simp only [keepAlivePaired, hk, Bool.false_eq_true, if_false, Bool.and_eq_true,
      Bool.not_eq_true'] at h
    have hk' : e.isKeepAlive = false := by simpa using hk
    rw [List.countP_cons, List.countP_cons (l := d :: rest), ih h.2]
    simp [hk', h.1]

theorem keepAlivePaired_pair (tgt : Target) (d : Event) (hd : d.isDataEvent = true)
    (ht : d.target = tgt) : keepAlivePaired [keepAliveEvent tgt, d] = true := by
  simp [keepAlivePaired, Event.isKeepAlive, keepAliveEvent, hd, ht]

theorem keepAlivePaired_single (e : Event) (hk : e.isKeepAlive = false)
    (hd : e.isDataEvent = false) : keepAlivePaired [e] = true := by
  simp [keepAlivePaired, hk, hd]

theorem keepAlivePaired_clipboardDataEvents (id sequence : Nat) (tgt : Target)
    (datas : List (List Byte)) :
    keepAlivePaired (clipboardDataEvents id sequence tgt datas) = true := by
  induction datas with
  | nil => rfl
  | cons d ds ih =>
    have h : clipboardDataEvents id sequence tgt (d :: ds)
        = [keepAliveEvent tgt, clipboardChunkEvent tgt (ClipboardChunk.data id sequence d)]
          ++ clipboardDataEvents id sequence tgt ds := rfl
    rw [h]
    exact keepAlivePaired_append _ _ (keepAlivePaired_pair tgt _ rfl rfl) ih

theorem SendFile.keepAliveInv_act (base : List Event) (s : SendFile) (a : Action)
    (h : s.keepAliveInv base) : (s.act a).keepAliveInv base := by
  obtain ⟨es, hp, he⟩ := h
  cases a with
  | interrupt => exact ⟨es, hp, he⟩
  | step =>
    obtain ⟨pc, file, tgt, size, sl, cs, st, ev⟩ := s
    simp only at he
    cases pc
    case entry => exact ⟨es, hp, by simpa [SendFile.act, SendFile.step] using he⟩
    case sendStart =>
      cases file with
      | none => exact ⟨es, hp, by simpa [SendFile.act, SendFile.step] using he⟩
      | some content =>
        refine ⟨es ++ [fileChunkEvent tgt (FileChunk.start (sizeTypeToString content.length))],
          keepAlivePaired_append _ _ hp (keepAlivePaired_single _ rfl ?_), ?_⟩
        · simp [Event.isDataEvent, fileChunkEvent, isDataChunk_start]
        · simp at he
          simp [SendFile.act, SendFile.step, EventQueue.add_event, he, fileChunkEvent]
    case loopCheck =>
      cases hi : st.s_interruptFile <;>
        exact ⟨es, hp, by simpa [SendFile.act, SendFile.step, hi] using he⟩
    case keepAlive =>
      refine ⟨es, hp, ?_⟩
      simp at he
      simp [SendFile.act, SendFile.step, EventQueue.add_event, he, keepAliveEvent]
    case sendData =>
      simp at he
      refine ⟨es ++ [keepAliveEvent tgt, fileChunkEvent tgt (FileChunk.data
          (fileRead (file.getD []) sl (if sl + cs > size then size - sl else cs))
          (if sl + cs > size then size - sl else cs))],
        keepAlivePaired_append _ _ hp (keepAlivePaired_pair tgt _ ?_ rfl), ?_⟩
      · simp [Event.isDataEvent, fileChunkEvent, isDataChunk_data]
      · simp only [SendFile.act, SendFile.step, EventQueue.add_event, he, fileChunkEvent]
        split <;> simp <;> split <;> simp
    case sendEnd =>
      refine ⟨es ++ [fileChunkEvent tgt FileChunk.end_],
        keepAlivePaired_append _ _ hp (keepAlivePaired_single _ rfl ?_), ?_⟩
      · simp [Event.isDataEvent, fileChunkEvent, isDataChunk_end]
      · simp at he
        simp [SendFile.act, SendFile.step, EventQueue.add_event, he, fileChunkEvent]
    case finish => exact ⟨es, hp, by simpa [SendFile.act, SendFile.step] using he⟩
    case done => exact ⟨es, hp, by simpa [SendFile.act, SendFile.step] using he⟩
    case thrown => exact ⟨es, hp, by simpa [SendFile.act, SendFile.step] using he⟩

theorem SendFile.keepAliveInv_run (base : List Event) (schedule : List Action) :
    ∀ s : SendFile, s.keepAliveInv base → (s.run schedule).keepAliveInv base := by
  induction schedule with
  | nil => intro s h; exact h
  | cons a rest ih =>
    intro s h
    rw [SendFile.run_cons]
    exact ih _ (SendFile.keepAliveInv_act base s a h)
/-! ## The number of iterations of the loop of `sendClipboard` -/

theorem StreamChunker.sendClipboardLoop_count (data : List Byte) (id sequence : Nat)
    (tgt : Target) :
    ∀ (r a fuel : Nat) (ev : EventQueue), a ≤ data.length → data.length - a = r →
      ((r - 1) / g_chunkSize + 1 ≤ fuel →
        ∃ datas : List (List Byte),
          StreamChunker.sendClipboardLoop data data.length id sequence tgt fuel a
              g_chunkSize ev
            = some (data.length, ev.addAll (clipboardDataEvents id sequence tgt datas)) ∧
          datas.length = (r - 1) / g_chunkSize + 1 ∧ datas.flatten = data.drop a) ∧
      (fuel < (r - 1) / g_chunkSize + 1 →
        StreamChunker.sendClipboardLoop data data.length id sequence tgt fuel a
          g_chunkSize ev = none) := by
  have hg : g_chunkSize = 32768 := rfl
  intro r
  induction r using Nat.strong_induction_on with
  | _ r ih =>
    intro a fuel ev ha hr
    cases fuel with
    | zero =>
      refine ⟨fun h => absurd h (Nat.not_succ_le_zero _), fun _ => ?_⟩
      simp [StreamChunker.sendClipboardLoop]
    | succ f =>
      by_cases hle : r ≤ g_chunkSize
      · have hc : (if a + g_chunkSize > data.length then data.length - a else g_chunkSize)
            = r := by
          split <;> omega
        have hsub : substr data a r = some (data.drop a) := by
          have h1 : ¬ (a > data.length) := by omega
          simp only [substr, h1, if_false]
          rw [List.take_of_length_le]
          simp only [List.length_drop]
          omega
        have h2 : ¬ ((data.drop a).length < r) := by
          simp only [List.length_drop]
          omega
        have h3 : a + r = data.length := by omega
        have h4 : (data.drop a).take r = data.drop a := by
          apply List.take_of_length_le
          simp only [List.length_drop]
          omega
        have hq : (r - 1) / g_chunkSize = 0 := by
          rw [hg] at hle ⊢
          omega
        refine ⟨fun _ => ⟨[data.drop a], ?_, by simp [hq], by simp⟩,
          fun h => absurd h (by rw [hq]; omega)⟩
        simp only [StreamChunker.sendClipboardLoop, hc, hsub, h2, if_false, h3, if_true, h4,
          clipboardDataEvents, EventQueue.add_event_eq_addAll, EventQueue.addAll_addAll]
        rfl
      · have hgt : g_chunkSize < r := Nat.lt_of_not_le hle
        have hc : (if a + g_chunkSize > data.length then data.length - a else g_chunkSize)
            = g_chunkSize := by
          split <;> omega
        have hsub : substr data a g_chunkSize = some ((data.drop a).take g_chunkSize) := by
          have h1 : ¬ (a > data.length) := by omega
          simp only [substr, h1, if_false]
        have hl : ((data.drop a).take g_chunkSize).length = g_chunkSize := by
          simp only [List.length_take, List.length_drop]
          omega
        have h2 : ¬ (((data.drop a).take g_chunkSize).length < g_chunkSize) := by omega
        have h3 : ¬ (a + g_chunkSize = data.length) := by omega
        have h4 : ((data.drop a).take g_chunkSize).take g_chunkSize
            = (data.drop a).take g_chunkSize := by
          apply List.take_of_length_le
          omega
        have hq : (r - 1) / g_chunkSize = (r - g_chunkSize - 1) / g_chunkSize + 1 := by
          rw [hg] at hgt ⊢
          omega
        have hstep : StreamChunker.sendClipboardLoop data data.length id sequence tgt (f + 1)
            a g_chunkSize ev
            = StreamChunker.sendClipboardLoop data data.length id sequence tgt f
                (a + g_chunkSize) g_chunkSize
                ((ev.addAll [keepAliveEvent tgt]).addAll [clipboardChunkEvent tgt
                  (ClipboardChunk.data id sequence ((data.drop a).take g_chunkSize))]) := by
          simp only [StreamChunker.sendClipboardLoop, hc, hsub, h2, if_false, h3, h4,
            EventQueue.add_event_eq_addAll]
          rfl
        obtain ⟨ih1, ih2⟩ := ih (r - g_chunkSize) (by omega) (a + g_chunkSize) f
          ((ev.addAll [keepAliveEvent tgt]).addAll [clipboardChunkEvent tgt
            (ClipboardChunk.data id sequence ((data.drop a).take g_chunkSize))])
          (by omega) (by omega)
        constructor
        · intro hf
          obtain ⟨datas, hloop, hlen, hjoin⟩ := ih1 (by omega)
          refine ⟨(data.drop a).take g_chunkSize :: datas, ?_, ?_, ?_⟩
          · rw [hstep, hloop]
            simp only [EventQueue.addAll_addAll, clipboardDataEvents, List.cons_append,
              List.nil_append]
          · simp only [List.length_cons, hlen]
            omega
          · have hd : List.drop (a + g_chunkSize) data
                = List.drop g_chunkSize (List.drop a data) := by
              rw [List.drop_drop, Nat.add_comm]
            simp only [List.flatten_cons, hjoin, hd]
            exact List.take_append_drop _ _
        · intro hf
          rw [hstep]
          exact ih2 (by omega)

theorem StreamChunker.sendClipboard_run (data : List Byte) (id sequence : Nat)
    (events : EventQueue) (tgt : Target) :
    ∃ datas : List (List Byte),
      StreamChunker.sendClipboard data data.length id sequence events tgt
        = some (events.addAll
            (clipboardChunkEvent tgt
                (ClipboardChunk.start id sequence (sizeTypeToString data.length))
              :: (clipboardDataEvents id sequence tgt datas
                ++ [clipboardChunkEvent tgt (ClipboardChunk.end_ id sequence)]))) ∧
      datas.length = (data.length - 1) / g_chunkSize + 1 ∧ datas.flatten = data := by
  have hg : g_chunkSize = 32768 := rfl
  obtain ⟨datas, hloop, hlen, hjoin⟩ :=
    (StreamChunker.sendClipboardLoop_count data id sequence tgt data.length 0
      (data.length / g_chunkSize + 1)
      (events.addAll [clipboardChunkEvent tgt
        (ClipboardChunk.start id sequence (sizeTypeToString data.length))])
      (Nat.zero_le _) rfl).1
      (by rw [hg]; omega)
  refine ⟨datas, ?_, hlen, by simpa using hjoin⟩
  simp only [StreamChunker.sendClipboard, EventQueue.add_event_eq_addAll]
  rw [← clipboardChunkEvent, hloop]
  simp only [EventQueue.addAll_addAll, List.cons_append, List.nil_append]
  rfl

theorem postedSince_append (q q' : EventQueue) (es : List Event)
    (h : q'.events = q.events ++ es) : postedSince q q' = es := by
  simp [postedSince, h]

/-- C25. One keepalive per data chunk: in every run of `sendFile`, whatever the file
(also one that cannot be opened) and whatever the `interruptFile()` calls during the run,
at every moment at which the run does not stand between a keepalive and its Data chunk
(so also when it has returned), each `FILE_KEEPALIVE` event it has posted is directly
followed by a Data chunk event for the same target and each Data chunk event directly
follows a keepalive, so there are as many keepalives as Data chunks; and the same holds
of the events posted by `sendClipboard`, which returns. -/
theorem keepalive_per_data_chunk (file : Option (List Byte)) (events : EventQueue)
    (eventTarget : Target) (statics : StreamChunker) (schedule : List Action)
    (data : List Byte) (id sequence : Nat)
    (hpc : ((SendFile.init file events eventTarget statics).run schedule).pc
      ≠ SendFilePc.sendData) :
    keepAlivePaired (postedSince events
      ((SendFile.init file events eventTarget statics).run schedule).events) = true ∧
    (postedSince events
        ((SendFile.init file events eventTarget statics).run schedule).events).countP
        Event.isKeepAlive
      = (postedSince events
        ((SendFile.init file events eventTarget statics).run schedule).events).countP
        Event.isDataEvent ∧
    ∃ q : EventQueue,
      StreamChunker.sendClipboard data data.length id sequence events eventTarget = some q ∧
      keepAlivePaired (postedSince events q) = true ∧
      (postedSince events q).countP Event.isKeepAlive
        = (postedSince events q).countP Event.isDataEvent := by
  have hinit : (SendFile.init file events eventTarget statics).keepAliveInv events.events :=
    ⟨[], rfl, by simp [SendFile.init]⟩
  obtain ⟨es, hp, he⟩ := SendFile.keepAliveInv_run events.events schedule _ hinit
  rw [if_neg hpc, List.append_nil] at he
  have hposted := postedSince_append events _ es he
  obtain ⟨datas, hrun, -, -⟩ :=
    StreamChunker.sendClipboard_run data id sequence events eventTarget
  have hclip : keepAlivePaired
      (clipboardChunkEvent eventTarget
          (ClipboardChunk.start id sequence (sizeTypeToString data.length))
        :: (clipboardDataEvents id sequence eventTarget datas
          ++ [clipboardChunkEvent eventTarget (ClipboardChunk.end_ id sequence)])) = true := by
    rw [← List.singleton_append]
    exact keepAlivePaired_append _ _ (keepAlivePaired_single _ rfl rfl)
      (keepAlivePaired_append _ _ (keepAlivePaired_clipboardDataEvents _ _ _ _)
        (keepAlivePaired_single _ rfl rfl))
  refine ⟨by rw [hposted]; exact hp, by rw [hposted]; exact keepAlivePaired_count es hp,
    _, hrun, ?_, ?_⟩
  · rw [postedSince_addAll]
    exact hclip
  · rw [postedSince_addAll]
    exact keepAlivePaired_count _ hclip

theorem countP_keepAlive_clipboardDataEvents (id sequence : Nat) (tgt : Target)
    (datas : List (List Byte)) :
    (clipboardDataEvents id sequence tgt datas).countP Event.isKeepAlive = datas.length := by
  induction datas with
  | nil => rfl
  | cons d ds ih =>
    simp only [clipboardDataEvents, List.length_cons]
    rw [List.countP_cons, List.countP_cons, ih]
    simp [Event.isKeepAlive, keepAliveEvent, clipboardChunkEvent]

/-- C28. The clipboard producer loop terminates for every size: for every `data` with
`size = |data|`, also the empty one, `sendClipboard` returns, and its loop runs exactly
`max(1, ceil(size / 32768))` times: it ends within that many iterations and not within
fewer, and it posts that many keepalives and that many Data chunks; for size 0 the events
posted are Start with the text `0`, one keepalive, one Data chunk with an empty payload,
and End. -/
theorem sendClipboard_loop_terminates (data : List Byte) (id sequence : Nat)
    (events : EventQueue) (eventTarget : Target) (fuel : Nat) :
    (∃ q : EventQueue,
      StreamChunker.sendClipboard data data.length id sequence events eventTarget = some q ∧
      (postedSince events q).countP Event.isKeepAlive
        = max 1 ((data.length + 32767) / 32768) ∧
      (postedSince events q).countP Event.isDataEvent
        = max 1 ((data.length + 32767) / 32768)) ∧
    ((StreamChunker.sendClipboardLoop data data.length id sequence eventTarget fuel 0
        g_chunkSize events).isSome = true
      ↔ max 1 ((data.length + 32767) / 32768) ≤ fuel) ∧
    StreamChunker.sendClipboard [] 0 id sequence events eventTarget
      = some (events.addAll
          [clipboardChunkEvent eventTarget (ClipboardChunk.start id sequence [48]),
           keepAliveEvent eventTarget,
           clipboardChunkEvent eventTarget (ClipboardChunk.data id sequence []),
           clipboardChunkEvent eventTarget (ClipboardChunk.end_ id sequence)]) := by
  have hg : g_chunkSize = 32768 := rfl
  have hn : (data.length - 1) / g_chunkSize + 1 = max 1 ((data.length + 32767) / 32768) := by
    rw [hg]
    omega
  obtain ⟨datas, hrun, hlen, -⟩ :=
    StreamChunker.sendClipboard_run data id sequence events eventTarget
  have hclip : keepAlivePaired
      (clipboardChunkEvent eventTarget
          (ClipboardChunk.start id sequence (sizeTypeToString data.length))
        :: (clipboardDataEvents id sequence eventTarget datas
          ++ [clipboardChunkEvent eventTarget (ClipboardChunk.end_ id sequence)])) = true := by
    rw [← List.singleton_append]
    exact keepAlivePaired_append _ _ (keepAlivePaired_single _ rfl rfl)
      (keepAlivePaired_append _ _ (keepAlivePaired_clipboardDataEvents _ _ _ _)
        (keepAlivePaired_single _ rfl rfl))
  have hka : (clipboardChunkEvent eventTarget
          (ClipboardChunk.start id sequence (sizeTypeToString data.length))
        :: (clipboardDataEvents id sequence eventTarget datas
          ++ [clipboardChunkEvent eventTarget (ClipboardChunk.end_ id sequence)])).countP
        Event.isKeepAlive = max 1 ((data.length + 32767) / 32768) := by
    rw [List.countP_cons, List.countP_append, countP_keepAlive_clipboardDataEvents, hlen, ← hn]
    simp [Event.isKeepAlive, clipboardChunkEvent]
  obtain ⟨hsome, hnone⟩ := StreamChunker.sendClipboardLoop_count data id sequence eventTarget
    data.length 0 fuel events (Nat.zero_le _) rfl
  refine ⟨⟨_, hrun, ?_, ?_⟩, ?_, ?_⟩
  · rw [postedSince_addAll]
    exact hka
  · rw [postedSince_addAll, ← keepAlivePaired_count _ hclip]
    exact hka
  · rw [← hn]
    constructor
    · intro h
      by_contra hlt
      rw [hnone (Nat.lt_of_not_le hlt)] at h
      cases h
    · intro h
      obtain ⟨ds, hloop, -, -⟩ := hsome h
      rw [hloop]
      rfl
  · obtain ⟨ds, hr0, hl0, hj0⟩ :=
      StreamChunker.sendClipboard_run [] id sequence events eventTarget
    have h1 : ds.length = 1 := by
      rw [hl0]
      simp
    have hds : ds = [[]] := by
      match ds, h1, hj0 with
      | [d], _, hj =>
        simp only [List.flatten_cons, List.flatten_nil, List.append_nil] at hj
        rw [hj]
    rw [hds] at hr0
    exact hr0

/-! ## A failed file transfer -/

theorem FileChunk.assemble_error (p : List Byte → Nat) (readf : Option (Byte × List Byte))
    (dataReceived : List Byte) (expectedSize : Nat) :
    ((FileChunk.assemble p readf dataReceived expectedSize).1 = EDataReceived.kError ↔
      readf = none ∨
      ∃ mark content, readf = some (mark, content) ∧
        ((mark ≠ kDataStart ∧ mark ≠ kDataChunk ∧ mark ≠ kDataEnd) ∨
         (mark = kDataEnd ∧ expectedSize ≠ dataReceived.length))) ∧
    ((FileChunk.assemble p readf dataReceived expectedSize).1 = EDataReceived.kError →
      FileChunk.assemble p readf dataReceived expectedSize
        = (EDataReceived.kError, dataReceived, expectedSize)) := by
  have hse : ¬ (kDataEnd = kDataStart) := by decide
  have hce : ¬ (kDataEnd = kDataChunk) := by decide
  have hcs : ¬ (kDataChunk = kDataStart) := by decide
  have hes : ¬ (kDataStart = kDataEnd) := by decide
  have hec : ¬ (kDataChunk = kDataEnd) := by decide
  cases readf with
  | none => simp [FileChunk.assemble]
  | some v =>
    obtain ⟨mark, content⟩ := v
    by_cases h1 : mark = kDataStart
    · subst h1
      simp [FileChunk.assemble, hes]
    · by_cases h2 : mark = kDataChunk
      · subst h2
        simp [FileChunk.assemble, hcs, hec]
      · by_cases h3 : mark = kDataEnd
        · subst h3
          by_cases h4 : expectedSize = dataReceived.length <;>
            simp [FileChunk.assemble, h4, hse, hce]
        · simp [FileChunk.assemble, h1, h2, h3]

/-- C26. A failed file transfer leaves the session up: `FileChunk::assemble` returns
`kError` exactly on an unreadable frame, on an unknown mark, and on an End chunk whose
expected size differs from the size received; whenever it does,
`ClientProxy1_5::fileChunkReceived` posts no event and leaves the receive buffer and the
expected size of the server as they were, and `ClientProxy1_5::parseMessage` returns true
for the code `DFTR` with nothing changed. -/
theorem failed_transfer_keeps_session (stringToSizeType : List Byte → Nat)
    (parseMessage1_4 : List Byte → Server × EventQueue → Bool × Server × EventQueue)
    (dragInfoReceived : Server × EventQueue → Server × EventQueue)
    (readf : Option (Byte × List Byte)) (server : Server) (m_events : EventQueue)
    (herr : (FileChunk.assemble stringToSizeType readf server.m_receivedFileData
      server.m_expectedFileSize).1 = EDataReceived.kError) :
    (readf = none ∨
      ∃ mark content, readf = some (mark, content) ∧
        ((mark ≠ kDataStart ∧ mark ≠ kDataChunk ∧ mark ≠ kDataEnd) ∨
         (mark = kDataEnd ∧ server.m_expectedFileSize ≠ server.m_receivedFileData.length))) ∧
    ClientProxy1_5.fileChunkReceived stringToSizeType readf server m_events
      = (server, m_events) ∧
    ClientProxy1_5.parseMessage stringToSizeType parseMessage1_4 dragInfoReceived
      kMsgDFileTransfer readf server m_events = (true, server, m_events) := by
  obtain ⟨hiff, heq⟩ := FileChunk.assemble_error stringToSizeType readf
    server.m_receivedFileData server.m_expectedFileSize
  have hrec : ClientProxy1_5.fileChunkReceived stringToSizeType readf server m_events
      = (server, m_events) := by
    simp only [ClientProxy1_5.fileChunkReceived, heq herr]
    simp
  refine ⟨hiff.mp herr, hrec, ?_⟩
  simp only [ClientProxy1_5.parseMessage, if_true, hrec]

/-- C26, at three concrete inputs: a frame that cannot be read, the unknown mark 9, and
an End chunk after one of two expected bytes. -/
theorem failed_transfer_keeps_session_witness :
    ((FileChunk.assemble decimalToSize none partialServer.m_receivedFileData
        partialServer.m_expectedFileSize).1 = EDataReceived.kError ∧
      (FileChunk.assemble decimalToSize (some (9, [1])) partialServer.m_receivedFileData
        partialServer.m_expectedFileSize).1 = EDataReceived.kError ∧
      (FileChunk.assemble decimalToSize (some (kDataEnd, [])) partialServer.m_receivedFileData
        partialServer.m_expectedFileSize).1 = EDataReceived.kError) ∧
    ClientProxy1_5.fileChunkReceived decimalToSize (some (kDataEnd, [])) partialServer
      emptyQueue = (partialServer, emptyQueue) ∧
    ClientProxy1_5.parseMessage decimalToSize (fun _ s => (false, s)) (fun s => s)
      kMsgDFileTransfer (some (kDataEnd, [])) partialServer emptyQueue
      = (true, partialServer, emptyQueue) ∧
    ClientProxy1_5.parseMessage decimalToSize (fun _ s => (false, s)) (fun s => s)
      kMsgDFileTransfer none partialServer emptyQueue = (true, partialServer, emptyQueue) ∧
    ClientProxy1_5.parseMessage decimalToSize (fun _ s => (false, s)) (fun s => s)
      kMsgDFileTransfer (some (9, [1])) partialServer emptyQueue
      = (true, partialServer, emptyQueue) :=
  ⟨⟨by decide, by decide, by decide⟩,
    (failed_transfer_keeps_session decimalToSize (fun _ s => (false, s)) (fun s => s)
      (some (kDataEnd, [])) partialServer emptyQueue (by decide)).2.1,
    (failed_transfer_keeps_session decimalToSize (fun _ s => (false, s)) (fun s => s)
      (some (kDataEnd, [])) partialServer emptyQueue (by decide)).2.2,
    (failed_transfer_keeps_session decimalToSize (fun _ s => (false, s)) (fun s => s)
      none partialServer emptyQueue (by decide)).2.2,
    (failed_transfer_keeps_session decimalToSize (fun _ s => (false, s)) (fun s => s)
      (some (9, [1])) partialServer emptyQueue (by decide)).2.2⟩

/-! ## Clipboards that did not change -/

/-- C27. Unchanged clipboards are not re-sent: for every clipboard id and every client
state in which the clipboard was sent (`m_sentClipboard[id]` true, stored time not 0),
a further `Client::sendClipboard(id)` for which the clipboard of the screen still reports
the stored time changes nothing at all, whatever the data (no `onClipboardChanged` call;
`m_timeClipboard`, `m_dataClipboard` and `m_sentClipboard` as they were); and one for
which the marshalled data equal `m_dataClipboard[id]` makes no `onClipboardChanged` call
whatever the time, and leaves `m_dataClipboard` and `m_sentClipboard` as they were, the
stored time following the clipboard. -/
theorem unchanged_clipboard_not_resent (c : Client) (id : Nat) (time : Nat)
    (data : List Byte) (hsent : c.m_sentClipboard id = true)
    (htime : c.m_timeClipboard id ≠ 0) :
    c.sendClipboard id (c.m_timeClipboard id, data) = c ∧
    (c.sendClipboard id (time, c.m_dataClipboard id)).proxyCalls = c.proxyCalls ∧
    (c.sendClipboard id (time, c.m_dataClipboard id)).m_dataClipboard = c.m_dataClipboard ∧
    (c.sendClipboard id (time, c.m_dataClipboard id)).m_sentClipboard = c.m_sentClipboard ∧
    (c.sendClipboard id (time, c.m_dataClipboard id)).m_timeClipboard id = time := by
  refine ⟨by simp [Client.sendClipboard, htime], ?_⟩
  unfold Client.sendClipboard
  by_cases h1 : c.m_timeClipboard id = 0 ∨ time ≠ c.m_timeClipboard id
  · simp [h1, hsent]
  · have h2 : time = c.m_timeClipboard id := by
      by_contra hne
      exact h1 (Or.inr hne)
    simp [h2, htime]

/-- C27, at a concrete input: the client that has sent clipboard 0 with time 5 and data
`[1]` is asked to send it again, the screen reporting time 5 (with other data), and
again with the new time 6 and the same data. -/
theorem unchanged_clipboard_not_resent_witness :
    sentClipboardClient.m_sentClipboard 0 = true ∧
    sentClipboardClient.m_timeClipboard 0 = 5 ∧
    sentClipboardClient.m_dataClipboard 0 = [1] ∧
    sentClipboardClient.proxyCalls = [ProxyCall.onClipboardChanged 0 [1]] ∧
    sentClipboardClient.m_timeClipboard 0 ≠ 0 ∧
    (sentClipboardClient.sendClipboard 0 (sentClipboardClient.m_timeClipboard 0, [2])
      = sentClipboardClient ∧
    (sentClipboardClient.sendClipboard 0 (6, sentClipboardClient.m_dataClipboard 0)).proxyCalls
      = sentClipboardClient.proxyCalls ∧
    (sentClipboardClient.sendClipboard 0
        (6, sentClipboardClient.m_dataClipboard 0)).m_dataClipboard
      = sentClipboardClient.m_dataClipboard ∧
    (sentClipboardClient.sendClipboard 0
        (6, sentClipboardClient.m_dataClipboard 0)).m_sentClipboard
      = sentClipboardClient.m_sentClipboard ∧
    (sentClipboardClient.sendClipboard 0
        (6, sentClipboardClient.m_dataClipboard 0)).m_timeClipboard 0 = 6) :=
  ⟨by decide, by decide, by decide, by decide, by decide,
    unchanged_clipboard_not_resent sentClipboardClient 0 6 [2] (by decide) (by decide)⟩

/-! ## The scan of `setOptions` -/

/-- C29, the code at failing inputs, 77 standing for `kOptionClipboardSharing`: on the
list of the one pair `(5, 77)` the scan takes the value 77 for the option id and reads
the element after the end; on the pairs `(5, 77), (77, 0)` it takes the id of the second
pair for the value and leaves clipboard sharing enabled, though the value paired with the
id is 0; on the one pair `(77, 0)` sharing is switched off. -/
theorem setOptions_takes_value_for_id :
    (Client.setOptions 77 [5, 77] connectedClient).isNone = true ∧
    (Client.setOptions 77 [5, 77, 77, 0] connectedClient).map (fun c => c.m_enableClipboard)
      = some true ∧
    (Client.setOptions 77 [77, 0] connectedClient).map (fun c => c.m_enableClipboard)
      = some false := by
  decide

/-! ## The handlers of the listener for an unknown client -/

/-- C30, the code at failing inputs: the listener accepts the unknown client with target
9 and then handles the end of its handshake. Whether the handshake failed or succeeded,
the client has left the new-clients set, but the `CLIENT_PROXY_UNKNOWN_SUCCESS` and
`CLIENT_PROXY_UNKNOWN_FAILURE` handlers that `handle_client_accepted` registered for
target 9 are both still in the dispatcher: the two `removeHandler` calls name the client
proxy (null after a failure), not the unknown client. -/
theorem unknown_client_handlers_survive :
    ((freshListener.handle_client_accepted failedUnknown).handle_unknown_client
        failedUnknown).m_newClients = [] ∧
    ((freshListener.handle_client_accepted failedUnknown).handle_unknown_client
        failedUnknown).m_events.handlers
      = [(EventType.CLIENT_PROXY_UNKNOWN_SUCCESS, 9,
            ClientHandler.listener_handle_unknown_client),
         (EventType.CLIENT_PROXY_UNKNOWN_FAILURE, 9,
            ClientHandler.listener_handle_unknown_client)] ∧
    ((freshListener.handle_client_accepted succeededUnknown).handle_unknown_client
        succeededUnknown).m_newClients = [] ∧
    ((freshListener.handle_client_accepted succeededUnknown).handle_unknown_client
        succeededUnknown).m_events.handlers
      = [(EventType.CLIENT_PROXY_UNKNOWN_SUCCESS, 9,
            ClientHandler.listener_handle_unknown_client),
         (EventType.CLIENT_PROXY_UNKNOWN_FAILURE, 9,
            ClientHandler.listener_handle_unknown_client),
         (EventType.CLIENT_PROXY_DISCONNECTED, 11,
            ClientHandler.listener_handle_client_disconnected)] := by
  decide

/-! ## Two calls of `sendFile` at once, and a file of three chunks -/

theorem FileChunk.data_dataSize (d : List Byte) (n : Nat) :
    (FileChunk.data d n).m_dataSize = n := by
  simp [FileChunk.data, FileChunk.new, FILE_CHUNK_META_SIZE]

theorem SendFilePair.pair_run_cons (p : SendFilePair) (a : PairAction) (rest : List PairAction) :
    p.run (a :: rest) = (p.act a).run rest := rfl

theorem SendFilePair.pair_run_nil (p : SendFilePair) : p.run [] = p := rfl

theorem SendFilePair.pair_first_chunk (B : List Byte) (hB : B.length = 65537) :
    (SendFilePair.init (some B) 7 (some [7]) 7 emptyQueue StreamChunker.initial).run
      [PairAction.first, PairAction.first, PairAction.first, PairAction.first,
       PairAction.first]
    = { first := { pc := SendFilePc.loopCheck, file := some B, eventTarget := 7,
                   size := 65537, sentLength := 32768, chunkSize := 32768,
                   statics := { s_isChunkingFile := true, s_interruptFile := false },
                   events := emptyQueue.addAll
                     [fileChunkEvent 7 (FileChunk.start (sizeTypeToString 65537)),
                      keepAliveEvent 7,
                      fileChunkEvent 7 (FileChunk.data (fileRead B 0 32768) 32768)] },
        second := SendFile.init (some [7]) emptyQueue 7 StreamChunker.initial,
        statics := { s_isChunkingFile := true, s_interruptFile := false },
        events := emptyQueue.addAll
          [fileChunkEvent 7 (FileChunk.start (sizeTypeToString 65537)),
           keepAliveEvent 7,
           fileChunkEvent 7 (FileChunk.data (fileRead B 0 32768) 32768)] } := by
  simp [SendFilePair.run, SendFilePair.act, SendFilePair.init, SendFile.init, SendFile.step,
    StreamChunker.initial, hB, g_chunkSize, EventQueue.add_event, EventQueue.addAll,
    emptyQueue, fileChunkEvent, keepAliveEvent]

theorem SendFilePair.second_first (B : List Byte) (hB : B.length = 65537) :
    (((SendFilePair.init (some B) 7 (some [7]) 7 emptyQueue StreamChunker.initial).run
      [PairAction.first, PairAction.first, PairAction.first, PairAction.first,
       PairAction.first]).act PairAction.interrupt).run secondSendFirst
    = { first := { pc := SendFilePc.done, file := some B, eventTarget := 7,
                   size := 65537, sentLength := 65537, chunkSize := 1,
                   statics := { s_isChunkingFile := false, s_interruptFile := false },
                   events := emptyQueue.addAll
                     [fileChunkEvent 7 (FileChunk.start (sizeTypeToString 65537)),
                      keepAliveEvent 7,
                      fileChunkEvent 7 (FileChunk.data (fileRead B 0 32768) 32768),
                      fileChunkEvent 7 (FileChunk.start (sizeTypeToString 1)),
                      fileChunkEvent 7 FileChunk.end_,
                      keepAliveEvent 7,
                      fileChunkEvent 7 (FileChunk.data (fileRead B 32768 32768) 32768),
                      keepAliveEvent 7,
                      fileChunkEvent 7 (FileChunk.data (fileRead B 65536 1) 1),
                      fileChunkEvent 7 FileChunk.end_] },
        second := { pc := SendFilePc.done, file := some [7], eventTarget := 7,
                    size := 1, sentLength := 0, chunkSize := 32768,
                    statics := { s_isChunkingFile := false, s_interruptFile := false },
                    events := emptyQueue.addAll
                      [fileChunkEvent 7 (FileChunk.start (sizeTypeToString 65537)),
                       keepAliveEvent 7,
                       fileChunkEvent 7 (FileChunk.data (fileRead B 0 32768) 32768),
                       fileChunkEvent 7 (FileChunk.start (sizeTypeToString 1)),
                       fileChunkEvent 7 FileChunk.end_] },
        statics := { s_isChunkingFile := false, s_interruptFile := false },
        events := emptyQueue.addAll
          [fileChunkEvent 7 (FileChunk.start (sizeTypeToString 65537)),
           keepAliveEvent 7,
           fileChunkEvent 7 (FileChunk.data (fileRead B 0 32768) 32768),
           fileChunkEvent 7 (FileChunk.start (sizeTypeToString 1)),
           fileChunkEvent 7 FileChunk.end_,
           keepAliveEvent 7,
           fileChunkEvent 7 (FileChunk.data (fileRead B 32768 32768) 32768),
           keepAliveEvent 7,
           fileChunkEvent 7 (FileChunk.data (fileRead B 65536 1) 1),
           fileChunkEvent 7 FileChunk.end_] } := by
  rw [SendFilePair.pair_first_chunk B hB]
  have hrun : ∀ (p : SendFilePair) (a : PairAction) (rest : List PairAction),
      p.run (a :: rest) = (p.act a).run rest := fun _ _ _ => rfl
  simp only [SendFilePair.act, StreamChunker.interruptFile, if_true, secondSendFirst]
  iterate 13
    rw [hrun]
    simp only [SendFilePair.act, SendFile.step, SendFile.init, StreamChunker.initial]
    norm_num [g_chunkSize, EventQueue.add_event, EventQueue.addAll, emptyQueue]
  rfl

theorem threeChunkFile_length : threeChunkFile.length = 65537 :=
  List.length_replicate _ _

theorem SendFile.first_chunk (B : List Byte) (hB : B.length = 65537) :
    (SendFile.init (some B) emptyQueue 7 StreamChunker.initial).run
      [Action.step, Action.step, Action.step, Action.step, Action.step]
    = { pc := SendFilePc.loopCheck, file := some B, eventTarget := 7,
        size := 65537, sentLength := 32768, chunkSize := 32768,
        statics := { s_isChunkingFile := true, s_interruptFile := false },
        events := emptyQueue.addAll
          [fileChunkEvent 7 (FileChunk.start (sizeTypeToString 65537)),
           keepAliveEvent 7,
           fileChunkEvent 7 (FileChunk.data (fileRead B 0 32768) 32768)] } := by
  simp only [SendFile.init, StreamChunker.initial]
  iterate 5
    rw [SendFile.run_cons]
    simp only [SendFile.act, SendFile.step]
    norm_num [hB, g_chunkSize, EventQueue.add_event, EventQueue.addAll, emptyQueue]
  rfl

theorem SendFile.rest_undisturbed (B : List Byte) (hB : B.length = 65537) :
    ((SendFile.init (some B) emptyQueue 7 StreamChunker.initial).run
      [Action.step, Action.step, Action.step, Action.step, Action.step]).run eightSteps
    = { pc := SendFilePc.done, file := some B, eventTarget := 7,
        size := 65537, sentLength := 65537, chunkSize := 1,
        statics := { s_isChunkingFile := false, s_interruptFile := false },
        events := emptyQueue.addAll
          [fileChunkEvent 7 (FileChunk.start (sizeTypeToString 65537)),
           keepAliveEvent 7,
           fileChunkEvent 7 (FileChunk.data (fileRead B 0 32768) 32768),
           keepAliveEvent 7,
           fileChunkEvent 7 (FileChunk.data (fileRead B 32768 32768) 32768),
           keepAliveEvent 7,
           fileChunkEvent 7 (FileChunk.data (fileRead B 65536 1) 1),
           fileChunkEvent 7 FileChunk.end_] } := by
  rw [SendFile.first_chunk B hB]
  simp only [eightSteps]
  iterate 8
    rw [SendFile.run_cons]
    simp only [SendFile.act, SendFile.step]
    norm_num [g_chunkSize, EventQueue.add_event, EventQueue.addAll, emptyQueue]
  rfl

theorem SendFile.run_append (s : SendFile) (xs ys : List Action) :
    s.run (xs ++ ys) = (s.run xs).run ys := by
  simp [SendFile.run, List.foldl_append]

theorem sizeTypeToString_lengths :
    (sizeTypeToString 65537).length = 5 ∧ (sizeTypeToString 1).length = 1 := by
  decide

theorem FileChunk.start_dataSize (d : List Byte) :
    (FileChunk.start d).m_dataSize = d.length := by
  rw [FileChunk.start_eq]

theorem FileChunk.end_dataSize : FileChunk.end_.m_dataSize = 0 := rfl

/-- C6, the code at a failing input: a first `sendFile`, of a file of 65537 bytes, has
posted Start and its first Data chunk and stands at its flag check when
`interruptFile()` is called, as `Client::sendFileToServer` does before it starts the next
send thread; the call sets the flag. The second `sendFile`, of a one-byte file, then runs
first: its flag check takes the flag and clears it, and it returns having posted Start
and End only. The first `sendFile` goes on and posts both of its remaining Data chunks
(32768 bytes and 1 byte) and End: two Data chunks after the flag was set, not at most
one. -/
theorem second_send_takes_the_interrupt :
    firstChunkPosted.first.pc = SendFilePc.loopCheck ∧
    firstChunkPosted.second.pc = SendFilePc.entry ∧
    firstChunkPosted.statics.s_isChunkingFile = true ∧
    (fileChunksOf firstChunkPosted.events.events).map
        (fun c => (isDataChunk c, c.m_dataSize))
      = [(false, 5), (true, 32768)] ∧
    (firstChunkPosted.act PairAction.interrupt).statics.s_interruptFile = true ∧
    ((firstChunkPosted.act PairAction.interrupt).run secondSendFirst).first.pc
      = SendFilePc.done ∧
    ((firstChunkPosted.act PairAction.interrupt).run secondSendFirst).second.pc
      = SendFilePc.done ∧
    (fileChunksOf (postedSince firstChunkPosted.events
        ((firstChunkPosted.act PairAction.interrupt).run secondSendFirst).events)).map
        (fun c => (isDataChunk c, c.m_dataSize))
      = [(false, 1), (false, 0), (true, 32768), (true, 1), (false, 0)] ∧
    dataChunkCount (postedSince firstChunkPosted.events
        ((firstChunkPosted.act PairAction.interrupt).run secondSendFirst).events) = 2 := by
  have h1 := SendFilePair.pair_first_chunk threeChunkFile threeChunkFile_length
  have h2 := SendFilePair.second_first threeChunkFile threeChunkFile_length
  obtain ⟨h5, h0⟩ := sizeTypeToString_lengths
  unfold firstChunkPosted
  rw [h2, h1]
  simp [fileChunksOf, postedSince, dataChunkCount, EventQueue.addAll, emptyQueue,
    fileChunkEvent, keepAliveEvent, isDataChunk_data, isDataChunk_start, isDataChunk_end,
    FileChunk.data_dataSize, FileChunk.start_dataSize, FileChunk.end_dataSize,
    SendFilePair.act, List.countP_cons,
    StreamChunker.interruptFile, SendFile.init, h5, h0]

theorem SendFile.whole_undisturbed (B : List Byte) (hB : B.length = 65537) :
    (SendFile.init (some B) emptyQueue 7 StreamChunker.initial).run thirteenSteps
    = { pc := SendFilePc.done, file := some B, eventTarget := 7,
        size := 65537, sentLength := 65537, chunkSize := 1,
        statics := { s_isChunkingFile := false, s_interruptFile := false },
        events := emptyQueue.addAll
          [fileChunkEvent 7 (FileChunk.start (sizeTypeToString 65537)),
           keepAliveEvent 7,
           fileChunkEvent 7 (FileChunk.data (fileRead B 0 32768) 32768),
           keepAliveEvent 7,
           fileChunkEvent 7 (FileChunk.data (fileRead B 32768 32768) 32768),
           keepAliveEvent 7,
           fileChunkEvent 7 (FileChunk.data (fileRead B 65536 1) 1),
           fileChunkEvent 7 FileChunk.end_] } := by
  have h : thirteenSteps
      = [Action.step, Action.step, Action.step, Action.step, Action.step] ++ eightSteps := rfl
  rw [h, SendFile.run_append]
  exact SendFile.rest_undisturbed B hB

theorem wholeRun_facts :
    ((SendFile.init (some threeChunkFile) emptyQueue 7 StreamChunker.initial).run
        thirteenSteps).pc = SendFilePc.done ∧
    (postedSince emptyQueue
        ((SendFile.init (some threeChunkFile) emptyQueue 7 StreamChunker.initial).run
          thirteenSteps).events).countP Event.isKeepAlive = 3 ∧
    (postedSince emptyQueue
        ((SendFile.init (some threeChunkFile) emptyQueue 7 StreamChunker.initial).run
          thirteenSteps).events).countP Event.isDataEvent = 3 := by
  rw [SendFile.whole_undisturbed threeChunkFile threeChunkFile_length]
  simp [postedSince, EventQueue.addAll, emptyQueue, fileChunkEvent, keepAliveEvent,
    Event.isKeepAlive, Event.isDataEvent, isDataChunk_data, isDataChunk_start,
    isDataChunk_end, List.countP_cons]

/-- C25, at a concrete input: the send of a file of 65537 bytes for target 7, run from
its call to its return, which posts three keepalives and three Data chunks; and the
clipboard `[1, 2, 3]`. -/
theorem keepalive_per_data_chunk_witness :
    ((SendFile.init (some threeChunkFile) emptyQueue 7 StreamChunker.initial).run
        thirteenSteps).pc ≠ SendFilePc.sendData ∧
    (postedSince emptyQueue
        ((SendFile.init (some threeChunkFile) emptyQueue 7 StreamChunker.initial).run
          thirteenSteps).events).countP Event.isKeepAlive = 3 ∧
    (postedSince emptyQueue
        ((SendFile.init (some threeChunkFile) emptyQueue 7 StreamChunker.initial).run
          thirteenSteps).events).countP Event.isDataEvent = 3 ∧
    (keepAlivePaired (postedSince emptyQueue
      ((SendFile.init (some threeChunkFile) emptyQueue 7 StreamChunker.initial).run
        thirteenSteps).events) = true ∧
    (postedSince emptyQueue
        ((SendFile.init (some threeChunkFile) emptyQueue 7 StreamChunker.initial).run
          thirteenSteps).events).countP Event.isKeepAlive
      = (postedSince emptyQueue
        ((SendFile.init (some threeChunkFile) emptyQueue 7 StreamChunker.initial).run
          thirteenSteps).events).countP Event.isDataEvent ∧
    ∃ q : EventQueue,
      StreamChunker.sendClipboard [1, 2, 3] [1, 2, 3].length 0 1 emptyQueue 7 = some q ∧
      keepAlivePaired (postedSince emptyQueue q) = true ∧
      (postedSince emptyQueue q).countP Event.isKeepAlive
        = (postedSince emptyQueue q).countP Event.isDataEvent) :=
  have hpc : ((SendFile.init (some threeChunkFile) emptyQueue 7 StreamChunker.initial).run
      thirteenSteps).pc ≠ SendFilePc.sendData := by
    rw [wholeRun_facts.1]
    decide
  ⟨hpc, wholeRun_facts.2.1, wholeRun_facts.2.2,
    keepalive_per_data_chunk (some threeChunkFile) emptyQueue 7 StreamChunker.initial
      thirteenSteps [1, 2, 3] 0 1 hpc⟩

end inputleap
